import Mathlib

/-!
# OSCWidgets: network transports

A shallow embedding of `NetworkThreads.cpp` (the three transport classes
`EosUdpOutThread`, `EosUdpInThread`, `EosTcpClientThread`) and of the parts of
`MainWindow.cpp` that drive them.

Conventions of the embedding

* A `char *` buffer is an `Option Bytes`: `none` is the null pointer, `some bs`
  a live buffer holding `bs`.
* `std::vector` queues are lists; `push_back` appends at the end, `swap`
  exchanges the two lists, `clear` gives `[]`.
* Each transport class is one structure: its member fields, then the state of
  its worker thread (`pc`, the position inside `run()`, and the locals of
  `run()`), then `history`, a ghost record of what the worker did.
* `run()` is a step function. One step is one statement group of `run()` with
  at most one access to the fields shared with the owner thread, so steps of the
  worker and calls of the owner interleave at the granularity of the mutex.
  Everything the worker learns from outside (socket results, timer, parser
  callbacks) is an argument of the step.
* `QThread::wait()` runs the worker until `run()` has returned.
* A `QString` and a `std::string` are strings. `QString::arg` is modelled after
  the Qt library: it replaces the place markers with the lowest number in the
  string it is called on, the text of earlier arguments included. What the
  default locale of the process makes of a number (place markers with the `L`
  flag) is the field `locale` of the transport.
-/

namespace OSCWidgets

/-! ## Data model (`NetworkThreads.h`, `EosLog`) -/

abbrev Bytes := List Nat

/-- Packet `sPacket` of `NetworkThreads.h`: a buffer pointer and a length. -/
structure sPacket where
  data : Option Bytes
  size : Nat
deriving DecidableEq, Repr, Inhabited

/-- Net-event enumeration pushed by the workers. -/
inductive NetEvent where
  | NET_EVENT_CONNECTED
  | NET_EVENT_DISCONNECTED
deriving DecidableEq, Repr, Inhabited

abbrev PACKET_Q := List sPacket
abbrev NETEVENT_Q := List NetEvent

/-- Message kinds of `EosLog`. -/
inductive LogMsgType where
  | LOG_MSG_TYPE_INFO
  | LOG_MSG_TYPE_SEND
  | LOG_MSG_TYPE_RECV
deriving DecidableEq, Repr, Inhabited

structure sLogMsg where
  type : LogMsgType
  text : String
deriving DecidableEq, Repr, Inhabited

abbrev LOG_Q := List sLogMsg

/-- Modelled from the spec: `EosLog` is not part of the sources; the spec calls it an
append-only message list that the owner drains. `AddInfo` appends one info line. -/
def EosLog.AddInfo (log : LOG_Q) (text : String) : LOG_Q :=
  log ++ [⟨.LOG_MSG_TYPE_INFO, text⟩]

/-- Modelled from the spec: `EosLog::Add` appends one line of the given kind. -/
def EosLog.Add (log : LOG_Q) (type : LogMsgType) (text : String) : LOG_Q :=
  log ++ [⟨type, text⟩]

/-- Modelled from the spec: `EosLog::AddLog` / `AddQ` append the lines of another log. -/
def EosLog.AddLog (log other : LOG_Q) : LOG_Q :=
  log ++ other

/-- Modelled from the spec: `EosLog::Flush` drains the log into the container of the
caller; the result is `(log afterwards, container afterwards)`. -/
def EosLog.Flush (log : LOG_Q) (_out : LOG_Q) : LOG_Q × LOG_Q :=
  ([], log)

/-- `std::vector::clear`. -/
def clear {α : Type} (_q : List α) : List α := []

/-- What the worker threads do, in the order they do it. -/
inductive Effect where
  /-- `m_NetEventQ.push_back(e)` -/
  | netEvent (e : NetEvent)
  /-- `push_back` of a received packet on the receive queue -/
  | recv (p : sPacket)
  /-- A socket write (`SendPacket` / `Send`) of a buffer, with its result -/
  | write (data : Option Bytes) (size : Int) (ok : Bool)
  /-- `delete[]` of a buffer -/
  | free (data : Option Bytes)
  /-- `msleep(ms)` -/
  | sleep (ms : Nat)
deriving DecidableEq, Repr

/-- The net events of a history, in order. -/
def netEventsOf : List Effect → List NetEvent
  | [] => []
  | .netEvent e :: h => e :: netEventsOf h
  | _ :: h => netEventsOf h

/-- `static_cast<int>` of a `size_t`. -/
def castInt (n : Nat) : Int :=
  let m : Nat := n % 2 ^ 32
  if m < 2 ^ 31 then (m : Int) else (m : Int) - 2 ^ 32

/-- `const unsigned int ReconnectDelay = 5000;` -/
def ReconnectDelay : Nat := 5000

/-! ## Text formatting of the library: `QString::arg` -/

namespace QString

/-- A piece of a string as `QString::arg` reads it: a character of text, or a place
marker with its number, its `L` flag and the characters it is written with. -/
inductive Piece where
  | text (c : Char)
  | marker (n : Nat) (locale : Bool) (raw : List Char)
deriving DecidableEq, Repr

/-- Where the scan for place markers stands: in text, behind `%`, behind `%L`, or behind
the first digit `d` of a place marker. -/
inductive Scan where
  | text
  | percent
  | percentL
  | digit (locale : Bool) (d : Char)
deriving DecidableEq, Repr

/-- `QChar::digitValue` of a digit `0` to `9`. -/
def digitValue (c : Char) : Nat := c.toNat - 48

/-- The place marker written `%d` or `%Ld`. -/
def marker1 (locale : Bool) (d : Char) : Piece :=
  .marker (digitValue d) locale (if locale then ['%', 'L', d] else ['%', d])

/-- The place marker written `%de` or `%Lde`. -/
def marker2 (locale : Bool) (d e : Char) : Piece :=
  .marker (10 * digitValue d + digitValue e) locale
    (if locale then ['%', 'L', d, e] else ['%', d, e])

/-- The scan of `QString::arg` for place markers: a place marker is `%`, an optional
`L`, and one or two digits; everything else is text. -/
def scan : Scan → List Char → List Piece
  | .text, [] => []
  | .percent, [] => [.text '%']
  | .percentL, [] => [.text '%', .text 'L']
  | .digit l d, [] => [marker1 l d]
  | .text, c :: cs => if c = '%' then scan .percent cs else .text c :: scan .text cs
  | .percent, c :: cs =>
    if c = 'L' then scan .percentL cs
    else if c.isDigit then scan (.digit false c) cs
    else if c = '%' then .text '%' :: scan .percent cs
    else .text '%' :: .text c :: scan .text cs
  | .percentL, c :: cs =>
    if c.isDigit then scan (.digit true c) cs
    else if c = '%' then .text '%' :: .text 'L' :: scan .percent cs
    else .text '%' :: .text 'L' :: .text c :: scan .text cs
  | .digit l d, c :: cs =>
    if c.isDigit then marker2 l d c :: scan .text cs
    else if c = '%' then marker1 l d :: scan .percent cs
    else marker1 l d :: .text c :: scan .text cs

/-- The lowest number of a place marker, if there is a place marker. -/
def lowest : List Piece → Option Nat
  | [] => none
  | .text _ :: ps => lowest ps
  | .marker n _ _ :: ps =>
    match lowest ps with
    | none => some n
    | some m => some (min n m)

/-- The pieces put together again, with `a` for the place markers of number `n` and
`aL` for those of them with the `L` flag. -/
def render (n : Nat) (a aL : List Char) : List Piece → List Char
  | [] => []
  | .text c :: ps => c :: render n a aL ps
  | .marker m l raw :: ps =>
    (if m = n then (if l then aL else a) else raw) ++ render n a aL ps

/-- The common part of the overloads of `QString::arg`: every place marker with the
lowest number is replaced, by `a`, or by `aL` when it has the `L` flag; a string
without a place marker stays as it is. -/
def replaced (s a aL : String) : String :=
  match lowest (scan .text s.toList) with
  | none => s
  | some n => String.mk (render n a.toList aL.toList (scan .text s.toList))

/-- `QString::arg(const QString &a)`. -/
def arg (s a : String) : String := replaced s a a

/-- `QString::arg` for an unsigned number (`ushort`, `uint`, `size_t`): the number in
decimal digits; a place marker with the `L` flag takes what the default locale makes
of the number. -/
def argN (s : String) (n : Nat) (locale : Nat → String) : String :=
  replaced s (toString n) (locale n)

/-- `s.toUtf8().constData()` read as a C string: the text before the first NUL. -/
def constData (s : String) : String :=
  String.mk (s.toList.takeWhile (fun c => c != Char.ofNat 0))

end QString


/-- A text without the character `%` and without NUL. -/
def plainText (s : String) : Prop :=
  ∀ c ∈ s.toList, c ≠ '%' ∧ c ≠ Char.ofNat 0

instance (s : String) : Decidable (plainText s) := by
  unfold plainText; infer_instance

/-! ## `EosUdpOutThread` -/

/-- Positions inside `EosUdpOutThread::run()` (line numbers of `NetworkThreads.cpp`). -/
inductive UdpOutPc where
  /-- no worker thread is running -/
  | idle
  /-- 115-122: "thread started", prefix -/
  | start
  /-- 125: `while (m_Run)` -/
  | outerTest
  /-- 127-128: `Create`, `Initialize` -/
  | init
  /-- 130-138: push `NET_EVENT_CONNECTED`, local queue `q` -/
  | pushConnected
  /-- 139: `while (m_Run)` -/
  | innerTest
  /-- 141-145: `m_Q.swap(q)`, `i = q.begin()` -/
  | swap
  /-- 145: `i != q.end()` -/
  | forTest
  /-- 147-149, `i++`: `SendPacket`, `PrintPacket`, `delete[]` -/
  | sendOne
  /-- 151-155: `q.clear()`, `UpdateLog`, `msleep(1)` -/
  | afterFor
  /-- 158-160: push `NET_EVENT_DISCONNECTED` -/
  | pushDisconnected
  /-- 163: `delete udpOut` -/
  | deleteUdp
  /-- 165-170: `if (m_Run)` "reconnecting in" -/
  | reconnectTest
  /-- 172: `reconnectTimer.Start()` -/
  | timerStart
  /-- 173-174: `while (m_Run && !GetExpired)` `msleep(10)` -/
  | delayTest
  /-- 177-179: "thread ended" -/
  | ended
deriving DecidableEq, Repr, Inhabited

/-- What one step of the UDP output worker learns from outside. -/
structure UdpOutInput where
  /-- result of `Initialize` / `SendPacket` -/
  ok : Bool
  /-- result of `reconnectTimer.GetExpired(ReconnectDelay)` -/
  expired : Bool
  /-- lines the socket call wrote to `m_PrivateLog` -/
  log : LOG_Q
  /-- messages `PrintPacket` hands to `OSCParserClient_Log` -/
  printed : List String
deriving Repr, Inhabited

structure EosUdpOutThread where
  m_Ip : String
  m_Port : Nat
  m_Run : Bool
  m_Q : PACKET_Q
  m_NetEventQ : NETEVENT_Q
  m_Log : LOG_Q
  m_PrivateLog : LOG_Q
  m_Prefix : String
  m_LogMsg : String
  /-- worker: position in `run()` -/
  pc : UdpOutPc
  /-- worker local `PACKET_Q q` -/
  q : PACKET_Q
  /-- worker local iterator `i`, as an index into `q` -/
  i : Nat
  /-- ghost: effects of the current worker run -/
  history : List Effect
  /-- environment: what the default `QLocale` of the process makes of a number, used by
  `QString::arg` at a place marker with the `L` flag; the runs of this file take the
  decimal digits -/
  locale : Nat → String := fun n => toString n
deriving Inhabited

namespace EosUdpOutThread

/-- Constructor: `m_Port(0)`, `m_Run(false)`, everything else empty, no thread. -/
def new : EosUdpOutThread :=
  { m_Ip := "", m_Port := 0, m_Run := false, m_Q := [], m_NetEventQ := [],
    m_Log := [], m_PrivateLog := [], m_Prefix := "", m_LogMsg := "",
    pc := .idle, q := [], i := 0, history := [] }

/-- `EosUdpOutThread::Send` (89-99): the new state and the returned flag. -/
def Send (s : EosUdpOutThread) (packet : sPacket) : EosUdpOutThread × Bool :=
  if packet.data.isSome && packet.size != 0 then
    ({ s with m_Q := s.m_Q ++ [packet] }, true)
  else
    (s, false)

/-- `EosUdpOutThread::Flush` (103-109): the new state and the two containers of the
caller afterwards. -/
def Flush (s : EosUdpOutThread) (logQ : LOG_Q) (netEventQ : NETEVENT_Q) :
    EosUdpOutThread × LOG_Q × NETEVENT_Q :=
  let r := EosLog.Flush s.m_Log logQ
  ({ s with m_Log := r.1, m_NetEventQ := netEventQ }, r.2, s.m_NetEventQ)

/-- `EosUdpOutThread::UpdateLog` (192-199). -/
def UpdateLog (s : EosUdpOutThread) : EosUdpOutThread :=
  { s with m_Log := EosLog.AddLog s.m_Log s.m_PrivateLog, m_PrivateLog := [] }

/-- `EosUdpOutThread::OSCParserClient_Log` (184-188). -/
def OSCParserClient_Log (s : EosUdpOutThread) (message : String) : EosUdpOutThread :=
  let s := { s with m_LogMsg := s.m_Prefix ++ message }
  { s with m_PrivateLog := EosLog.Add s.m_PrivateLog .LOG_MSG_TYPE_SEND s.m_LogMsg }

/-- `QString("udp output %1:%2 ...").arg(m_Ip).arg(m_Port)`: the text `what` behind the
place markers for address and port, and the two filled in. -/
def msg (s : EosUdpOutThread) (what : String) : String :=
  QString.argN (QString.arg ("udp output %1:%2 " ++ what) s.m_Ip) s.m_Port s.locale

/-- The text of the line of 167-168: `msg.toUtf8().constData()` for
`QString("udp output %1:%2 reconnecting in %3...")` with `m_Ip`, `m_Port` and
`ReconnectDelay / 1000` filled in. -/
def reconnectText (s : EosUdpOutThread) : String :=
  QString.constData
    (QString.argN (s.msg "reconnecting in %3...") (ReconnectDelay / 1000) s.locale)

/-- One step of `EosUdpOutThread::run()` (113-180). -/
def runStep (inp : UdpOutInput) (s : EosUdpOutThread) : EosUdpOutThread :=
  match s.pc with
  | .idle => s
  | .start =>
    let text := QString.constData (s.msg "thread started")
    let s := { s with m_PrivateLog := EosLog.AddInfo s.m_PrivateLog text }
    let s := s.UpdateLog
    { s with m_Prefix := QString.constData
               (QString.argN (QString.arg "OUT [%1:%2] " s.m_Ip) s.m_Port s.locale),
             pc := .outerTest }
  | .outerTest =>
    if s.m_Run then { s with pc := .init } else { s with pc := .ended }
  | .init =>
    let s := { s with m_PrivateLog := EosLog.AddLog s.m_PrivateLog inp.log }
    if inp.ok then { s with pc := .pushConnected } else { s with pc := .deleteUdp }
  | .pushConnected =>
    { s with m_NetEventQ := s.m_NetEventQ ++ [.NET_EVENT_CONNECTED],
             history := s.history ++ [.netEvent .NET_EVENT_CONNECTED],
             q := [], pc := .innerTest }
  | .innerTest =>
    if s.m_Run then { s with pc := .swap } else { s with pc := .pushDisconnected }
  | .swap =>
    { s with m_Q := s.q, q := s.m_Q, i := 0, pc := .forTest }
  | .forTest =>
    if s.i < s.q.length then { s with pc := .sendOne } else { s with pc := .afterFor }
  | .sendOne =>
    let p := s.q.getD s.i default
    let s := { s with m_PrivateLog := EosLog.AddLog s.m_PrivateLog inp.log }
    let s := if inp.ok then inp.printed.foldl OSCParserClient_Log s else s
    { s with history := s.history ++ [.write p.data (castInt p.size) inp.ok, .free p.data],
             i := s.i + 1, pc := .forTest }
  | .afterFor =>
    let s := { s with q := [] }
    let s := s.UpdateLog
    { s with history := s.history ++ [.sleep 1], pc := .innerTest }
  | .pushDisconnected =>
    { s with m_NetEventQ := s.m_NetEventQ ++ [.NET_EVENT_DISCONNECTED],
             history := s.history ++ [.netEvent .NET_EVENT_DISCONNECTED],
             pc := .deleteUdp }
  | .deleteUdp => { s with pc := .reconnectTest }
  | .reconnectTest =>
    if s.m_Run then
      let text := s.reconnectText
      let s := { s with m_PrivateLog := EosLog.AddInfo s.m_PrivateLog text }
      let s := s.UpdateLog
      { s with pc := .timerStart }
    else { s with pc := .timerStart }
  | .timerStart => { s with pc := .delayTest }
  | .delayTest =>
    if s.m_Run && !inp.expired then
      { s with history := s.history ++ [.sleep 10], pc := .delayTest }
    else { s with pc := .outerTest }
  | .ended =>
    let text := QString.constData (s.msg "thread ended")
    let s := { s with m_PrivateLog := EosLog.AddInfo s.m_PrivateLog text }
    let s := s.UpdateLog
    { s with pc := .idle }

/-- `QThread::wait()`: the worker runs until `run()` has returned. The list gives what
the worker learns from outside, one entry per step; `none` when the list is used up
before the worker has finished. -/
def wait : List UdpOutInput → EosUdpOutThread → Option EosUdpOutThread
  | [], s => if s.pc = .idle then some s else none
  | inp :: inps, s => if s.pc = .idle then some s else wait inps (runStep inp s)

/-- `EosUdpOutThread::Stop` (77-85). -/
def Stop (inps : List UdpOutInput) (s : EosUdpOutThread) : Option EosUdpOutThread :=
  let s := { s with m_Run := false }
  match wait inps s with
  | none => none
  | some s =>
    some { s with history := s.history ++ s.m_Q.map (fun (p : sPacket) => Effect.free p.data),
                  m_Q := [] }

/-- `QThread::start()`: a new worker thread enters `run()`. -/
def start (s : EosUdpOutThread) : EosUdpOutThread :=
  { s with pc := .start, q := [], i := 0, history := [] }

/-- `EosUdpOutThread::Start` (64-73). -/
def Start (inps : List UdpOutInput) (s : EosUdpOutThread) (ip : String) (port : Nat) :
    Option EosUdpOutThread :=
  match Stop inps s with
  | none => none
  | some s =>
    some (start { s with m_Ip := ip, m_Port := port, m_Run := true, m_NetEventQ := [] })

end EosUdpOutThread

/-! ## `EosUdpInThread` -/

/-- `new char[n]`: a fresh buffer of `n` bytes. -/
def newChar (n : Nat) : Bytes := List.replicate n 0

/-- `memcpy(dst, src, n)`: the contents of `dst` afterwards. -/
def memcpy (dst src : Bytes) (n : Nat) : Bytes := src.take n ++ dst.drop n

/-- Positions inside `EosUdpInThread::run()` (line numbers of `NetworkThreads.cpp`). -/
inductive UdpInPc where
  /-- no worker thread is running -/
  | idle
  /-- 256-258: "thread started" -/
  | start
  /-- 264: `while (m_Run)` -/
  | outerTest
  /-- 266-267: `Create`, `Initialize` -/
  | init
  /-- 269-275: parser, `scratch = 0`, `scratchSize = 0` -/
  | sessionInit
  /-- 278: `while (m_Run)` -/
  | innerTest
  /-- 280-303: `RecvPacket`, scratch copy, `ProcessPacket` -/
  | recv
  /-- 305-307: `UpdateLog`, `msleep(1)` -/
  | afterRecv
  /-- 310-311: `delete[] scratch` -/
  | freeScratch
  /-- 314: `delete udpIn` -/
  | deleteUdp
  /-- 316-321: `if (m_Run)` "reconnecting in" -/
  | reconnectTest
  /-- 323: `reconnectTimer.Start()` -/
  | timerStart
  /-- 324-325: `while (m_Run && !GetExpired)` `msleep(10)` -/
  | delayTest
  /-- 328-330: "thread ended" -/
  | ended
deriving DecidableEq, Repr, Inhabited

/-- What one step of the UDP input worker learns from outside. -/
structure UdpInInput where
  /-- result of `Initialize` -/
  ok : Bool
  /-- result of `reconnectTimer.GetExpired(ReconnectDelay)` -/
  expired : Bool
  /-- lines the socket call wrote to `m_PrivateLog` -/
  log : LOG_Q
  /-- messages `PrintPacket` hands to `OSCParserClient_Log` -/
  printed : List String
  /-- buffer returned by `RecvPacket` -/
  data : Option Bytes
  /-- `len` set by `RecvPacket` (an `int`) -/
  len : Int
  /-- sender address of the datagram, as text -/
  host : String
deriving Repr, Inhabited

structure EosUdpInThread where
  m_Ip : String
  m_Port : Nat
  m_Run : Bool
  m_Q : PACKET_Q
  m_Log : LOG_Q
  m_PrivateLog : LOG_Q
  m_Prefix : String
  m_LogMsg : String
  /-- worker: position in `run()` -/
  pc : UdpInPc
  /-- worker local `char *scratch` -/
  scratch : Option Bytes
  /-- worker local `size_t scratchSize` -/
  scratchSize : Nat
  /-- ghost: effects of the current worker run -/
  history : List Effect
  /-- environment: what the default `QLocale` of the process makes of a number, used by
  `QString::arg` at a place marker with the `L` flag; the runs of this file take the
  decimal digits -/
  locale : Nat → String := fun n => toString n
deriving Inhabited

namespace EosUdpInThread

/-- Constructor: `m_Port(0)`, `m_Run(false)`, everything else empty, no thread. -/
def new : EosUdpInThread :=
  { m_Ip := "", m_Port := 0, m_Run := false, m_Q := [],
    m_Log := [], m_PrivateLog := [], m_Prefix := "", m_LogMsg := "",
    pc := .idle, scratch := none, scratchSize := 0, history := [] }

/-- `EosUdpInThread::Flush` (242-250): the new state and the two containers of the
caller afterwards. -/
def Flush (s : EosUdpInThread) (logQ : LOG_Q) (recvQ : PACKET_Q) :
    EosUdpInThread × LOG_Q × PACKET_Q :=
  let recvQ := clear recvQ
  let r := EosLog.Flush s.m_Log logQ
  ({ s with m_Log := r.1, m_Q := recvQ }, r.2, s.m_Q)

/-- `EosUdpInThread::UpdateLog` (335-342). -/
def UpdateLog (s : EosUdpInThread) : EosUdpInThread :=
  { s with m_Log := EosLog.AddLog s.m_Log s.m_PrivateLog, m_PrivateLog := [] }

/-- `EosUdpInThread::OSCParserClient_Log` (346-350). -/
def OSCParserClient_Log (s : EosUdpInThread) (message : String) : EosUdpInThread :=
  let s := { s with m_LogMsg := s.m_Prefix ++ message }
  { s with m_PrivateLog := EosLog.Add s.m_PrivateLog .LOG_MSG_TYPE_RECV s.m_LogMsg }

/-- `EosUdpInThread::OSCHandlerClient_Recv` (354-367). -/
def OSCHandlerClient_Recv (s : EosUdpInThread) (buf : Option Bytes) (size : Nat) :
    EosUdpInThread :=
  match buf with
  | some bytes =>
    if size != 0 then
      let packet : sPacket := { size := size, data := some (memcpy (newChar size) bytes size) }
      { s with m_Q := s.m_Q ++ [packet], history := s.history ++ [.recv packet] }
    else s
  | none => s

/-- `OSCHandler::ProcessPacket` (41-45) on the handler that `run()` installs as the root
of its parser: the packet goes to `OSCHandlerClient_Recv`, the result is `true`. -/
def ProcessPacket (s : EosUdpInThread) (buf : Option Bytes) (size : Nat) :
    EosUdpInThread × Bool :=
  (s.OSCHandlerClient_Recv buf size, true)

/-- `QString("udp input %1:%2 ...").arg(m_Ip).arg(m_Port)`: the text `what` behind the
place markers for address and port, and the two filled in. -/
def msg (s : EosUdpInThread) (what : String) : String :=
  QString.argN (QString.arg ("udp input %1:%2 " ++ what) s.m_Ip) s.m_Port s.locale

/-- The text of the line of 318-319: `msg.toUtf8().constData()` for
`QString("udp input %1:%2 reconnecting in %3...")` with `m_Ip`, `m_Port` and
`ReconnectDelay / 1000` filled in. -/
def reconnectText (s : EosUdpInThread) : String :=
  QString.constData
    (QString.argN (s.msg "reconnecting in %3...") (ReconnectDelay / 1000) s.locale)

/-- The prefix of 286: `QString("IN  [%1:%2] ").arg(host.toString()).arg(m_Port)`, as
`toUtf8().constData()`. -/
def inPrefix (s : EosUdpInThread) (host : String) : String :=
  QString.constData (QString.argN (QString.arg "IN  [%1:%2] " host) s.m_Port s.locale)

/-- Lines 285-302 of `run()`: the work on one datagram `bytes` of length `len`: log
prefix, `PrintPacket`, the scratch buffer made large enough, the copy into it and
`ProcessPacket` on the copy. -/
def datagram (s : EosUdpInThread) (inp : UdpInInput) (bytes : Bytes) (len : Nat) :
    EosUdpInThread :=
  let s := { s with m_Prefix := s.inPrefix inp.host }
  let s := inp.printed.foldl OSCParserClient_Log s
  let s :=
    if s.scratch.isSome && s.scratchSize < len then
      { s with history := s.history ++ [.free s.scratch], scratch := none }
    else s
  let s :=
    if s.scratch.isNone then
      { s with scratchSize := len, scratch := some (newChar len) }
    else s
  let s := { s with scratch := s.scratch.map (fun dst => memcpy dst bytes len) }
  (s.ProcessPacket s.scratch len).1

/-- One step of `EosUdpInThread::run()` (254-331). -/
def runStep (inp : UdpInInput) (s : EosUdpInThread) : EosUdpInThread :=
  match s.pc with
  | .idle => s
  | .start =>
    let text := QString.constData (s.msg "thread started")
    let s := { s with m_PrivateLog := EosLog.AddInfo s.m_PrivateLog text }
    let s := s.UpdateLog
    { s with pc := .outerTest }
  | .outerTest =>
    if s.m_Run then { s with pc := .init } else { s with pc := .ended }
  | .init =>
    let s := { s with m_PrivateLog := EosLog.AddLog s.m_PrivateLog inp.log }
    if inp.ok then { s with pc := .sessionInit } else { s with pc := .deleteUdp }
  | .sessionInit =>
    { s with scratch := none, scratchSize := 0, pc := .innerTest }
  | .innerTest =>
    if s.m_Run then { s with pc := .recv } else { s with pc := .freeScratch }
  | .recv =>
    let s := { s with m_PrivateLog := EosLog.AddLog s.m_PrivateLog inp.log }
    match inp.data with
    | some bytes =>
      if inp.len > 0 then
        let s := s.datagram inp bytes inp.len.toNat
        { s with pc := .afterRecv }
      else { s with pc := .afterRecv }
    | none => { s with pc := .afterRecv }
  | .afterRecv =>
    let s := s.UpdateLog
    { s with history := s.history ++ [.sleep 1], pc := .innerTest }
  | .freeScratch =>
    if s.scratch.isSome then
      { s with history := s.history ++ [.free s.scratch], pc := .deleteUdp }
    else { s with pc := .deleteUdp }
  | .deleteUdp => { s with pc := .reconnectTest }
  | .reconnectTest =>
    if s.m_Run then
      let text := s.reconnectText
      let s := { s with m_PrivateLog := EosLog.AddInfo s.m_PrivateLog text }
      let s := s.UpdateLog
      { s with pc := .timerStart }
    else { s with pc := .timerStart }
  | .timerStart => { s with pc := .delayTest }
  | .delayTest =>
    if s.m_Run && !inp.expired then
      { s with history := s.history ++ [.sleep 10], pc := .delayTest }
    else { s with pc := .outerTest }
  | .ended =>
    let text := QString.constData (s.msg "thread ended")
    let s := { s with m_PrivateLog := EosLog.AddInfo s.m_PrivateLog text }
    let s := s.UpdateLog
    { s with pc := .idle }

/-- `QThread::wait()`: the worker runs until `run()` has returned. The list gives what
the worker learns from outside, one entry per step; `none` when the list is used up
before the worker has finished. -/
def wait : List UdpInInput → EosUdpInThread → Option EosUdpInThread
  | [], s => if s.pc = .idle then some s else none
  | inp :: inps, s => if s.pc = .idle then some s else wait inps (runStep inp s)

/-- `EosUdpInThread::Stop` (230-238). -/
def Stop (inps : List UdpInInput) (s : EosUdpInThread) : Option EosUdpInThread :=
  let s := { s with m_Run := false }
  match wait inps s with
  | none => none
  | some s =>
    some { s with history := s.history ++ s.m_Q.map (fun (p : sPacket) => Effect.free p.data),
                  m_Q := [] }

/-- `QThread::start()`: a new worker thread enters `run()`. -/
def start (s : EosUdpInThread) : EosUdpInThread :=
  { s with pc := .start, scratch := none, scratchSize := 0, history := [] }

/-- `EosUdpInThread::Start` (218-226). -/
def Start (inps : List UdpInInput) (s : EosUdpInThread) (ip : String) (port : Nat) :
    Option EosUdpInThread :=
  match Stop inps s with
  | none => none
  | some s => some (start { s with m_Ip := ip, m_Port := port, m_Run := true })

end EosUdpInThread

/-! ## `EosTcpClientThread` -/

/-- Frame modes `OSCStream::EnumFrameMode`. -/
inductive EnumFrameMode where
  | FRAME_MODE_INVALID
  | FRAME_MODE_1_0
  | FRAME_MODE_1_1
deriving DecidableEq, Repr, Inhabited

/-- Connection states `EosTcp::EnumConnectState`. -/
inductive EnumConnectState where
  | CONNECT_NOT_CONNECTED
  | CONNECT_IN_PROGRESS
  | CONNECT_CONNECTED
deriving DecidableEq, Repr, Inhabited

/-- The framer class `OSCStream` is not part of the sources; the worker is written
against its interface. `Add` and `GetNextFrame` act on the framer state `σ`,
`GetNextFrame` and `CreateFrame` return a buffer and its size. -/
structure OSCStream where
  σ : Type
  new : EnumFrameMode → σ
  Add : σ → Option Bytes → Nat → σ
  GetNextFrame : σ → σ × Option Bytes × Nat
  CreateFrame : EnumFrameMode → Option Bytes → Nat → Option Bytes × Nat

/-- Positions inside `EosTcpClientThread::run()` (line numbers of `NetworkThreads.cpp`). -/
inductive TcpPc where
  /-- no worker thread is running -/
  | idle
  /-- 446-448: "thread started" -/
  | start
  /-- 454: `while (m_Run)` -/
  | outerTest
  /-- 456-465: `Create`, `Initialize`, parser, prefixes -/
  | init
  /-- 468-470: `if (m_Run && IN_PROGRESS)`, `reconnectTimer.Start()` -/
  | connectTest
  /-- 473-474: `Tick`, `UpdateLog` -/
  | connectTick
  /-- 476-479: `break` test of the connect loop, `msleep(10)` -/
  | connectBreakTest
  /-- 484: `if (m_Run && CONNECT_CONNECTED)` -/
  | connectedTest
  /-- 486-491: push `NET_EVENT_CONNECTED`, `sendQ`, `oscStream` -/
  | pushConnected
  /-- 494-497: `Recv`, `oscStream.Add` -/
  | recv
  /-- 499: `while (m_Run)` -/
  | drainTest
  /-- 501-511: `GetNextFrame`, `PrintPacket`, `ProcessPacket`, `delete[]` or `break` -/
  | getFrame
  /-- 514-521: `msleep(1)`, `m_SendQ.swap(sendQ)`, `i = sendQ.begin()` -/
  | swapSend
  /-- 521: `m_Run && i != sendQ.end()` -/
  | sendTest
  /-- 523-535, `i++`: `CreateFrame`, `Send`, `PrintPacket`, `delete[]` -/
  | sendOne
  /-- 537-541: `sendQ.clear()`, `UpdateLog`, `msleep(1)` -/
  | clearSend
  /-- 542: `while (m_Run && CONNECT_CONNECTED)` -/
  | loopTest
  /-- 544-546: push `NET_EVENT_DISCONNECTED` -/
  | pushDisconnected
  /-- 550: `delete tcp` -/
  | deleteTcp
  /-- 552-557: `if (m_Run)` "reconnecting in" -/
  | reconnectTest
  /-- 559: `reconnectTimer.Start()` -/
  | timerStart
  /-- 560-561: `while (m_Run && !GetExpired)` `msleep(10)` -/
  | delayTest
  /-- 564-566: "thread ended" -/
  | ended
deriving DecidableEq, Repr, Inhabited

/-- What one step of the TCP worker learns from outside. -/
structure TcpInput where
  /-- result of `Initialize` / `Send` -/
  ok : Bool
  /-- what `GetConnectState` answers after the socket call of this step
  (`Initialize`, `Tick`, `Recv`, `Send`) -/
  connectState : EnumConnectState
  /-- result of `reconnectTimer.GetExpired(ReconnectDelay)` -/
  expired : Bool
  /-- lines the socket call wrote to `m_PrivateLog` -/
  log : LOG_Q
  /-- messages `PrintPacket` hands to `OSCParserClient_Log` -/
  printed : List String
  /-- buffer returned by `Recv` -/
  data : Option Bytes
  /-- `len` set by `Recv` -/
  len : Nat
deriving Repr, Inhabited

structure EosTcpClientThread (F : OSCStream) where
  m_Ip : String
  m_Port : Nat
  m_FrameMode : EnumFrameMode
  m_Run : Bool
  m_SendQ : PACKET_Q
  m_RecvQ : PACKET_Q
  m_NetEventQ : NETEVENT_Q
  m_Log : LOG_Q
  m_PrivateLog : LOG_Q
  m_Prefix : String
  m_LogMsgType : LogMsgType
  m_LogMsg : String
  /-- worker: position in `run()` -/
  pc : TcpPc
  /-- worker: what `tcp->GetConnectState()` answers -/
  connectState : EnumConnectState
  /-- worker local `PACKET_Q sendQ` -/
  sendQ : PACKET_Q
  /-- worker local iterator `i`, as an index into `sendQ` -/
  i : Nat
  /-- worker local `OSCStream oscStream` -/
  oscStream : F.σ
  /-- ghost: effects of the current worker run -/
  history : List Effect
  /-- environment: what the default `QLocale` of the process makes of a number, used by
  `QString::arg` at a place marker with the `L` flag; the runs of this file take the
  decimal digits -/
  locale : Nat → String := fun n => toString n

namespace EosTcpClientThread

variable {F : OSCStream}

/-- Constructor: `m_Port(0)`, `m_LogMsgType(INFO)`, `m_Run(false)`, everything else
empty, no thread. The constructor leaves `m_FrameMode` unset: it is an argument. -/
def new (F : OSCStream) (frameMode : EnumFrameMode) : EosTcpClientThread F :=
  { m_Ip := "", m_Port := 0, m_FrameMode := frameMode, m_Run := false, m_SendQ := [],
    m_RecvQ := [], m_NetEventQ := [], m_Log := [], m_PrivateLog := [], m_Prefix := "",
    m_LogMsgType := .LOG_MSG_TYPE_INFO, m_LogMsg := "",
    pc := .idle, connectState := .CONNECT_NOT_CONNECTED, sendQ := [], i := 0,
    oscStream := F.new frameMode, history := [] }

/-- `EosTcpClientThread::Send` (417-427): the new state and the returned flag. -/
def Send (s : EosTcpClientThread F) (packet : sPacket) : EosTcpClientThread F × Bool :=
  if packet.data.isSome && packet.size != 0 then
    ({ s with m_SendQ := s.m_SendQ ++ [packet] }, true)
  else
    (s, false)

/-- `EosTcpClientThread::Flush` (431-440): the new state and the three containers of
the caller afterwards. -/
def Flush (s : EosTcpClientThread F) (logQ : LOG_Q) (recvQ : PACKET_Q)
    (netEventQ : NETEVENT_Q) : EosTcpClientThread F × LOG_Q × PACKET_Q × NETEVENT_Q :=
  let recvQ := clear recvQ
  let r := EosLog.Flush s.m_Log logQ
  ({ s with m_Log := r.1, m_RecvQ := recvQ, m_NetEventQ := netEventQ },
    r.2, s.m_RecvQ, s.m_NetEventQ)

/-- `EosTcpClientThread::UpdateLog` (571-578). -/
def UpdateLog (s : EosTcpClientThread F) : EosTcpClientThread F :=
  { s with m_Log := EosLog.AddLog s.m_Log s.m_PrivateLog, m_PrivateLog := [] }

/-- `EosTcpClientThread::OSCParserClient_Log` (582-586). -/
def OSCParserClient_Log (s : EosTcpClientThread F) (message : String) :
    EosTcpClientThread F :=
  let s := { s with m_LogMsg := s.m_Prefix ++ message }
  { s with m_PrivateLog := EosLog.Add s.m_PrivateLog s.m_LogMsgType s.m_LogMsg }

/-- `EosTcpClientThread::OSCHandlerClient_Recv` (590-603). -/
def OSCHandlerClient_Recv (s : EosTcpClientThread F) (buf : Option Bytes) (size : Nat) :
    EosTcpClientThread F :=
  match buf with
  | some bytes =>
    if size != 0 then
      let packet : sPacket := { size := size, data := some (memcpy (newChar size) bytes size) }
      { s with m_RecvQ := s.m_RecvQ ++ [packet], history := s.history ++ [.recv packet] }
    else s
  | none => s

/-- `OSCHandler::ProcessPacket` (41-45) on the handler that `run()` installs as the root
of its parser: the packet goes to `OSCHandlerClient_Recv`, the result is `true`. -/
def ProcessPacket (s : EosTcpClientThread F) (buf : Option Bytes) (size : Nat) :
    EosTcpClientThread F × Bool :=
  (s.OSCHandlerClient_Recv buf size, true)

/-- `QString("tcp client %1:%2 ...").arg(m_Ip).arg(m_Port)`: the text `what` behind the
place markers for address and port, and the two filled in. -/
def msg (s : EosTcpClientThread F) (what : String) : String :=
  QString.argN (QString.arg ("tcp client %1:%2 " ++ what) s.m_Ip) s.m_Port s.locale

/-- The text of the line of 554-555: `msg.toUtf8().constData()` for
`QString("tcp client %1:%2 reconnecting in %3...")` with `m_Ip`, `m_Port` and
`ReconnectDelay / 1000` filled in. -/
def reconnectText (s : EosTcpClientThread F) : String :=
  QString.constData
    (QString.argN (s.msg "reconnecting in %3...") (ReconnectDelay / 1000) s.locale)

/-- Local `inPrefix` of `run()` (462):
`QString("TCPIN [%1:%2] ").arg(m_Ip).arg(m_Port).toUtf8().constData()`. -/
def inPrefix (s : EosTcpClientThread F) : String :=
  QString.constData (QString.argN (QString.arg "TCPIN [%1:%2] " s.m_Ip) s.m_Port s.locale)

/-- Local `outPrefix` of `run()` (463):
`QString("TCPOUT [%1:%2] ").arg(m_Ip).arg(m_Port).toUtf8().constData()`. -/
def outPrefix (s : EosTcpClientThread F) : String :=
  QString.constData (QString.argN (QString.arg "TCPOUT [%1:%2] " s.m_Ip) s.m_Port s.locale)

/-- One step of `EosTcpClientThread::run()` (444-567). -/
def runStep (inp : TcpInput) (s : EosTcpClientThread F) : EosTcpClientThread F :=
  match s.pc with
  | .idle => s
  | .start =>
    let text := QString.constData (s.msg "thread started")
    let s := { s with m_PrivateLog := EosLog.AddInfo s.m_PrivateLog text }
    let s := s.UpdateLog
    { s with pc := .outerTest }
  | .outerTest =>
    if s.m_Run then { s with pc := .init } else { s with pc := .ended }
  | .init =>
    let s := { s with m_PrivateLog := EosLog.AddLog s.m_PrivateLog inp.log,
                      connectState := inp.connectState }
    if inp.ok then { s with pc := .connectTest } else { s with pc := .deleteTcp }
  | .connectTest =>
    if s.m_Run && s.connectState == .CONNECT_IN_PROGRESS then { s with pc := .connectTick }
    else { s with pc := .connectedTest }
  | .connectTick =>
    let s := { s with m_PrivateLog := EosLog.AddLog s.m_PrivateLog inp.log,
                      connectState := inp.connectState }
    let s := s.UpdateLog
    { s with pc := .connectBreakTest }
  | .connectBreakTest =>
    if !s.m_Run || s.connectState != .CONNECT_IN_PROGRESS || inp.expired then
      { s with pc := .connectedTest }
    else { s with history := s.history ++ [.sleep 10], pc := .connectTick }
  | .connectedTest =>
    if s.m_Run && s.connectState == .CONNECT_CONNECTED then { s with pc := .pushConnected }
    else { s with pc := .deleteTcp }
  | .pushConnected =>
    { s with m_NetEventQ := s.m_NetEventQ ++ [.NET_EVENT_CONNECTED],
             history := s.history ++ [.netEvent .NET_EVENT_CONNECTED],
             sendQ := [], oscStream := F.new s.m_FrameMode, pc := .recv }
  | .recv =>
    let s := { s with m_PrivateLog := EosLog.AddLog s.m_PrivateLog inp.log,
                      connectState := inp.connectState }
    { s with oscStream := F.Add s.oscStream inp.data inp.len, pc := .drainTest }
  | .drainTest =>
    if s.m_Run then { s with pc := .getFrame } else { s with pc := .swapSend }
  | .getFrame =>
    let r := F.GetNextFrame s.oscStream
    let s := { s with oscStream := r.1 }
    let packet : sPacket := { data := r.2.1, size := r.2.2 }
    if packet.data.isSome && packet.size != 0 then
      let s := { s with m_Prefix := s.inPrefix, m_LogMsgType := .LOG_MSG_TYPE_RECV }
      let s := inp.printed.foldl OSCParserClient_Log s
      let s := (s.ProcessPacket packet.data packet.size).1
      { s with history := s.history ++ [.free packet.data], pc := .drainTest }
    else { s with pc := .swapSend }
  | .swapSend =>
    { s with history := s.history ++ [.sleep 1],
             m_SendQ := s.sendQ, sendQ := s.m_SendQ, i := 0, pc := .sendTest }
  | .sendTest =>
    if s.m_Run && s.i < s.sendQ.length then { s with pc := .sendOne }
    else { s with pc := .clearSend }
  | .sendOne =>
    let p := s.sendQ.getD s.i default
    let framedPacket : sPacket :=
      { data := (F.CreateFrame s.m_FrameMode p.data p.size).1,
        size := (F.CreateFrame s.m_FrameMode p.data p.size).2 }
    let s :=
      if framedPacket.data.isSome && framedPacket.size != 0 then
        let s := { s with m_PrivateLog := EosLog.AddLog s.m_PrivateLog inp.log,
                          connectState := inp.connectState }
        let s :=
          if inp.ok then
            let s := { s with m_Prefix := s.outPrefix, m_LogMsgType := .LOG_MSG_TYPE_SEND }
            inp.printed.foldl OSCParserClient_Log s
          else s
        { s with history := s.history ++
                  [.write framedPacket.data framedPacket.size inp.ok, .free framedPacket.data] }
      else s
    { s with history := s.history ++ [.free p.data], i := s.i + 1, pc := .sendTest }
  | .clearSend =>
    let s := { s with sendQ := clear s.sendQ }
    let s := s.UpdateLog
    { s with history := s.history ++ [.sleep 1], pc := .loopTest }
  | .loopTest =>
    if s.m_Run && s.connectState == .CONNECT_CONNECTED then { s with pc := .recv }
    else { s with pc := .pushDisconnected }
  | .pushDisconnected =>
    { s with m_NetEventQ := s.m_NetEventQ ++ [.NET_EVENT_DISCONNECTED],
             history := s.history ++ [.netEvent .NET_EVENT_DISCONNECTED],
             pc := .deleteTcp }
  | .deleteTcp => { s with pc := .reconnectTest }
  | .reconnectTest =>
    if s.m_Run then
      let text := s.reconnectText
      let s := { s with m_PrivateLog := EosLog.AddInfo s.m_PrivateLog text }
      let s := s.UpdateLog
      { s with pc := .timerStart }
    else { s with pc := .timerStart }
  | .timerStart => { s with pc := .delayTest }
  | .delayTest =>
    if s.m_Run && !inp.expired then
      { s with history := s.history ++ [.sleep 10], pc := .delayTest }
    else { s with pc := .outerTest }
  | .ended =>
    let text := QString.constData (s.msg "thread ended")
    let s := { s with m_PrivateLog := EosLog.AddInfo s.m_PrivateLog text }
    let s := s.UpdateLog
    { s with pc := .idle }

/-- `QThread::wait()`: the worker runs until `run()` has returned. The list gives what
the worker learns from outside, one entry per step; `none` when the list is used up
before the worker has finished. -/
def wait : List TcpInput → EosTcpClientThread F → Option (EosTcpClientThread F)
  | [], s => if s.pc = .idle then some s else none
  | inp :: inps, s => if s.pc = .idle then some s else wait inps (runStep inp s)

/-- `EosTcpClientThread::Stop` (401-413). -/
def Stop (inps : List TcpInput) (s : EosTcpClientThread F) : Option (EosTcpClientThread F) :=
  let s := { s with m_Run := false }
  match wait inps s with
  | none => none
  | some s =>
    let s := { s with history := s.history ++ s.m_SendQ.map (fun (p : sPacket) => Effect.free p.data),
                      m_SendQ := [] }
    some { s with history := s.history ++ s.m_RecvQ.map (fun (p : sPacket) => Effect.free p.data),
                  m_RecvQ := [] }

/-- `QThread::start()`: a new worker thread enters `run()`. -/
def start (s : EosTcpClientThread F) : EosTcpClientThread F :=
  { s with pc := .start, connectState := .CONNECT_NOT_CONNECTED, sendQ := [], i := 0,
           history := [] }

/-- `EosTcpClientThread::Start` (387-397). -/
def Start (inps : List TcpInput) (s : EosTcpClientThread F) (ip : String) (port : Nat)
    (frameMode : EnumFrameMode) : Option (EosTcpClientThread F) :=
  match Stop inps s with
  | none => none
  | some s =>
    some (start { s with m_Ip := ip, m_Port := port, m_FrameMode := frameMode,
                         m_Run := true, m_NetEventQ := [] })

end EosTcpClientThread

/-! ## `MainWindow`: the owner of the transports -/

/-- Calls the main window makes on its widget collection `m_Toys`. -/
inductive ToyCall where
  /-- `m_Toys->Recv(data, size)` -/
  | Recv (data : Option Bytes) (size : Nat)
  /-- `m_Toys->Connected()` -/
  | Connected
  /-- `m_Toys->Disconnected()` -/
  | Disconnected
deriving DecidableEq, Repr

structure MainWindow (F : OSCStream) where
  m_Log : LOG_Q
  m_TempLogQ : LOG_Q
  m_UdpOutThread : Option EosUdpOutThread
  m_UdpInThread : Option EosUdpInThread
  m_TcpClientThread : Option (EosTcpClientThread F)
  m_RecvQ : PACKET_Q
  m_NetEventQ : NETEVENT_Q
  /-- ghost: the calls made on `m_Toys`, in order -/
  toys : List ToyCall
  /-- ghost: the lines written to the log widget and the log file, in order -/
  shown : LOG_Q

namespace MainWindow

variable {F : OSCStream}

/-- `MainWindow::ClearRecvQ` (431-436). -/
def ClearRecvQ (w : MainWindow F) : MainWindow F :=
  { w with m_RecvQ := clear w.m_RecvQ }

/-- `MainWindow::ClearNetEventQ` (440-443). -/
def ClearNetEventQ (w : MainWindow F) : MainWindow F :=
  { w with m_NetEventQ := clear w.m_NetEventQ }

/-- `MainWindow::ProcessRecvQ` (686-695). -/
def ProcessRecvQ (w : MainWindow F) : MainWindow F :=
  let w := w.m_RecvQ.foldl
    (fun (w : MainWindow F) (p : sPacket) => { w with toys := w.toys ++ [.Recv p.data p.size] }) w
  { w with m_RecvQ := clear w.m_RecvQ }

/-- `MainWindow::ProcessNetEventQ` (699-712). -/
def ProcessNetEventQ (w : MainWindow F) : MainWindow F :=
  let w := w.m_NetEventQ.foldl
    (fun (w : MainWindow F) (e : NetEvent) =>
      match e with
      | .NET_EVENT_CONNECTED => { w with toys := w.toys ++ [.Connected] }
      | .NET_EVENT_DISCONNECTED => { w with toys := w.toys ++ [.Disconnected] }) w
  { w with m_NetEventQ := clear w.m_NetEventQ }

/-- `MainWindow::FlushLogQ` (360-384): the lines go to the log widget and the log file
(the time stamp put in front of each text is left out). -/
def FlushLogQ (w : MainWindow F) (logQ : LOG_Q) : MainWindow F :=
  if !logQ.isEmpty then { w with shown := w.shown ++ logQ } else w

/-- `MainWindow::onTick` (863-900). -/
def onTick (w : MainWindow F) : MainWindow F :=
  let w :=
    match w.m_UdpOutThread with
    | some t =>
      let w := w.ClearRecvQ
      let w := w.ClearNetEventQ
      let r := t.Flush w.m_TempLogQ w.m_NetEventQ
      let w := { w with m_UdpOutThread := some r.1, m_TempLogQ := r.2.1, m_NetEventQ := r.2.2 }
      let w := { w with m_Log := EosLog.AddLog w.m_Log w.m_TempLogQ }
      let w := w.ProcessNetEventQ
      w.ProcessRecvQ
    | none => w
  let w :=
    match w.m_UdpInThread with
    | some t =>
      let w := w.ClearRecvQ
      let r := t.Flush w.m_TempLogQ w.m_RecvQ
      let w := { w with m_UdpInThread := some r.1, m_TempLogQ := r.2.1, m_RecvQ := r.2.2 }
      let w := { w with m_Log := EosLog.AddLog w.m_Log w.m_TempLogQ }
      w.ProcessRecvQ
    | none => w
  let w :=
    match w.m_TcpClientThread with
    | some t =>
      let w := w.ClearRecvQ
      let w := w.ClearNetEventQ
      let r := t.Flush w.m_TempLogQ w.m_RecvQ w.m_NetEventQ
      let w := { w with m_TcpClientThread := some r.1, m_TempLogQ := r.2.1,
                        m_RecvQ := r.2.2.1, m_NetEventQ := r.2.2.2 }
      let w := { w with m_Log := EosLog.AddLog w.m_Log w.m_TempLogQ }
      let w := w.ProcessNetEventQ
      w.ProcessRecvQ
    | none => w
  let r := EosLog.Flush w.m_Log w.m_TempLogQ
  let w := { w with m_Log := r.1, m_TempLogQ := r.2 }
  let w := w.FlushLogQ w.m_TempLogQ
  let w := { w with m_TempLogQ := clear w.m_TempLogQ }
  let w := w.ClearRecvQ
  w.ClearNetEventQ

end MainWindow

/-! ## Runs: the worker and the owner interleaved -/

/-- What the owner thread can do to a transport while its worker runs. -/
inductive OwnerOp where
  /-- `Send(packet)` -/
  | send (packet : sPacket)
  /-- `Flush` with the containers of the caller -/
  | flush (logQ : LOG_Q) (recvQ : PACKET_Q) (netEventQ : NETEVENT_Q)
  /-- the first statement of `Stop`: `m_Run = false` (the owner then blocks in `wait`) -/
  | stopRequest
deriving Repr

/-- One action of a run of the UDP output transport. -/
inductive UdpOutAction where
  | worker (inp : UdpOutInput)
  | owner (op : OwnerOp)
deriving Repr

/-- One action of a run of the TCP transport. -/
inductive TcpAction where
  | worker (inp : TcpInput)
  | owner (op : OwnerOp)
deriving Repr

namespace EosUdpOutThread

/-- The transport after one action of the worker or of the owner. -/
def act (a : UdpOutAction) (s : EosUdpOutThread) : EosUdpOutThread :=
  match a with
  | .worker inp => runStep inp s
  | .owner (.send p) => (s.Send p).1
  | .owner (.flush logQ _ netEventQ) => (s.Flush logQ netEventQ).1
  | .owner .stopRequest => { s with m_Run := false }

/-- The transport after a sequence of actions. -/
def exec (acts : List UdpOutAction) (s : EosUdpOutThread) : EosUdpOutThread :=
  acts.foldl (fun s a => act a s) s

end EosUdpOutThread

namespace EosTcpClientThread

variable {F : OSCStream}

/-- The transport after one action of the worker or of the owner. -/
def act (a : TcpAction) (s : EosTcpClientThread F) : EosTcpClientThread F :=
  match a with
  | .worker inp => runStep inp s
  | .owner (.send p) => (s.Send p).1
  | .owner (.flush logQ recvQ netEventQ) => (s.Flush logQ recvQ netEventQ).1
  | .owner .stopRequest => { s with m_Run := false }

/-- The transport after a sequence of actions. -/
def exec (acts : List TcpAction) (s : EosTcpClientThread F) : EosTcpClientThread F :=
  acts.foldl (fun s a => act a s) s

end EosTcpClientThread

/-! ## Receive queue: enqueues by the worker, flushes by the owner -/

/-- One operation on the receive queue of a transport. -/
inductive RecvOp where
  /-- the worker calls `OSCHandlerClient_Recv(client, buf, size)` -/
  | enqueue (buf : Option Bytes) (size : Nat)
  /-- the owner calls `Flush` with its containers -/
  | flush (logQ : LOG_Q) (recvQ : PACKET_Q) (netEventQ : NETEVENT_Q)
deriving Repr

/-- The UDP input transport after a sequence of operations, and the packet lists the
successive `Flush` calls handed to the owner. -/
def EosUdpInThread.recvRun : List RecvOp → EosUdpInThread → EosUdpInThread × List PACKET_Q
  | [], s => (s, [])
  | .enqueue buf size :: ops, s => recvRun ops (s.OSCHandlerClient_Recv buf size)
  | .flush logQ recvQ _ :: ops, s =>
    ((recvRun ops (s.Flush logQ recvQ).1).1,
      (s.Flush logQ recvQ).2.2 :: (recvRun ops (s.Flush logQ recvQ).1).2)

/-- The TCP transport after a sequence of operations, and the packet lists the
successive `Flush` calls handed to the owner. -/
def EosTcpClientThread.recvRun {F : OSCStream} :
    List RecvOp → EosTcpClientThread F → EosTcpClientThread F × List PACKET_Q
  | [], s => (s, [])
  | .enqueue buf size :: ops, s => recvRun ops (s.OSCHandlerClient_Recv buf size)
  | .flush logQ recvQ netEventQ :: ops, s =>
    ((recvRun ops (s.Flush logQ recvQ netEventQ).1).1,
      (s.Flush logQ recvQ netEventQ).2.2.1 :: (recvRun ops (s.Flush logQ recvQ netEventQ).1).2)

/-- The packets a sequence of operations enqueues, in order: one packet for each
`enqueue` with a non-null buffer and a non-zero size, holding the first `size` bytes of
the buffer. -/
def enqueuedBy : List RecvOp → PACKET_Q
  | [] => []
  | .enqueue (some bytes) size :: ops =>
    if size = 0 then enqueuedBy ops
    else { data := some (bytes.take size), size := size } :: enqueuedBy ops
  | _ :: ops => enqueuedBy ops

/-! ## The framer of the spec -/

/-- SLIP terminator byte (RFC 1055 `END`). -/
def SLIP_END : Nat := 192
/-- SLIP escape byte (RFC 1055 `ESC`). -/
def SLIP_ESC : Nat := 219
/-- SLIP escaped terminator (RFC 1055 `ESC_END`). -/
def SLIP_ESC_END : Nat := 220
/-- SLIP escaped escape (RFC 1055 `ESC_ESC`). -/
def SLIP_ESC_ESC : Nat := 221

/-- Four bytes, big endian, of a length. -/
def be32 (n : Nat) : Bytes :=
  [n / 2 ^ 24 % 256, n / 2 ^ 16 % 256, n / 2 ^ 8 % 256, n % 256]

/-- The length that four big-endian bytes declare. -/
def ofBe32 (bs : Bytes) : Nat :=
  bs.getD 0 0 * 2 ^ 24 + bs.getD 1 0 * 2 ^ 16 + bs.getD 2 0 * 2 ^ 8 + bs.getD 3 0

/-- Escaping of a payload in Mode 1.1. -/
def slipEscape : Bytes → Bytes
  | [] => []
  | b :: bs =>
    if b = SLIP_END then SLIP_ESC :: SLIP_ESC_END :: slipEscape bs
    else if b = SLIP_ESC then SLIP_ESC :: SLIP_ESC_ESC :: slipEscape bs
    else b :: slipEscape bs

/-- Removal of the escapes of a Mode 1.1 frame. -/
def slipUnescape : Bytes → Bytes
  | [] => []
  | [b] => [b]
  | b :: c :: bs =>
    if b = SLIP_ESC ∧ c = SLIP_ESC_END then SLIP_END :: slipUnescape bs
    else if b = SLIP_ESC ∧ c = SLIP_ESC_ESC then SLIP_ESC :: slipUnescape bs
    else b :: slipUnescape (c :: bs)

/-- Framer state of the spec: the frame mode and the accumulation buffer. -/
structure FramerState where
  mode : EnumFrameMode
  buf : Bytes
deriving DecidableEq, Repr

/-- Modelled from the spec: `OSCStream::Add` (spec 4.1) appends the bytes read from the
stream to the accumulation buffer. -/
def FramerState.Add (st : FramerState) (data : Option Bytes) (len : Nat) : FramerState :=
  match data with
  | some bytes => { st with buf := st.buf ++ bytes.take len }
  | none => st

/-- Modelled from the spec: `OSCStream::GetNextFrame` (spec 4.1). Mode 1.0: a frame is a
4-byte big-endian length `N` and `N` payload bytes; none while fewer than `4 + N` bytes
are buffered. Mode 1.1: a frame is the escaped payload up to the terminator byte. A
frame that is found is taken off the front of the buffer. -/
def FramerState.GetNextFrame (st : FramerState) : FramerState × Option Bytes × Nat :=
  match st.mode with
  | .FRAME_MODE_1_0 =>
    if st.buf.length < 4 then (st, none, 0)
    else
      let n := ofBe32 (st.buf.take 4)
      if st.buf.length < 4 + n then (st, none, 0)
      else ({ st with buf := st.buf.drop (4 + n) }, some ((st.buf.drop 4).take n), n)
  | .FRAME_MODE_1_1 =>
    let frame := st.buf.takeWhile (fun b => b != SLIP_END)
    if frame.length < st.buf.length then
      ({ st with buf := st.buf.drop (frame.length + 1) },
        some (slipUnescape frame), (slipUnescape frame).length)
    else (st, none, 0)
  | .FRAME_MODE_INVALID => (st, none, 0)

/-- Modelled from the spec: `OSCStream::CreateFrame` (spec 4.1): the length prefix and
the payload in Mode 1.0, the escaped payload and the terminator in Mode 1.1. -/
def FramerState.CreateFrame (mode : EnumFrameMode) (buf : Option Bytes) (size : Nat) :
    Option Bytes × Nat :=
  match buf with
  | none => (none, 0)
  | some bytes =>
    match mode with
    | .FRAME_MODE_1_0 => (some (be32 size ++ bytes.take size), 4 + size)
    | .FRAME_MODE_1_1 =>
      (some (slipEscape (bytes.take size) ++ [SLIP_END]),
        (slipEscape (bytes.take size)).length + 1)
    | .FRAME_MODE_INVALID => (none, 0)

/-- Modelled from the spec: the framer of spec 4.1 as an `OSCStream`. -/
def specFramer : OSCStream :=
  { σ := FramerState
    new := fun mode => { mode := mode, buf := [] }
    Add := FramerState.Add
    GetNextFrame := FramerState.GetNextFrame
    CreateFrame := FramerState.CreateFrame }

/-! ## Sessions in a history -/

/-- Positions of the TCP worker between its push of `NET_EVENT_CONNECTED` and its push
of `NET_EVENT_DISCONNECTED`: the send/recv loop (492-542) and the push after it. -/
def TcpPc.inSession : TcpPc → Bool
  | .recv | .drainTest | .getFrame | .swapSend | .sendTest | .sendOne | .clearSend
  | .loopTest | .pushDisconnected => true
  | _ => false

/-- The sequence Connected, Disconnected, Connected, ... of length `n`. -/
def alternation (n : Nat) : List NetEvent :=
  (List.range n).map
    (fun k => if k % 2 = 0 then NetEvent.NET_EVENT_CONNECTED else NetEvent.NET_EVENT_DISCONNECTED)

/-- One effect read by the session check. The state is `some true` while a session is
open (the last net event was Connected), `some false` while none is, and `none` once
the order was broken: a Connected inside a session, a Disconnected or a received packet
outside one. -/
def sessionStep : Option Bool → Effect → Option Bool
  | some false, .netEvent .NET_EVENT_CONNECTED => some true
  | some true, .netEvent .NET_EVENT_DISCONNECTED => some false
  | some _, .netEvent _ => none
  | some false, .recv _ => none
  | st, _ => st

/-- The session check of a whole history, from the state "no session open". -/
def sessionScan (h : List Effect) : Option Bool :=
  h.foldl sessionStep (some false)

/-! ## Concrete runs -/

/-- An input of the TCP worker: every socket call succeeds, the socket is connected,
the timer has not expired, nothing is received, logged or printed. -/
def TcpInput.connected : TcpInput :=
  { ok := true, connectState := .CONNECT_CONNECTED, expired := false, log := [],
    printed := [], data := none, len := 0 }

/-- The input `TcpInput.connected` with received bytes. -/
def TcpInput.received (bytes : Bytes) : TcpInput :=
  { TcpInput.connected with data := some bytes, len := bytes.length }

/-- The input `TcpInput.connected` after the peer has closed the connection. -/
def TcpInput.closed : TcpInput :=
  { TcpInput.connected with connectState := .CONNECT_NOT_CONNECTED }

/-- A TCP client in Mode 1.0 whose `Start` has just launched the worker. -/
def tcpStarted : EosTcpClientThread specFramer :=
  EosTcpClientThread.start
    { EosTcpClientThread.new specFramer .FRAME_MODE_1_0 with
      m_Ip := "127.0.0.1", m_Port := 3032, m_Run := true }

/-- A run of the TCP worker: it connects, reads the Mode 1.0 frame of the one-byte
payload `[47]` and enqueues the packet. -/
def tcpRunReceive : List TcpAction :=
  [.worker .connected, .worker .connected, .worker .connected, .worker .connected,
   .worker .connected, .worker .connected, .worker (.received [0, 0, 0, 1, 47]),
   .worker .connected, .worker .connected]

/-- A run of the TCP worker with one session: it connects, reads the Mode 1.0 frame of
the one-byte payload `[47]` and enqueues the packet, finds the send queue empty, learns
from the next `Recv` that the peer has closed the connection, leaves the send/recv loop
and pushes `NET_EVENT_DISCONNECTED`. -/
def tcpRunSession : List TcpAction :=
  tcpRunReceive ++
  [.worker .connected, .worker .connected, .worker .connected, .worker .connected,
   .worker .connected, .worker .connected, .worker .closed,
   .worker .closed, .worker .closed, .worker .closed, .worker .closed, .worker .closed,
   .worker .closed, .worker .closed]

/-- A main window whose only transport is the TCP client after the run
`tcpRunSession`; nothing has been flushed yet. -/
def windowAfterSession : MainWindow specFramer :=
  { m_Log := [], m_TempLogQ := [], m_UdpOutThread := none, m_UdpInThread := none,
    m_TcpClientThread := some (EosTcpClientThread.exec tcpRunSession tcpStarted),
    m_RecvQ := [], m_NetEventQ := [], toys := [], shown := [] }

/-- The call on `m_Toys` that `ProcessNetEventQ` makes for a net event. -/
def eventCall : NetEvent → ToyCall
  | .NET_EVENT_CONNECTED => .Connected
  | .NET_EVENT_DISCONNECTED => .Disconnected

/-- The call on `m_Toys` that `ProcessRecvQ` makes for a packet. -/
def packetCall (p : sPacket) : ToyCall := .Recv p.data p.size

/-- Check of a sequence of calls on `m_Toys`: no packet is handed over after a
`Disconnected` call without a `Connected` call in between. The flag tells whether the
last event call so far was `Disconnected`. -/
def noRecvAfterDisconnected : Bool → List ToyCall → Bool
  | _, [] => true
  | _, .Connected :: cs => noRecvAfterDisconnected false cs
  | _, .Disconnected :: cs => noRecvAfterDisconnected true cs
  | disconnected, .Recv _ _ :: cs => !disconnected && noRecvAfterDisconnected disconnected cs

/-- An input of the UDP output worker: the socket call succeeds, the timer has not
expired, nothing is logged or printed. -/
def UdpOutInput.good : UdpOutInput :=
  { ok := true, expired := false, log := [], printed := [] }

/-- An input of the UDP output worker: the socket call fails and logs one line. -/
def UdpOutInput.failed : UdpOutInput :=
  { ok := false, expired := false, log := [⟨.LOG_MSG_TYPE_INFO, "sendto failed"⟩],
    printed := [] }

/-- A UDP output transport whose `Start` has just launched the worker. -/
def udpOutStarted : EosUdpOutThread :=
  EosUdpOutThread.start
    { EosUdpOutThread.new with m_Ip := "127.0.0.1", m_Port := 8000, m_Run := true }

/-- A run of the UDP output transport: the worker connects, the owner sends the packets
`[1]` and `[2]`, the worker takes both from the queue, `SendPacket` fails for the first
and succeeds for the second, and the worker goes round the connected loop again. The
owner never asks it to stop. -/
def udpOutRunSendFails : List UdpOutAction :=
  [.worker .good, .worker .good, .worker .good, .worker .good,
   .owner (.send { data := some [1], size := 1 }),
   .owner (.send { data := some [2], size := 1 }),
   .worker .good, .worker .good, .worker .good, .worker .failed,
   .worker .good, .worker .good, .worker .good, .worker .good, .worker .good]

/-! ## Leaving `run()` after a stop request -/

/-- A bound on the number of steps the UDP output worker still takes once the run flag
is cleared: the batch it has taken from the queue is sent to the end (the `for` loop of
line 145 does not test the flag), every other loop is left at its next test. -/
def EosUdpOutThread.stepsToExit (s : EosUdpOutThread) : Nat :=
  match s.pc with
  | .idle => 0
  | .ended => 1
  | .outerTest => 2
  | .delayTest => 3
  | .timerStart => 4
  | .reconnectTest => 5
  | .deleteUdp => 6
  | .pushDisconnected => 7
  | .innerTest => 8
  | .afterFor => 9
  | .forTest => 10 + 2 * (s.q.length - s.i)
  | .sendOne => 11 + 2 * (s.q.length - (s.i + 1))
  | .swap => 11 + 2 * s.m_Q.length
  | .pushConnected => 9
  | .init => 10
  | .start => 3

/-- A bound on the number of steps the UDP input worker still takes once the run flag
is cleared. -/
def EosUdpInThread.stepsToExit (s : EosUdpInThread) : Nat :=
  match s.pc with
  | .idle => 0
  | .ended => 1
  | .outerTest => 2
  | .delayTest => 3
  | .timerStart => 4
  | .reconnectTest => 5
  | .deleteUdp => 6
  | .freeScratch => 7
  | .innerTest => 8
  | .afterRecv => 9
  | .recv => 10
  | .sessionInit => 9
  | .init => 10
  | .start => 3

/-- A bound on the number of steps the TCP worker still takes once the run flag is
cleared. -/
def EosTcpClientThread.stepsToExit {F : OSCStream} (s : EosTcpClientThread F) : Nat :=
  match s.pc with
  | .idle => 0
  | .ended => 1
  | .outerTest => 2
  | .delayTest => 3
  | .timerStart => 4
  | .reconnectTest => 5
  | .deleteTcp => 6
  | .pushDisconnected => 7
  | .loopTest => 8
  | .clearSend => 9
  | .sendTest => 10
  | .sendOne => 11
  | .swapSend => 11
  | .drainTest => 12
  | .getFrame => 13
  | .recv => 13
  | .pushConnected => 14
  | .connectedTest => 7
  | .connectBreakTest => 8
  | .connectTick => 9
  | .connectTest => 8
  | .init => 9
  | .start => 3

/-- The UDP output transport connected, with the packets `[1]` and `[2]` queued and not
yet taken by the worker: the first six actions of `udpOutRunSendFails`. -/
def udpOutQueued : EosUdpOutThread :=
  EosUdpOutThread.exec (udpOutRunSendFails.take 6) udpOutStarted

/-- An input of the UDP input worker: the socket call succeeds, the timer has not
expired, no datagram has arrived. -/
def UdpInInput.good : UdpInInput :=
  { ok := true, expired := false, log := [], printed := [], data := none, len := 0,
    host := "" }

/-- The input `UdpInInput.good` with a datagram from 127.0.0.1. -/
def UdpInInput.received (bytes : Bytes) : UdpInInput :=
  { UdpInInput.good with data := some bytes, len := bytes.length, host := "127.0.0.1" }

/-- The UDP input transport after its worker has bound the socket and enqueued the
datagram `[47]`; the owner has not flushed yet. -/
def udpInQueued : EosUdpInThread :=
  EosUdpInThread.runStep (.received [47])
    (EosUdpInThread.runStep .good (EosUdpInThread.runStep .good
      (EosUdpInThread.runStep .good (EosUdpInThread.runStep .good
        (EosUdpInThread.runStep .good
          (EosUdpInThread.start
            { EosUdpInThread.new with m_Ip := "0.0.0.0", m_Port := 8001, m_Run := true }))))))

/-- The TCP client after the run `tcpRunReceive` and a `Send` of the packet `[9]` by
the owner: one packet waits in the receive queue, one in the send queue. -/
def tcpQueued : EosTcpClientThread specFramer :=
  EosTcpClientThread.exec
    (tcpRunReceive ++ [.owner (.send { data := some [9], size := 1 })]) tcpStarted

/-! ## Log lines -/

/-- The lines a UDP output transport has written and not yet handed to the owner: the
shared log and, behind it, the private log of the worker. -/
def EosUdpOutThread.logged (s : EosUdpOutThread) : LOG_Q := s.m_Log ++ s.m_PrivateLog

/-- The lines a UDP input transport has written and not yet handed to the owner. -/
def EosUdpInThread.logged (s : EosUdpInThread) : LOG_Q := s.m_Log ++ s.m_PrivateLog

/-- The lines a TCP client has written and not yet handed to the owner. -/
def EosTcpClientThread.logged {F : OSCStream} (s : EosTcpClientThread F) : LOG_Q :=
  s.m_Log ++ s.m_PrivateLog

/-- The info line "<transport> <address>:<port> reconnecting in 5...". -/
def reconnectLine (transport ip : String) (port : Nat) : sLogMsg :=
  { type := .LOG_MSG_TYPE_INFO,
    text := transport ++ " " ++ ip ++ ":" ++ toString port ++ " reconnecting in 5..." }

/-- The text `line` contains the text `part`. -/
def containsText (line part : String) : Prop :=
  ∃ front back : String, line = front ++ part ++ back

/-- An input of the UDP input worker: the socket call fails and logs one line. -/
def UdpInInput.failed : UdpInInput :=
  { UdpInInput.good with ok := false, log := [⟨.LOG_MSG_TYPE_INFO, "bind failed"⟩] }

/-- An input of the TCP worker: the socket call fails and logs one line. -/
def TcpInput.failed : TcpInput :=
  { TcpInput.closed with ok := false, log := [⟨.LOG_MSG_TYPE_INFO, "socket failed"⟩] }

/-- The UDP output worker about to call `Initialize`, run flag set. -/
def udpOutAtInit : EosUdpOutThread :=
  EosUdpOutThread.runStep .good (EosUdpOutThread.runStep .good udpOutStarted)

/-- The UDP input worker about to call `Initialize`, run flag set. -/
def udpInAtInit : EosUdpInThread :=
  EosUdpInThread.runStep .good (EosUdpInThread.runStep .good
    (EosUdpInThread.start
      { EosUdpInThread.new with m_Ip := "0.0.0.0", m_Port := 8001, m_Run := true }))

/-- The TCP worker about to call `Initialize`, run flag set. -/
def tcpAtInit : EosTcpClientThread specFramer :=
  EosTcpClientThread.runStep .connected (EosTcpClientThread.runStep .connected tcpStarted)

/-- An input of the TCP worker while the connect is still in progress. -/
def TcpInput.inProgress : TcpInput :=
  { TcpInput.connected with connectState := .CONNECT_IN_PROGRESS }

/-- An input of the TCP worker: the connect is still in progress and the timer of the
connect window has expired. -/
def TcpInput.timedOut : TcpInput :=
  { TcpInput.inProgress with expired := true }

/-- The TCP worker in the connect loop, after a `Tick` that left the connect in
progress, about to test whether to leave the loop. -/
def tcpConnecting : EosTcpClientThread specFramer :=
  EosTcpClientThread.runStep .inProgress (EosTcpClientThread.runStep .inProgress
    (EosTcpClientThread.runStep .inProgress tcpAtInit))

/-- A run of the TCP transport in which the stop request arrives in the middle of a
batch: the worker connects, the owner sends the packets `[1]` and `[2]`, the worker
takes both from the send queue and writes the first, the owner asks for the stop, and
the worker leaves the batch loop, the send/recv loop and `run()`. -/
def tcpRunStopMidBatch : List TcpAction :=
  [.worker .connected, .worker .connected, .worker .connected, .worker .connected,
   .worker .connected, .worker .connected,
   .owner (.send { data := some [1], size := 1 }),
   .owner (.send { data := some [2], size := 1 }),
   .worker .connected, .worker .connected, .worker .connected, .worker .connected,
   .worker .connected, .worker .connected,
   .owner .stopRequest,
   .worker .connected, .worker .connected, .worker .connected, .worker .connected,
   .worker .connected, .worker .connected, .worker .connected, .worker .connected,
   .worker .connected, .worker .connected]

/-- The buffers a history releases with `delete[]`, in order. -/
def freedBy : List Effect → List (Option Bytes)
  | [] => []
  | .free d :: h => d :: freedBy h
  | _ :: h => freedBy h

/-! ## Draining the framer -/

/-- Successive calls of `GetNextFrame`, starting in the framer state `st`, return the
frames `ps`, each with a non-null buffer and a size other than 0, and then a null
pointer or a size 0; the framer is left in the state `st'`. -/
def OSCStream.yields (F : OSCStream) : F.σ → List sPacket → F.σ → Prop
  | st, [], st' =>
    ((F.GetNextFrame st).2.1.isSome && (F.GetNextFrame st).2.2 != 0) = false ∧
    st' = (F.GetNextFrame st).1
  | st, p :: ps, st' =>
    (F.GetNextFrame st).2.1 = p.data ∧ (F.GetNextFrame st).2.2 = p.size ∧
    (p.data.isSome && p.size != 0) = true ∧
    F.yields (F.GetNextFrame st).1 ps st'

/-- The packet `OSCHandlerClient_Recv` enqueues for a frame: the first `size` bytes in a
buffer of its own. -/
def copyOf (p : sPacket) : sPacket :=
  { data := p.data.map (fun bytes => bytes.take p.size), size := p.size }

/-- A run of the TCP worker: it connects and one `Recv` brings the Mode 1.0 frame of
the empty payload followed by the Mode 1.0 frame of the payload `[47]`; the worker
goes into the drain loop and calls `GetNextFrame` once. -/
def tcpRunEmptyFrame : List TcpAction :=
  [.worker .connected, .worker .connected, .worker .connected, .worker .connected,
   .worker .connected, .worker .connected,
   .worker (.received [0, 0, 0, 0, 0, 0, 0, 1, 47]),
   .worker .connected, .worker .connected]

/-- The TCP worker at the head of the drain loop with the Mode 1.0 frames of the
payloads `[47]` and `[48, 49]` buffered. -/
def tcpTwoFrames : EosTcpClientThread specFramer :=
  EosTcpClientThread.exec
    [.worker .connected, .worker .connected, .worker .connected, .worker .connected,
     .worker .connected, .worker .connected,
     .worker (.received [0, 0, 0, 1, 47, 0, 0, 0, 2, 48, 49])] tcpStarted

/-! ## `MainWindow::Shutdown` and `MainWindow::Start` -/

/-- What `MainWindow::Start` reads from the settings panel `m_SettingsPanel`: the
answers of its getters. -/
structure SettingsPanel where
  GetMode : EnumFrameMode
  GetIP : String
  GetTcpPort : Nat
  GetUdpOutputPort : Nat
  GetUdpInputPort : Nat
deriving Repr, Inhabited

namespace MainWindow

variable {F : OSCStream}

/-- Lines 392-401 of `MainWindow::Shutdown`: the TCP client is stopped, flushed and
deleted (its destructor calls `Stop` once more). -/
def ShutdownTcp (it : List TcpInput) (w : MainWindow F) : Option (MainWindow F) :=
  match w.m_TcpClientThread with
  | some t =>
    match t.Stop it with
    | none => none
    | some t =>
      let w := w.ClearRecvQ
      let w := w.ClearNetEventQ
      let r := t.Flush w.m_TempLogQ w.m_RecvQ w.m_NetEventQ
      let w := { w with m_TempLogQ := r.2.1, m_RecvQ := r.2.2.1, m_NetEventQ := r.2.2.2 }
      let w := { w with m_Log := EosLog.AddLog w.m_Log w.m_TempLogQ }
      match r.1.Stop [] with
      | none => none
      | some _ => some { w with m_TcpClientThread := none }
  | none => some w

/-- Lines 403-412 of `MainWindow::Shutdown`: the UDP input transport is stopped, flushed
and deleted. -/
def ShutdownUdpIn (iv : List UdpInInput) (w : MainWindow F) : Option (MainWindow F) :=
  match w.m_UdpInThread with
  | some t =>
    match t.Stop iv with
    | none => none
    | some t =>
      let w := w.ClearRecvQ
      let r := t.Flush w.m_TempLogQ w.m_RecvQ
      let w := { w with m_TempLogQ := r.2.1, m_RecvQ := r.2.2 }
      let w := { w with m_Log := EosLog.AddLog w.m_Log w.m_TempLogQ }
      match r.1.Stop [] with
      | none => none
      | some _ => some { w with m_UdpInThread := none }
  | none => some w

/-- Lines 414-423 of `MainWindow::Shutdown`: the UDP output transport is stopped,
flushed and deleted. -/
def ShutdownUdpOut (iu : List UdpOutInput) (w : MainWindow F) : Option (MainWindow F) :=
  match w.m_UdpOutThread with
  | some t =>
    match t.Stop iu with
    | none => none
    | some t =>
      let w := w.ClearRecvQ
      let w := w.ClearNetEventQ
      let r := t.Flush w.m_TempLogQ w.m_NetEventQ
      let w := { w with m_TempLogQ := r.2.1, m_NetEventQ := r.2.2 }
      let w := { w with m_Log := EosLog.AddLog w.m_Log w.m_TempLogQ }
      match r.1.Stop [] with
      | none => none
      | some _ => some { w with m_UdpOutThread := none }
  | none => some w

/-- `MainWindow::Shutdown` (390-427). The lists are what the workers learn from outside
while the owner waits for them in `Stop`. -/
def Shutdown (iu : List UdpOutInput) (iv : List UdpInInput) (it : List TcpInput)
    (w : MainWindow F) : Option (MainWindow F) :=
  match w.ShutdownTcp it with
  | none => none
  | some w =>
    match w.ShutdownUdpIn iv with
    | none => none
    | some w =>
      match w.ShutdownUdpOut iu with
      | none => none
      | some w =>
        let w := w.ClearRecvQ
        some w.ClearNetEventQ

/-- `MainWindow::Start` (653-682). The constructor of the TCP client leaves its frame
mode unset; `Start` of the transport sets it before anything reads it. -/
def Start (panel : SettingsPanel) (iu : List UdpOutInput) (iv : List UdpInInput)
    (it : List TcpInput) (w : MainWindow F) : Option (MainWindow F) :=
  match w.Shutdown iu iv it with
  | none => none
  | some w =>
    let mode := panel.GetMode
    let ip := panel.GetIP
    match mode with
    | .FRAME_MODE_1_0 | .FRAME_MODE_1_1 =>
      match (EosTcpClientThread.new F .FRAME_MODE_INVALID).Start [] ip panel.GetTcpPort mode with
      | none => none
      | some t => some { w with m_TcpClientThread := some t }
    | _ =>
      match EosUdpOutThread.new.Start [] ip panel.GetUdpOutputPort with
      | none => none
      | some u =>
        let w := { w with m_UdpOutThread := some u }
        match EosUdpInThread.new.Start [] "0.0.0.0" panel.GetUdpInputPort with
        | none => none
        | some v => some { w with m_UdpInThread := some v }

end MainWindow

/-- The settings of a UDP setup. -/
def panelUdp : SettingsPanel :=
  { GetMode := .FRAME_MODE_INVALID, GetIP := "127.0.0.1", GetTcpPort := 3032,
    GetUdpOutputPort := 8000, GetUdpInputPort := 8001 }

/-- The transports of the main window are those of the frame mode: the TCP client alone
for the modes 1.0 and 1.1, the UDP output and input transports alone for any other
mode. -/
def MainWindow.transportsFor {F : OSCStream} (mode : EnumFrameMode) (w : MainWindow F) :
    Prop :=
  ((mode = .FRAME_MODE_1_0 ∨ mode = .FRAME_MODE_1_1) ∧ w.m_TcpClientThread.isSome = true ∧
    w.m_UdpOutThread = none ∧ w.m_UdpInThread = none) ∨
  (mode ≠ .FRAME_MODE_1_0 ∧ mode ≠ .FRAME_MODE_1_1 ∧ w.m_TcpClientThread = none ∧
    w.m_UdpOutThread.isSome = true ∧ w.m_UdpInThread.isSome = true)

/-! ## The send path of the TCP client -/

/-- The bytes are handed to the framer one at a time, as `oscStream.Add(data, 1)`, with a
call of `GetNextFrame` after every `Add`: the framer afterwards and what each call
returned, in order. -/
def OSCStream.poll (F : OSCStream) : F.σ → Bytes → F.σ × List (Option Bytes × Nat)
  | st, [] => (st, [])
  | st, b :: bs =>
    let r := F.GetNextFrame (F.Add st (some [b]) 1)
    let rest := OSCStream.poll F r.1 bs
    (rest.1, (r.2.1, r.2.2) :: rest.2)

/-! ## Net events still to come after a stop request -/

/-- The net events the UDP output worker still pushes on its way out of `run()` once
the run flag is cleared, by its position (for the positions after `Initialize`): the
session it is in is closed with `NET_EVENT_DISCONNECTED` (158-160), a session about to
be opened (130-132) is opened first. -/
def UdpOutPc.pending : UdpOutPc → NETEVENT_Q
  | .pushConnected => [.NET_EVENT_CONNECTED, .NET_EVENT_DISCONNECTED]
  | .innerTest | .swap | .forTest | .sendOne | .afterFor | .pushDisconnected =>
    [.NET_EVENT_DISCONNECTED]
  | _ => []

/-- The net events the TCP worker still pushes on its way out of `run()` once the run
flag is cleared, by its position: the session it is in is closed with
`NET_EVENT_DISCONNECTED` (544-546), a session about to be opened (486-488) is opened
first. -/
def TcpPc.pending : TcpPc → NETEVENT_Q
  | .pushConnected => [.NET_EVENT_CONNECTED, .NET_EVENT_DISCONNECTED]
  | .recv | .drainTest | .getFrame | .swapSend | .sendTest | .sendOne | .clearSend
  | .loopTest | .pushDisconnected => [.NET_EVENT_DISCONNECTED]
  | _ => []

/-! ## The scratch buffer of the UDP input worker -/

/-- One action of a run of the UDP input transport: a step of the worker, a `Flush` by
the owner, or the first statement of `Stop`. -/
inductive UdpInAction where
  | worker (inp : UdpInInput)
  | flush (logQ : LOG_Q) (recvQ : PACKET_Q)
  | stopRequest
deriving Repr

/-- The transport after one action of the worker or of the owner. -/
def EosUdpInThread.act (a : UdpInAction) (s : EosUdpInThread) : EosUdpInThread :=
  match a with
  | .worker inp => EosUdpInThread.runStep inp s
  | .flush logQ recvQ => (s.Flush logQ recvQ).1
  | .stopRequest => { s with m_Run := false }

/-- The transport after a sequence of actions. -/
def EosUdpInThread.exec (acts : List UdpInAction) (s : EosUdpInThread) : EosUdpInThread :=
  acts.foldl (fun s a => EosUdpInThread.act a s) s

/-- Lines 289-299 of `run()`: the scratch buffer as `memcpy` finds it for a datagram of
length `len`: a buffer that is too small is released, a missing buffer is allocated
with `len` bytes. -/
def EosUdpInThread.scratchFor (s : EosUdpInThread) (len : Nat) : EosUdpInThread :=
  let s :=
    if s.scratch.isSome && s.scratchSize < len then
      { s with history := s.history ++ [.free s.scratch], scratch := none }
    else s
  if s.scratch.isNone then
    { s with scratchSize := len, scratch := some (newChar len) }
  else s

/-- The sizes of the packets a history enqueues, in order: the lengths of the datagrams
the UDP input worker has worked on. -/
def recvSizes : List Effect → List Nat
  | [] => []
  | .recv p :: h => p.size :: recvSizes h
  | _ :: h => recvSizes h

/-- An input of the UDP input worker fits when the buffer `RecvPacket` returns holds at
least `len` bytes. -/
def UdpInInput.fits (inp : UdpInInput) : Prop :=
  ∀ bytes, inp.data = some bytes → inp.len ≤ (bytes.length : Int)

/-- The inputs of the worker steps of a run. -/
def workerInputs : List UdpInAction → List UdpInInput
  | [] => []
  | .worker inp :: acts => inp :: workerInputs acts
  | _ :: acts => workerInputs acts

/-- State of the scratch buffer inside and behind the receive loop (278-311), relative
to the sizes `base` enqueued before the loop was entered: the recorded capacity is the
largest datagram length of the session, a buffer exists once a datagram has come, and
the worker never comes back to `Initialize` once the loop is left. -/
def EosUdpInThread.scratchInv (base : List Nat) (s : EosUdpInThread) : Prop :=
  s.pc ≠ .start ∧ s.pc ≠ .init ∧ s.pc ≠ .sessionInit ∧
  (s.pc ≠ .innerTest → s.pc ≠ .recv → s.pc ≠ .afterRecv → s.m_Run = false) ∧
  ∃ lens, recvSizes s.history = base ++ lens ∧
    s.scratchSize = lens.foldl max 0 ∧ (s.scratch.isSome ↔ lens ≠ []) ∧
    ∀ n ∈ lens, 0 < n

/-- The scratch buffer, when there is one, has as many bytes as `scratchSize` records. -/
def EosUdpInThread.capacityInv (s : EosUdpInThread) : Prop :=
  ∀ b, s.scratch = some b → b.length = s.scratchSize

/-- Lines 285-299 of `run()`: the worker at the call of `memcpy` for a datagram of
length `len`, after the log prefix, `PrintPacket` and the two tests on the scratch
buffer. -/
def EosUdpInThread.atCopy (s : EosUdpInThread) (inp : UdpInInput) (len : Nat) :
    EosUdpInThread :=
  (inp.printed.foldl EosUdpInThread.OSCParserClient_Log
    { s with m_PrivateLog := EosLog.AddLog s.m_PrivateLog inp.log,
             m_Prefix := s.inPrefix inp.host }).scratchFor
    len

/-- The UDP input worker after a successful `Initialize`, about to set up its session
(269-275). -/
def udpInAtSession : EosUdpInThread :=
  EosUdpInThread.runStep .good udpInAtInit

/-- A run of the UDP input worker inside a session: datagrams of 2, 3 and 1 bytes
arrive, with a `Flush` by the owner in between. -/
def udpInRunDatagrams : List UdpInAction :=
  [.worker .good, .worker (.received [47, 1]), .worker .good,
   .worker .good, .worker (.received [47, 2, 3]), .flush [] [], .worker .good,
   .worker .good, .worker (.received [47]), .worker .good]

/-! ## `MainWindow::ToyClient_Send` -/

/-- `MainWindow::ToyClient_Send` (1271-1303): the window afterwards and the returned
flag. A local message goes to `m_Toys->Recv`; any other goes to the UDP output
transport when there is one, else to the TCP client when there is one. The parameter
`local` is written `isLocal`; the `delete[] buf` of the paths that keep the buffer out
of a queue leaves the window as it is. -/
def MainWindow.ToyClient_Send {F : OSCStream} (w : MainWindow F) (isLocal : Bool)
    (buf : Option Bytes) (size : Nat) : MainWindow F × Bool :=
  if buf.isSome && size != 0 then
    if isLocal then
      ({ w with toys := w.toys ++ [.Recv buf size] }, true)
    else
      let packet : sPacket := { data := buf, size := size }
      match w.m_UdpOutThread with
      | some u =>
        let r := u.Send packet
        let w := { w with m_UdpOutThread := some r.1 }
        if r.2 then (w, true) else (w, false)
      | none =>
        match w.m_TcpClientThread with
        | some t =>
          let r := t.Send packet
          let w := { w with m_TcpClientThread := some r.1 }
          if r.2 then (w, true) else (w, false)
        | none => (w, false)
  else (w, false)

/-! ## Settings: the frame mode read from a settings line -/

/-- Modelled from the spec: `static_cast<int>` of a frame mode. The spec has three frame
modes (Invalid/UDP-native, OSC-1.0-TCP, OSC-1.1-TCP); they are numbered from 0 in that
order, as an enumeration without initialisers. -/
def EnumFrameMode.toInt : EnumFrameMode → Int
  | .FRAME_MODE_INVALID => 0
  | .FRAME_MODE_1_0 => 1
  | .FRAME_MODE_1_1 => 2

/-- Modelled from the spec: `OSCStream::FRAME_MODE_COUNT`, the number of frame modes,
closing the enumeration. -/
def FRAME_MODE_COUNT : Int := 3

/-- `#define MIN_OPACITY 10` (`MainWindow.cpp` 32). -/
def MIN_OPACITY : Int := 10

/-- What the text functions of the library answer: `Utils::GetItemsFromQuotedString`,
`QString::toInt` and `QString::toUShort`. -/
structure QtText where
  GetItemsFromQuotedString : String → List String
  toInt : String → Int
  toUShort : String → Nat

/-- Calls `MainWindow::LoadSettings` makes on the settings panel, the two menu actions
and the opacity menu. -/
inductive SettingsCall where
  /-- `m_SettingsPanel->SetMode(static_cast<OSCStream::EnumFrameMode>(n))` -/
  | SetMode (n : Int)
  /-- `m_SettingsPanel->SetIP(ip)` -/
  | SetIP (ip : String)
  /-- `m_SettingsPanel->SetPort1(port)` -/
  | SetPort1 (port : Nat)
  /-- `m_SettingsPanel->SetPort2(port)` -/
  | SetPort2 (port : Nat)
  /-- `m_MenuActionFrames->setChecked(b)` -/
  | FramesSetChecked (b : Bool)
  /-- `m_MenuActionAlwaysOnTop->setChecked(b)` -/
  | AlwaysOnTopSetChecked (b : Bool)
  /-- `m_OpacityMenu->SetOpacity(n)` -/
  | SetOpacity (n : Int)
deriving DecidableEq, Repr

/-- `MainWindow::LoadSettings` (607-649): the calls made, in order, `index` afterwards
and the returned flag. The two flags say whether the menu actions exist. -/
def MainWindow.LoadSettings (q : QtText) (m_MenuActionFrames m_MenuActionAlwaysOnTop : Bool)
    (lines : List String) (index : Int) : List SettingsCall × Int × Bool :=
  if index ≥ 0 ∧ index < lines.length then
    let items := q.GetItemsFromQuotedString (lines.getD index.toNat "")
    let index := index + 1
    let c₀ : List SettingsCall :=
      if items.length > 0 then
        let n := q.toInt (items.getD 0 "")
        let n := if n < 0 ∨ n ≥ FRAME_MODE_COUNT then EnumFrameMode.FRAME_MODE_INVALID.toInt else n
        [.SetMode n]
      else []
    let c₁ : List SettingsCall :=
      if items.length > 1 then [.SetIP (items.getD 1 "")] else []
    let c₂ : List SettingsCall :=
      if items.length > 2 then [.SetPort1 (q.toUShort (items.getD 2 ""))] else []
    let c₃ : List SettingsCall :=
      if items.length > 3 then [.SetPort2 (q.toUShort (items.getD 3 ""))] else []
    let c₄ : List SettingsCall :=
      if m_MenuActionFrames && decide (items.length > 4) then
        [.FramesSetChecked (q.toInt (items.getD 4 "") != 0)]
      else []
    let c₅ : List SettingsCall :=
      if m_MenuActionAlwaysOnTop && decide (items.length > 5) then
        [.AlwaysOnTopSetChecked (q.toInt (items.getD 5 "") != 0)]
      else []
    let c₆ : List SettingsCall :=
      if items.length > 6 then
        let n := q.toInt (items.getD 6 "")
        let n := if n < MIN_OPACITY then MIN_OPACITY else if n > 100 then 100 else n
        [.SetOpacity n]
      else []
    (c₀ ++ c₁ ++ c₂ ++ c₃ ++ c₄ ++ c₅ ++ c₆, index, false)
  else ([], index, false)

/-- The combo box `m_Mode` of the settings panel: `currentIndex()` and, for an index,
`itemData(index)` as the integer of the `QVariant`, none when the variant is not
valid. -/
structure QComboBox where
  currentIndex : Int
  itemData : Int → Option Int

/-- `SettingsPanel::GetMode` (215-230), as the integer of the frame mode returned. -/
def SettingsPanel_GetMode (m_Mode : QComboBox) : Int :=
  let index := m_Mode.currentIndex
  if index ≥ 0 then
    match m_Mode.itemData index with
    | some n =>
      if n ≥ 0 ∧ n < FRAME_MODE_COUNT then n
      else EnumFrameMode.FRAME_MODE_INVALID.toInt
    | none => EnumFrameMode.FRAME_MODE_INVALID.toInt
  else EnumFrameMode.FRAME_MODE_INVALID.toInt

/-! ## `ToyGrid`: the grid of widgets -/

/-- `QSize`. -/
structure QSize where
  width : Int
  height : Int
deriving DecidableEq, Repr, Inhabited

/-- `QSize::isEmpty`: the width or the height is 0 or less. -/
def QSize.isEmpty (s : QSize) : Bool := decide (s.width ≤ 0) || decide (s.height ≤ 0)

/-- `QRect`, as `x`, `y`, `width`, `height`. -/
structure QRect where
  x : Int
  y : Int
  width : Int
  height : Int
deriving DecidableEq, Repr, Inhabited

/-- `QMargins`. -/
structure QMargins where
  left : Int
  top : Int
  right : Int
  bottom : Int
deriving DecidableEq, Repr, Inhabited

/-- `ToyWidget::EnumMode`. -/
inductive EnumMode where
  | MODE_DEFAULT
  | MODE_EDIT
deriving DecidableEq, Repr, Inhabited

/-- What the grid sets on a `ToyWidget`. -/
structure ToyWidget where
  /-- `SetText` -/
  text : String
  /-- `SetPath` -/
  path : String
  /-- `SetMode` -/
  mode : EnumMode
  /-- `show()` has been called -/
  shown : Bool
  /-- `setGeometry` -/
  geometry : QRect
deriving DecidableEq, Repr, Inhabited

/-- Calls `ToyGrid::Load` makes on its own window. -/
inductive WindowCall where
  | ClipToScreen
  | showNormal
  | raise
  | close
  | show
deriving DecidableEq, Repr

/-- What a `ToyGrid` gets from outside: the virtual functions `CreateWidget` (its answer
when the list holds `n` widgets; none for a null pointer) and `GetDefaultWidgetSize`,
`Toy::GetDefaultPathName`, `Toy::ResourceRelativePathToAbsolute`, `QString::toUInt`
with base 16, and `ToyWidget::Load` (the widget and `index` afterwards). -/
structure ToyGridEnv where
  CreateWidget : Nat → Option ToyWidget
  GetDefaultWidgetSize : QSize
  GetDefaultPathName : String
  ResourceRelativePathToAbsolute : String → String → String
  toUInt16 : String → Nat
  widgetLoad : ToyWidget → String → List String → Int → ToyWidget × Int

structure ToyGrid where
  m_Mode : EnumMode
  m_GridSize : QSize
  m_List : List ToyWidget
  m_Loading : Bool
  m_EditWidgetIndex : Nat
  m_Text : String
  m_ImagePath : String
  m_Color : Nat
  m_SendOnConnect : Bool
  /-- `QWidget::geometry()` of the grid -/
  geometry : QRect
  /-- `QWidget::contentsMargins()` -/
  contentsMargins : QMargins
  /-- `QWidget::setMinimumSize` -/
  minimumSize : QSize
  /-- `parentWidget() != 0` -/
  hasParent : Bool
  /-- ghost: widgets handed to `deleteLater`, in order -/
  deleted : List ToyWidget
  /-- ghost: number of `recvWidgetsChanged` signals emitted -/
  emitted : Nat
  /-- ghost: calls on the window, in order -/
  window : List WindowCall
deriving Repr, Inhabited

/-- The product of two `int`, wrapped to 32 bits. -/
def mulInt (a b : Int) : Int :=
  let m : Int := (a * b) % 2 ^ 32
  if m < 2 ^ 31 then m else m - 2 ^ 32

/-- `static_cast<size_t>` of an `int` (64-bit `size_t`). -/
def castSize (n : Int) : Nat := (n % 2 ^ 64).toNat

namespace ToyGrid

/-- Constructor (141-162): grid size `(0, 0)`, no widgets. -/
def new (text : String) (color : Nat) (hasParent : Bool) (margins : QMargins) : ToyGrid :=
  { m_Mode := .MODE_DEFAULT, m_GridSize := ⟨0, 0⟩, m_List := [], m_Loading := false,
    m_EditWidgetIndex := 0, m_Text := text, m_ImagePath := "", m_Color := color,
    m_SendOnConnect := false, geometry := ⟨0, 0, 0, 0⟩, contentsMargins := margins,
    minimumSize := ⟨0, 0⟩, hasParent := hasParent, deleted := [], emitted := 0,
    window := [] }

/-- `ToyGrid::AutoSize` (285-289): `resize` keeps the position. -/
def AutoSize (g : ToyGrid) (widgetSize : QSize) : ToyGrid :=
  let w := g.contentsMargins.left + g.m_GridSize.width * widgetSize.width +
    g.contentsMargins.right
  let h := g.contentsMargins.top + g.m_GridSize.height * widgetSize.height +
    g.contentsMargins.bottom
  { g with geometry := { g.geometry with width := w, height := h } }

/-- `ToyGrid::ApplyDefaultSettings` (293-302). -/
def ApplyDefaultSettings (env : ToyGridEnv) (widget : ToyWidget) (index : Nat) : ToyWidget :=
  { widget with text := toString index,
                path := "/" ++ env.GetDefaultPathName ++ "/" ++ toString index }

/-- The loop of `UpdateLayoutForRect` (406-417) over the widgets still to place: `x`,
`y` and `col` are the locals, `x₀` is `r.x() + contentsMargins().left()`. -/
def layoutLoop (gridWidth x₀ w h : Int) : List ToyWidget → Int → Int → Int → List ToyWidget
  | [], _, _, _ => []
  | widget :: rest, x, y, col =>
    { widget with geometry := ⟨x, y, w, h⟩ } ::
      (if col + 1 ≥ gridWidth then layoutLoop gridWidth x₀ w h rest x₀ (y + h) 0
       else layoutLoop gridWidth x₀ w h rest (x + w) y (col + 1))

/-- `ToyGrid::UpdateLayoutForRect` (397-419). The division of `int` truncates. -/
def UpdateLayoutForRect (g : ToyGrid) (r : QRect) : ToyGrid :=
  if !g.m_GridSize.isEmpty then
    let w := (r.width - g.contentsMargins.left - g.contentsMargins.right).tdiv
      g.m_GridSize.width
    let h := (r.height - g.contentsMargins.top - g.contentsMargins.bottom).tdiv
      g.m_GridSize.height
    let x := r.x + g.contentsMargins.left
    let y := r.y + g.contentsMargins.top
    let placed := layoutLoop g.m_GridSize.width (r.x + g.contentsMargins.left) w h
      g.m_List x y 0
    { g with m_List := placed }
  else g

/-- `ToyGrid::UpdateLayout` (390-393): `rect()` is the geometry moved to `(0, 0)`. -/
def UpdateLayout (g : ToyGrid) : ToyGrid :=
  g.UpdateLayoutForRect ⟨0, 0, g.geometry.width, g.geometry.height⟩

/-- The loop "remove excess" of `SetGridSize` (243-247); `fuel` bounds the number of
rounds. -/
def removeExcess (numWidgets : Nat) : Nat → ToyGrid → ToyGrid
  | 0, g => g
  | fuel + 1, g =>
    if g.m_List.length > numWidgets then
      removeExcess numWidgets fuel
        { g with deleted := g.deleted ++ (g.m_List.drop (g.m_List.length - 1)),
                 m_List := g.m_List.dropLast }
    else g

/-- The loop "add new" of `SetGridSize` (250-266); `fuel` bounds the number of
rounds. -/
def addNew (env : ToyGridEnv) (numWidgets : Nat) : Nat → ToyGrid → ToyGrid
  | 0, g => g
  | fuel + 1, g =>
    if g.m_List.length < numWidgets then
      match env.CreateWidget g.m_List.length with
      | some widget =>
        let widget := ApplyDefaultSettings env widget (g.m_List.length + 1)
        let widget := { widget with mode := g.m_Mode }
        let widget := if !g.m_Loading then { widget with shown := true } else widget
        addNew env numWidgets fuel { g with m_List := g.m_List ++ [widget] }
      | none => g
    else g

/-- The two loops of `SetGridSize` (243-266), each with as many rounds as it can
need. -/
def resizeList (env : ToyGridEnv) (numWidgets : Nat) (g : ToyGrid) : ToyGrid :=
  let g := removeExcess numWidgets g.m_List.length g
  addNew env numWidgets (numWidgets - g.m_List.length) g

/-- `ToyGrid::SetGridSize` (223-281). -/
def SetGridSize (env : ToyGridEnv) (g : ToyGrid) (gridSize : QSize) : ToyGrid :=
  let gs := gridSize
  let gs := if gs.width < 1 then { gs with width := 1 } else gs
  let gs := if gs.height < 1 then { gs with height := 1 } else gs
  if g.m_GridSize ≠ gs then
    let widgetSize : QSize :=
      match g.m_List.head? with
      | some front => ⟨front.geometry.width, front.geometry.height⟩
      | none => ⟨0, 0⟩
    let g := { g with m_GridSize := gs }
    let numWidgets := castSize (mulInt g.m_GridSize.width g.m_GridSize.height)
    let g := resizeList env numWidgets g
    let g := { g with minimumSize := ⟨g.m_GridSize.width * 24, g.m_GridSize.height * 24⟩ }
    let g := { g with m_EditWidgetIndex := g.m_List.length }
    if !g.m_Loading then
      let widgetSize := if widgetSize.isEmpty then env.GetDefaultWidgetSize else widgetSize
      let g := g.AutoSize widgetSize
      let g := g.UpdateLayout
      { g with emitted := g.emitted + 1 }
    else g
  else g

/-- `ToyGrid::Clear` (173-176). -/
def Clear (env : ToyGridEnv) (g : ToyGrid) : ToyGrid :=
  g.SetGridSize env ⟨0, 0⟩

end ToyGrid

/-- A grid of 3 columns and 2 rows with margins `(2, 4, 2, 4)` and six widgets, none
placed yet. -/
def gridThreeByTwo : ToyGrid :=
  { ToyGrid.new "Buttons" 0 false ⟨2, 4, 2, 4⟩ with
    m_GridSize := ⟨3, 2⟩, m_List := List.replicate 6 default }

/-- The widget list of a grid matches its grid size: it holds as many widgets as
`SetGridSize` computes for the size, `static_cast<size_t>(width * height)`. -/
def ToyGrid.matched (g : ToyGrid) : Prop :=
  g.m_List.length = castSize (mulInt g.m_GridSize.width g.m_GridSize.height)

/-- A widget without its geometry. -/
def ToyWidget.unplaced (widget : ToyWidget) : ToyWidget :=
  { widget with geometry := default }

/-- A `ToyGrid` environment in which `CreateWidget` always succeeds, with widgets of 40
by 30. -/
def gridEnv : ToyGridEnv :=
  { CreateWidget := fun _ => some default
    GetDefaultWidgetSize := ⟨40, 30⟩
    GetDefaultPathName := "button"
    ResourceRelativePathToAbsolute := fun _ p => p
    toUInt16 := fun _ => 0
    widgetLoad := fun widget _ _ index => (widget, index + 1) }

namespace ToyGrid

/-- The loop of `Load` over the widgets (729-734): `fuel` is the number of values of
`i` still below `numToyWidgets`. -/
def loadWidgets (env : ToyGridEnv) (path : String) (lines : List String) :
    Nat → Nat → ToyGrid → Int → ToyGrid × Int
  | 0, _, g, index => (g, index)
  | fuel + 1, i, g, index =>
    if index < lines.length then
      if i < g.m_List.length then
        let r := env.widgetLoad (g.m_List.getD i default) path lines index
        loadWidgets env path lines fuel (i + 1) { g with m_List := g.m_List.set i r.1 } r.2
      else loadWidgets env path lines fuel (i + 1) g index
    else (g, index)

/-- Lines 698-759 of `Load`, the part guarded by `items.size() > 7`; none when an
`items[i]` is read with `i` not below `items.size()`. -/
def loadItems (env : ToyGridEnv) (q : QtText) (g : ToyGrid) (path : String)
    (lines : List String) (index : Int) (items : List String) : Option (ToyGrid × Int) := do
  let i₇ ← items[7]?
  let i₈ ← items[8]?
  let gridSize : QSize := ⟨q.toInt i₇, q.toInt i₈⟩
  let g := g.SetGridSize env gridSize
  let i₁ ← items[1]?
  let i₂ ← items[2]?
  let i₃ ← items[3]?
  let i₄ ← items[4]?
  let g := { g with geometry := ⟨q.toInt i₁, q.toInt i₂, q.toInt i₃, q.toInt i₄⟩ }
  let g ←
    if items.length > 9 then (items[9]?).map (fun text => { g with m_Text := text })
    else some g
  let g ←
    if items.length > 10 then
      (items[10]?).map (fun imagePath =>
        { g with m_ImagePath := env.ResourceRelativePathToAbsolute path imagePath })
    else some g
  let g ←
    if items.length > 11 then
      (items[11]?).map (fun color => { g with m_Color := env.toUInt16 color })
    else some g
  let g ←
    if items.length > 12 then
      (items[12]?).map (fun flag => { g with m_SendOnConnect := q.toInt flag != 0 })
    else some g
  let numToyWidgets := mulInt gridSize.width gridSize.height
  let r := loadWidgets env path lines numToyWidgets.toNat 0 g index
  let g := r.1
  let index := r.2
  if !g.hasParent then
    let i₆ ← items[6]?
    let windowVisible := q.toInt i₆ != 0
    let g := { g with window := g.window ++ [WindowCall.ClipToScreen] }
    if windowVisible then
      some ({ g with window := g.window ++ [WindowCall.showNormal, WindowCall.raise] }, index)
    else some ({ g with window := g.window ++ [WindowCall.close] }, index)
  else some ({ g with window := g.window ++ [WindowCall.show] }, index)

/-- `ToyGrid::Load` (688-769): the grid and `index` afterwards and the returned flag;
none when an `items[i]` is read with `i` not below `items.size()`. -/
def Load (env : ToyGridEnv) (q : QtText) (g : ToyGrid) (path : String)
    (lines : List String) (index : Int) : Option (ToyGrid × Int × Bool) :=
  if index ≥ 0 ∧ index < lines.length then
    let g := { g with m_Loading := true }
    let items := q.GetItemsFromQuotedString (lines.getD index.toNat "")
    let index := index + 1
    let loaded : Option (ToyGrid × Int) :=
      if items.length > 7 then loadItems env q g path lines index items
      else some (g, index)
    match loaded with
    | none => none
    | some (g, index) =>
      let g := { g with m_Loading := false }
      let g := g.UpdateLayout
      some ({ g with emitted := g.emitted + 1 }, index, true)
  else some (g, index, true)

end ToyGrid

/-- Text functions for a file whose lines have eight items each, the seventh and the
eighth reading 2. -/
def eightItems : QtText :=
  { GetItemsFromQuotedString := fun _ => ["0", "10", "10", "200", "100", "0", "1", "2"]
    toInt := fun item => if item = "2" then 2 else 0
    toUShort := fun _ => 0 }

/-! ## `OpacityMenu` -/

/-- `OpacityAction`: the opacity it stands for, and whether it is checked. -/
structure OpacityAction where
  m_Opacity : Int
  checked : Bool
deriving DecidableEq, Repr, Inhabited

structure OpacityMenu where
  m_OpacityActions : List OpacityAction
deriving DecidableEq, Repr

namespace OpacityMenu

/-- The loop of the constructor (123-129), `for (i = MIN_OPACITY; i <= 100; i += 10)`;
`fuel` bounds the number of rounds. -/
def newLoop : Nat → Int → List OpacityAction
  | 0, _ => []
  | fuel + 1, i => if i ≤ 100 then ⟨i, false⟩ :: newLoop fuel (i + 10) else []

/-- `OpacityMenu::OpacityMenu` (118-130); the loop ends in its eleventh round. -/
def new : OpacityMenu := ⟨newLoop 11 MIN_OPACITY⟩

/-- The first loop of `SetOpacity` (142-155) over the actions still to visit: `i` is
the position of the iterator, `closest` the position of the action `closest` points to
(none for the null pointer), `minDelta` the local of that name. -/
def closestLoop (opacity : Int) : List OpacityAction → Nat → Option Nat → Int → Option Nat
  | [], _, closest, _ => closest
  | action :: rest, i, closest, minDelta =>
    let delta := abs (action.m_Opacity - opacity)
    if i = 0 ∨ delta < minDelta then
      if delta = 0 then some i
      else closestLoop opacity rest (i + 1) (some i) delta
    else closestLoop opacity rest (i + 1) closest minDelta

/-- The second loop of `SetOpacity` (157-161): `action->setChecked(action == closest)`
for every action. -/
def setChecked (closest : Option Nat) : List OpacityAction → Nat → List OpacityAction
  | [], _ => []
  | action :: rest, i =>
    { action with checked := (some i == closest) } :: setChecked closest rest (i + 1)

/-- `OpacityMenu::SetOpacity` (134-162). -/
def SetOpacity (menu : OpacityMenu) (opacity : Int) : OpacityMenu :=
  let opacity :=
    if opacity < MIN_OPACITY then MIN_OPACITY else if opacity > 100 then 100 else opacity
  let closest := closestLoop opacity menu.m_OpacityActions 0 none 0
  ⟨setChecked closest menu.m_OpacityActions 0⟩

end OpacityMenu

/-- The opacity `SetOpacity` works with: the argument brought into `[MIN_OPACITY, 100]`. -/
def clampOpacity (opacity : Int) : Int :=
  if opacity < MIN_OPACITY then MIN_OPACITY else if opacity > 100 then 100 else opacity

/-- The distance of the opacity of the action at position `j` from `opacity`. -/
def opacityDelta (actions : List OpacityAction) (opacity : Int) (j : Nat) : Int :=
  abs ((actions.getD j default).m_Opacity - opacity)

/-! ## A batch of the send loop -/

/-- The inputs of the steps that work on a packet, when the steps of a batch loop take
their inputs from the list in turn: loop test, packet, loop test, packet, ... -/
def packetInputs {α : Type} : List α → List α
  | _ :: inp :: rest => inp :: packetInputs rest
  | _ => []

/-- What the batch loop of the UDP output worker (145-150) does for the packets `ps`
when `SendPacket` answers as in `ins`: each packet is written and then released,
whatever the answer. -/
def udpOutSent : List sPacket → List UdpOutInput → List Effect
  | p :: ps, inp :: ins =>
    Effect.write p.data (castInt p.size) inp.ok :: Effect.free p.data :: udpOutSent ps ins
  | _, _ => []

/-- The lines the batch loop of the UDP output worker adds to the private log: for each
packet the lines of the socket call and, only when `SendPacket` succeeded, the printed
lines of the packet behind the prefix. -/
def udpOutBatchLog (pre : String) : List sPacket → List UdpOutInput → LOG_Q
  | _ :: ps, inp :: ins =>
    inp.log ++
      (if inp.ok then inp.printed.map (fun m => (⟨.LOG_MSG_TYPE_SEND, pre ++ m⟩ : sLogMsg))
       else []) ++ udpOutBatchLog pre ps ins
  | _, _ => []

/-- A UDP output worker about to call `Initialize`, run flag set, whose address text is
the place marker `%1`. -/
def udpOutMarkerAtInit : EosUdpOutThread :=
  EosUdpOutThread.runStep .good (EosUdpOutThread.runStep .good
    (EosUdpOutThread.start
      { EosUdpOutThread.new with m_Ip := "%1", m_Port := 8000, m_Run := true }))

/-! ## Theorems -/

section Owner

variable {F : OSCStream}

/-- C1: for every transport state and every packet, `Send` of the UDP output transport
and of the TCP client returns false exactly when the data pointer of the packet is null
or its size is 0, and true otherwise. -/
theorem Send_result (u : EosUdpOutThread) (t : EosTcpClientThread F) (packet : sPacket) :
    ((u.Send packet).2 = false ↔ (packet.data = none ∨ packet.size = 0)) ∧
    ((u.Send packet).2 = true ↔ ¬ (packet.data = none ∨ packet.size = 0)) ∧
    ((t.Send packet).2 = false ↔ (packet.data = none ∨ packet.size = 0)) ∧
    ((t.Send packet).2 = true ↔ ¬ (packet.data = none ∨ packet.size = 0)) := by
  obtain ⟨data, size⟩ := packet
  cases data <;> by_cases h : size = 0 <;>
    simp [EosUdpOutThread.Send, EosTcpClientThread.Send, h]

/-- C3: for every state of the UDP input transport and of the TCP client and every
packet container of the caller, after `Flush` the container holds exactly the packets
that were queued in the transport, in queue order, and the receive queue of the
transport is empty. -/
theorem Flush_recvQ (u : EosUdpInThread) (t : EosTcpClientThread F) (logQ : LOG_Q)
    (recvQ : PACKET_Q) (netEventQ : NETEVENT_Q) :
    (u.Flush logQ recvQ).2.2 = u.m_Q ∧ (u.Flush logQ recvQ).1.m_Q = [] ∧
    (t.Flush logQ recvQ netEventQ).2.2.1 = t.m_RecvQ ∧
    (t.Flush logQ recvQ netEventQ).1.m_RecvQ = [] := by
  simp [EosUdpInThread.Flush, EosTcpClientThread.Flush, clear]

end Owner

section RecvOrder

variable {F : OSCStream}

theorem memcpy_newChar (bytes : Bytes) (size : Nat) :
    memcpy (newChar size) bytes size = bytes.take size := by
  simp [memcpy, newChar]

theorem udpIn_recvRun_order (ops : List RecvOp) (s : EosUdpInThread) :
    (s.recvRun ops).2.flatten ++ (s.recvRun ops).1.m_Q = s.m_Q ++ enqueuedBy ops := by
  induction ops generalizing s with
  | nil => simp [EosUdpInThread.recvRun, enqueuedBy]
  | cons op ops ih =>
    cases op with
    | enqueue buf size =>
      cases buf with
      | none => simpa [EosUdpInThread.recvRun, enqueuedBy,
          EosUdpInThread.OSCHandlerClient_Recv] using ih s
      | some bytes =>
        by_cases h : size = 0
        · simpa [EosUdpInThread.recvRun, enqueuedBy,
            EosUdpInThread.OSCHandlerClient_Recv, h] using ih s
        · simp [EosUdpInThread.recvRun, enqueuedBy,
            EosUdpInThread.OSCHandlerClient_Recv, h, ih, memcpy_newChar]
    | flush logQ recvQ netEventQ =>
      simp [EosUdpInThread.recvRun, enqueuedBy, ih, EosUdpInThread.Flush, clear]

theorem tcp_recvRun_order (ops : List RecvOp) (s : EosTcpClientThread F) :
    (s.recvRun ops).2.flatten ++ (s.recvRun ops).1.m_RecvQ = s.m_RecvQ ++ enqueuedBy ops := by
  induction ops generalizing s with
  | nil => simp [EosTcpClientThread.recvRun, enqueuedBy]
  | cons op ops ih =>
    cases op with
    | enqueue buf size =>
      cases buf with
      | none => simpa [EosTcpClientThread.recvRun, enqueuedBy,
          EosTcpClientThread.OSCHandlerClient_Recv] using ih s
      | some bytes =>
        by_cases h : size = 0
        · simpa [EosTcpClientThread.recvRun, enqueuedBy,
            EosTcpClientThread.OSCHandlerClient_Recv, h] using ih s
        · simp [EosTcpClientThread.recvRun, enqueuedBy,
            EosTcpClientThread.OSCHandlerClient_Recv, h, ih, memcpy_newChar]
    | flush logQ recvQ netEventQ =>
      simp [EosTcpClientThread.recvRun, enqueuedBy, ih, EosTcpClientThread.Flush, clear]

/-- C4: receive order is preserved end to end. For every interleaving of enqueues by the
worker (`OSCHandlerClient_Recv`) and `Flush` calls by the owner on a UDP input or a TCP
transport, the packet lists returned by the successive `Flush` calls, concatenated and
followed by the packets still queued, are the packets queued at the beginning followed
by the enqueued packets in the order of their enqueue: none lost, duplicated or
reordered. -/
theorem recv_order_preserved (ops : List RecvOp) (u : EosUdpInThread)
    (t : EosTcpClientThread F) :
    (u.recvRun ops).2.flatten ++ (u.recvRun ops).1.m_Q = u.m_Q ++ enqueuedBy ops ∧
    (t.recvRun ops).2.flatten ++ (t.recvRun ops).1.m_RecvQ = t.m_RecvQ ++ enqueuedBy ops :=
  ⟨udpIn_recvRun_order ops u, tcp_recvRun_order ops t⟩

end RecvOrder

section TcpWorker

variable {F : OSCStream}

theorem netEventsOf_append (h₁ h₂ : List Effect) :
    netEventsOf (h₁ ++ h₂) = netEventsOf h₁ ++ netEventsOf h₂ := by
  induction h₁ with
  | nil => simp [netEventsOf]
  | cons e h ih => cases e <;> simp [netEventsOf, ih]

theorem sessionStep_none (e : Effect) : sessionStep none e = none := by
  cases e <;> rfl

theorem sessionScan_append (h₁ h₂ : List Effect) :
    sessionScan (h₁ ++ h₂) = h₂.foldl sessionStep (sessionScan h₁) := by
  simp [sessionScan, List.foldl_append]

theorem tcp_foldl_log_history (l : List String) (s : EosTcpClientThread F) :
    (l.foldl EosTcpClientThread.OSCParserClient_Log s).history = s.history := by
  induction l generalizing s with
  | nil => rfl
  | cons m l ih => simp [List.foldl_cons, ih, EosTcpClientThread.OSCParserClient_Log]

theorem tcp_Recv_history (s : EosTcpClientThread F) (buf : Option Bytes) (size : Nat) :
    (s.OSCHandlerClient_Recv buf size).history = s.history ∨
    ∃ p, (s.OSCHandlerClient_Recv buf size).history = s.history ++ [.recv p] := by
  cases buf with
  | none => left; rfl
  | some bytes =>
    by_cases h : size = 0
    · left; simp [EosTcpClientThread.OSCHandlerClient_Recv, h]
    · right
      exact ⟨{ data := some (memcpy (newChar size) bytes size), size := size },
        by simp [EosTcpClientThread.OSCHandlerClient_Recv, h]⟩

/-- One step of the TCP worker keeps the session check in line with the position. -/
theorem tcp_runStep_session (inp : TcpInput) (s : EosTcpClientThread F)
    (h : sessionScan s.history = some s.pc.inSession) :
    sessionScan (EosTcpClientThread.runStep inp s).history =
      some (EosTcpClientThread.runStep inp s).pc.inSession := by
  unfold EosTcpClientThread.runStep
  split <;> rename_i hpc <;> simp only [hpc, TcpPc.inSession] at h ⊢
  all_goals (try split) <;>
    (try simp_all [sessionScan_append, sessionStep, EosTcpClientThread.UpdateLog,
      tcp_foldl_log_history])
  · rename_i hframe
    simp only [EosTcpClientThread.ProcessPacket]
    rcases tcp_Recv_history (List.foldl EosTcpClientThread.OSCParserClient_Log
        { s with oscStream := (F.GetNextFrame s.oscStream).1,
                 m_Prefix := EosTcpClientThread.inPrefix
                   { s with oscStream := (F.GetNextFrame s.oscStream).1 },
                 m_LogMsgType := LogMsgType.LOG_MSG_TYPE_RECV } inp.printed)
        (F.GetNextFrame s.oscStream).2.1 (F.GetNextFrame s.oscStream).2.2 with hr | ⟨p, hr⟩
    · simp_all [tcp_foldl_log_history]
    · simp_all [tcp_foldl_log_history, sessionScan_append, sessionStep]
  · split <;> simp_all [tcp_foldl_log_history]

end TcpWorker

section TcpRuns

variable {F : OSCStream}

/-- An action of the worker or of the owner keeps the session check in line with the
position of the worker. -/
theorem tcp_act_session (a : TcpAction) (s : EosTcpClientThread F)
    (h : sessionScan s.history = some s.pc.inSession) :
    sessionScan (EosTcpClientThread.act a s).history =
      some (EosTcpClientThread.act a s).pc.inSession := by
  cases a with
  | worker inp => exact tcp_runStep_session inp s h
  | owner op =>
    cases op with
    | send p =>
      simp only [EosTcpClientThread.act, EosTcpClientThread.Send]
      split <;> exact h
    | flush logQ recvQ netEventQ => exact h
    | stopRequest => exact h

theorem tcp_exec_session (acts : List TcpAction) (s : EosTcpClientThread F)
    (h : sessionScan s.history = some s.pc.inSession) :
    sessionScan (EosTcpClientThread.exec acts s).history =
      some (EosTcpClientThread.exec acts s).pc.inSession := by
  induction acts generalizing s with
  | nil => exact h
  | cons a acts ih => exact ih (EosTcpClientThread.act a s) (tcp_act_session a s h)

/-- Every run of a freshly started TCP worker passes the session check, and a session
is open exactly at the positions between the two pushes. -/
theorem tcp_run_session (acts : List TcpAction) (s : EosTcpClientThread F) :
    sessionScan (EosTcpClientThread.exec acts s.start).history =
      some (EosTcpClientThread.exec acts s.start).pc.inSession :=
  tcp_exec_session acts s.start rfl

theorem alternation_succ (n : Nat) :
    alternation (n + 1) = alternation n ++
      [if n % 2 = 0 then NetEvent.NET_EVENT_CONNECTED else NetEvent.NET_EVENT_DISCONNECTED] := by
  simp [alternation, List.range_succ]

theorem alternation_length (n : Nat) : (alternation n).length = n := by
  simp [alternation]

theorem alternation_count (n : Nat) :
    (alternation n).count NetEvent.NET_EVENT_CONNECTED = (n + 1) / 2 ∧
    (alternation n).count NetEvent.NET_EVENT_DISCONNECTED = n / 2 := by
  induction n with
  | zero => simp [alternation]
  | succ n ih =>
    rw [alternation_succ, List.count_append, List.count_append, ih.1, ih.2]
    by_cases h : n % 2 = 0
    · simp [h]; omega
    · simp [h]; omega

theorem alternation_count_self (es : List NetEvent) (h : es = alternation es.length) :
    es.count NetEvent.NET_EVENT_CONNECTED = (es.length + 1) / 2 ∧
    es.count NetEvent.NET_EVENT_DISCONNECTED = es.length / 2 := by
  have hc := alternation_count es.length
  rw [← h] at hc
  exact hc

/-- A history that passes the session check has alternating net events, and their
number is odd exactly when the check ends inside a session. -/
theorem sessionScan_alternation (h : List Effect) (b : Bool)
    (hs : sessionScan h = some b) :
    netEventsOf h = alternation (netEventsOf h).length ∧
    ((netEventsOf h).length % 2 = 1 ↔ b = true) := by
  induction h using List.reverseRecOn generalizing b with
  | nil => simp [sessionScan] at hs; subst hs; simp [netEventsOf, alternation]
  | append_singleton h e ih =>
    rw [sessionScan_append] at hs
    simp only [List.foldl_cons, List.foldl_nil] at hs
    cases hb : sessionScan h with
    | none => rw [hb, sessionStep_none] at hs; cases hs
    | some b₀ =>
      rw [hb] at hs
      obtain ⟨ih₁, ih₂⟩ := ih b₀ hb
      rw [netEventsOf_append]
      have hpar : (netEventsOf h).length % 2 = if b₀ then 1 else 0 := by
        cases b₀ <;> simp at ih₂ ⊢ <;> omega
      cases e with
      | netEvent ev =>
        have hlen : (netEventsOf h ++ netEventsOf [Effect.netEvent ev]).length =
            (netEventsOf h).length + 1 := by simp [netEventsOf]
        rw [hlen, alternation_succ, ← ih₁]
        cases b₀ <;> cases ev <;> simp only [sessionStep] at hs <;> cases hs <;>
          simp at hpar <;> simp [netEventsOf, hpar] <;> omega
      | recv p =>
        cases b₀ <;> simp only [sessionStep] at hs
        · cases hs
        · cases hs
          simp only [netEventsOf, List.append_nil]
          exact ⟨ih₁, by simpa using ih₂⟩
      | write d n ok =>
        simp only [sessionStep] at hs
        cases hs
        simp only [netEventsOf, List.append_nil]
        exact ⟨ih₁, ih₂⟩
      | free d =>
        simp only [sessionStep] at hs
        cases hs
        simp only [netEventsOf, List.append_nil]
        exact ⟨ih₁, ih₂⟩
      | sleep ms =>
        simp only [sessionStep] at hs
        cases hs
        simp only [netEventsOf, List.append_nil]
        exact ⟨ih₁, ih₂⟩

/-- A history that passes the session check and ends inside a session has Connected as
its last net event. -/
theorem sessionScan_open_last (h : List Effect) (hs : sessionScan h = some true) :
    (netEventsOf h).getLast? = some NetEvent.NET_EVENT_CONNECTED := by
  obtain ⟨h₁, h₂⟩ := sessionScan_alternation h true hs
  have hodd : (netEventsOf h).length % 2 = 1 := h₂.mpr rfl
  obtain ⟨n, hn⟩ : ∃ n, (netEventsOf h).length = n + 1 :=
    ⟨(netEventsOf h).length - 1, by omega⟩
  rw [h₁, hn, alternation_succ]
  have : n % 2 = 0 := by omega
  simp [this]

/-- A packet push inside a history that passes the session check comes after a
Connected with no Disconnected in between. -/
theorem sessionScan_recv (pre post : List Effect) (p : sPacket) (b : Bool)
    (hs : sessionScan (pre ++ Effect.recv p :: post) = some b) :
    (netEventsOf pre).getLast? = some NetEvent.NET_EVENT_CONNECTED := by
  rw [sessionScan_append, List.foldl_cons] at hs
  have hnone : ∀ l : List Effect, l.foldl sessionStep none = none := by
    intro l
    induction l with
    | nil => rfl
    | cons e l ih => simp [List.foldl_cons, sessionStep_none, ih]
  cases hpre : sessionScan pre with
  | none => rw [hpre, sessionStep_none, hnone] at hs; cases hs
  | some b₀ =>
    cases b₀ with
    | false =>
      rw [hpre] at hs
      simp only [sessionStep] at hs
      rw [hnone] at hs; cases hs
    | true => exact sessionScan_open_last pre hpre

end TcpRuns

section TcpClaims

variable {F : OSCStream}

/-- C5: in every run of the TCP client worker, whatever the sockets answer and whatever
the owner does meanwhile, the net events the worker pushes are Connected, Disconnected,
Connected, ... in alternation, starting with Connected; the number of Connected events
is never more than one above the number of Disconnected events; it is one above exactly
while the worker is in the send/recv loop or at the push that follows the loop, and
equal everywhere else: one Connected per entry into the loop, one Disconnected per exit
from it. -/
theorem tcp_events_alternate (s : EosTcpClientThread F) (acts : List TcpAction) :
    let r := EosTcpClientThread.exec acts s.start
    let es := netEventsOf r.history
    es = alternation es.length ∧
    es.count .NET_EVENT_CONNECTED ≤ es.count .NET_EVENT_DISCONNECTED + 1 ∧
    (es.count .NET_EVENT_CONNECTED = es.count .NET_EVENT_DISCONNECTED + 1 ↔
      r.pc.inSession = true) ∧
    (es.count .NET_EVENT_CONNECTED = es.count .NET_EVENT_DISCONNECTED ↔
      r.pc.inSession = false) := by
  intro r es
  obtain ⟨h₁, h₂⟩ := sessionScan_alternation r.history r.pc.inSession (tcp_run_session acts s)
  obtain ⟨hc, hd⟩ := alternation_count_self es h₁
  have h₃ : r.pc.inSession = false ↔ ¬ (es.length % 2 = 1) := by
    rw [show (es.length % 2 = 1 ↔ r.pc.inSession = true) from h₂]; simp
  refine ⟨h₁, ?_, ?_, ?_⟩
  · rw [hc, hd]; omega
  · rw [hc, hd, ← show (es.length % 2 = 1 ↔ r.pc.inSession = true) from h₂]; omega
  · rw [hc, hd, h₃]; omega

/-- C6: in every run of the TCP client worker, a packet is pushed on the receive queue
only during a session: wherever the history of the worker has a packet push, the last
net event pushed before it is Connected, so the push lies after a Connected and before
the Disconnected that follows it, never after a Disconnected without a Connected in
between. -/
theorem tcp_recv_in_session (s : EosTcpClientThread F) (acts : List TcpAction)
    (pre post : List Effect) (p : sPacket)
    (h : (EosTcpClientThread.exec acts s.start).history = pre ++ Effect.recv p :: post) :
    (netEventsOf pre).getLast? = some NetEvent.NET_EVENT_CONNECTED := by
  have hs := tcp_run_session acts s
  rw [h] at hs
  exact sessionScan_recv pre post p _ hs

/-- In the run `tcpRunReceive` the worker pushes Connected, then the packet `[47]`:
the packet push has Connected as the last net event before it. -/
theorem tcp_recv_in_session_witness :
    (EosTcpClientThread.exec tcpRunReceive tcpStarted.start).history =
      [Effect.netEvent .NET_EVENT_CONNECTED] ++
        Effect.recv { data := some [47], size := 1 } :: [Effect.free (some [47])] ∧
    (netEventsOf [Effect.netEvent .NET_EVENT_CONNECTED]).getLast? =
      some NetEvent.NET_EVENT_CONNECTED :=
  ⟨by rfl, tcp_recv_in_session tcpStarted tcpRunReceive _ _ _ (by rfl)⟩

end TcpClaims

section Owner

variable {F : OSCStream}

theorem ProcessRecvQ_eq (w : MainWindow F) :
    w.ProcessRecvQ = { w with toys := w.toys ++ w.m_RecvQ.map packetCall, m_RecvQ := [] } := by
  have key : ∀ (l : PACKET_Q) (w : MainWindow F),
      l.foldl (fun (w : MainWindow F) (p : sPacket) =>
          { w with toys := w.toys ++ [ToyCall.Recv p.data p.size] }) w =
        { w with toys := w.toys ++ l.map packetCall } := by
    intro l
    induction l with
    | nil => intro w; cases w; simp
    | cons p l ih => intro w; simp [List.foldl_cons, ih, packetCall]
  simp [MainWindow.ProcessRecvQ, key, clear]

theorem ProcessNetEventQ_eq (w : MainWindow F) :
    w.ProcessNetEventQ =
      { w with toys := w.toys ++ w.m_NetEventQ.map eventCall, m_NetEventQ := [] } := by
  have key : ∀ (l : NETEVENT_Q) (w : MainWindow F),
      l.foldl (fun (w : MainWindow F) (e : NetEvent) =>
          match e with
          | .NET_EVENT_CONNECTED => { w with toys := w.toys ++ [ToyCall.Connected] }
          | .NET_EVENT_DISCONNECTED => { w with toys := w.toys ++ [ToyCall.Disconnected] }) w =
        { w with toys := w.toys ++ l.map eventCall } := by
    intro l
    induction l with
    | nil => intro w; cases w; simp
    | cons e l ih => intro w; cases e <;> simp [List.foldl_cons, ih, eventCall]
  simp [MainWindow.ProcessNetEventQ, key, clear]

/-- C7, as the code has it: in one `onTick` the owner first processes every net event
that the `Flush` of a transport drained (in queue order) and only then hands the drained
packets to the widgets (in queue order); for the TCP client the calls on the widgets are
all its queued events followed by all its queued packets. -/
theorem onTick_events_before_packets (w : MainWindow F) :
    w.onTick.toys = w.toys
      ++ (match w.m_UdpOutThread with
          | some u => u.m_NetEventQ.map eventCall
          | none => [])
      ++ (match w.m_UdpInThread with
          | some u => u.m_Q.map packetCall
          | none => [])
      ++ (match w.m_TcpClientThread with
          | some t => t.m_NetEventQ.map eventCall ++ t.m_RecvQ.map packetCall
          | none => []) := by
  obtain ⟨m_Log, m_TempLogQ, udpOut, udpIn, tcp, m_RecvQ, m_NetEventQ, toys, shown⟩ := w
  cases udpOut <;> cases udpIn <;> cases tcp <;>
    simp [MainWindow.onTick, ProcessRecvQ_eq, ProcessNetEventQ_eq, MainWindow.ClearRecvQ,
      MainWindow.ClearNetEventQ, MainWindow.FlushLogQ, EosUdpOutThread.Flush,
      EosUdpInThread.Flush, EosTcpClientThread.Flush, clear, EosLog.Flush, EosLog.AddLog] <;>
    split <;> simp

/-- C7 fails: after the run `tcpRunSession` the TCP client holds the packet of the
session and the events Connected, Disconnected; `onTick` drains both with one `Flush`
and calls `Connected`, `Disconnected` and then `Recv` with the packet, so the packet
reaches the widgets after the Disconnected of its session. -/
theorem onTick_packet_after_disconnected :
    (windowAfterSession.m_TcpClientThread.map (fun t => (t.m_NetEventQ, t.m_RecvQ))) =
      some ([.NET_EVENT_CONNECTED, .NET_EVENT_DISCONNECTED], [{ data := some [47], size := 1 }]) ∧
    windowAfterSession.onTick.toys =
      [.Connected, .Disconnected, .Recv (some [47]) 1] ∧
    noRecvAfterDisconnected false windowAfterSession.onTick.toys = false := by
  refine ⟨by rfl, by rfl, by rfl⟩

end Owner

section UdpOutWorker

theorem udpOut_foldl_log (l : List String) (s : EosUdpOutThread) :
    (l.foldl EosUdpOutThread.OSCParserClient_Log s).history = s.history ∧
    (l.foldl EosUdpOutThread.OSCParserClient_Log s).m_Run = s.m_Run ∧
    (l.foldl EosUdpOutThread.OSCParserClient_Log s).q = s.q ∧
    (l.foldl EosUdpOutThread.OSCParserClient_Log s).i = s.i ∧
    (l.foldl EosUdpOutThread.OSCParserClient_Log s).m_Q = s.m_Q := by
  induction l generalizing s with
  | nil => simp
  | cons m l ih => simp [List.foldl_cons, ih, EosUdpOutThread.OSCParserClient_Log]

/-- While the run flag is set, a step of the UDP output worker does not reach the push
of `NET_EVENT_DISCONNECTED` and pushes none. -/
theorem udpOut_runStep_running (inp : UdpOutInput) (s : EosUdpOutThread)
    (h : s.m_Run = true ∧ s.pc ≠ .pushDisconnected ∧
      NetEvent.NET_EVENT_DISCONNECTED ∉ netEventsOf s.history) :
    (EosUdpOutThread.runStep inp s).m_Run = true ∧
    (EosUdpOutThread.runStep inp s).pc ≠ .pushDisconnected ∧
    NetEvent.NET_EVENT_DISCONNECTED ∉ netEventsOf (EosUdpOutThread.runStep inp s).history := by
  obtain ⟨h₁, h₂, h₃⟩ := h
  unfold EosUdpOutThread.runStep
  split <;> rename_i hpc <;> (try split) <;>
    simp_all [netEventsOf_append, netEventsOf, EosUdpOutThread.UpdateLog, udpOut_foldl_log]

theorem udpOut_step_pushDisconnected (inp : UdpOutInput) (t : EosUdpOutThread)
    (h : t.pc = .pushDisconnected) :
    (EosUdpOutThread.runStep inp t).pc = .deleteUdp ∧
    (EosUdpOutThread.runStep inp t).history =
      t.history ++ [.netEvent .NET_EVENT_DISCONNECTED] := by
  unfold EosUdpOutThread.runStep; simp [h]

theorem udpOut_step_deleteUdp (inp : UdpOutInput) (t : EosUdpOutThread)
    (h : t.pc = .deleteUdp) :
    (EosUdpOutThread.runStep inp t).pc = .reconnectTest ∧
    (EosUdpOutThread.runStep inp t).history = t.history := by
  unfold EosUdpOutThread.runStep; simp [h]

theorem udpOut_step_reconnectTest (inp : UdpOutInput) (t : EosUdpOutThread)
    (h : t.pc = .reconnectTest) :
    (EosUdpOutThread.runStep inp t).pc = .timerStart ∧
    (EosUdpOutThread.runStep inp t).history = t.history := by
  unfold EosUdpOutThread.runStep
  simp only [h]
  split <;> simp [EosUdpOutThread.UpdateLog]

theorem udpOut_step_timerStart (inp : UdpOutInput) (t : EosUdpOutThread)
    (h : t.pc = .timerStart) :
    (EosUdpOutThread.runStep inp t).pc = .delayTest ∧
    (EosUdpOutThread.runStep inp t).history = t.history := by
  unfold EosUdpOutThread.runStep; simp [h]

theorem udpOut_exec_running (acts : List UdpOutAction) (s : EosUdpOutThread)
    (hacts : ∀ a ∈ acts, a ≠ UdpOutAction.owner .stopRequest)
    (h : s.m_Run = true ∧ s.pc ≠ .pushDisconnected ∧
      NetEvent.NET_EVENT_DISCONNECTED ∉ netEventsOf s.history) :
    (EosUdpOutThread.exec acts s).m_Run = true ∧
    (EosUdpOutThread.exec acts s).pc ≠ .pushDisconnected ∧
    NetEvent.NET_EVENT_DISCONNECTED ∉ netEventsOf (EosUdpOutThread.exec acts s).history := by
  induction acts generalizing s with
  | nil => exact h
  | cons a acts ih =>
    have hrest : ∀ b ∈ acts, b ≠ UdpOutAction.owner .stopRequest :=
      fun b hb => hacts b (List.mem_cons_of_mem _ hb)
    have ha : a ≠ UdpOutAction.owner .stopRequest := hacts a (List.mem_cons_self _ _)
    refine ih (EosUdpOutThread.act a s) hrest ?_
    cases a with
    | worker inp => exact udpOut_runStep_running inp s h
    | owner op =>
      cases op with
      | send p =>
        simp only [EosUdpOutThread.act, EosUdpOutThread.Send]
        split <;> exact h
      | flush logQ recvQ netEventQ => exact h
      | stopRequest => exact absurd rfl ha

end UdpOutWorker

section UdpOutClaims

/-- C10 fails: in the run `udpOutRunSendFails` the call of `SendPacket` for the first
queued packet fails; the worker releases the packet, writes the second packet to the
same socket, finishes the batch and is back in the connected loop with the run flag
set. Connected is the only net event it has pushed. -/
theorem udpOut_send_failure_keeps_loop :
    (EosUdpOutThread.exec udpOutRunSendFails udpOutStarted).history =
      [.netEvent .NET_EVENT_CONNECTED,
       .write (some [1]) 1 false, .free (some [1]),
       .write (some [2]) 1 true, .free (some [2]),
       .sleep 1] ∧
    (EosUdpOutThread.exec udpOutRunSendFails udpOutStarted).pc = .swap ∧
    (EosUdpOutThread.exec udpOutRunSendFails udpOutStarted).m_Run = true ∧
    (EosUdpOutThread.exec udpOutRunSendFails udpOutStarted).m_NetEventQ =
      [.NET_EVENT_CONNECTED] := by
  refine ⟨by rfl, by rfl, by rfl, by rfl⟩

end UdpOutClaims

section StopUdpOut

theorem udpOut_runStep_run (inp : UdpOutInput) (s : EosUdpOutThread) :
    (EosUdpOutThread.runStep inp s).m_Run = s.m_Run := by
  unfold EosUdpOutThread.runStep
  split <;> (try split) <;> simp [EosUdpOutThread.UpdateLog, udpOut_foldl_log]

theorem udpOut_runStep_steps (inp : UdpOutInput) (s : EosUdpOutThread)
    (hrun : s.m_Run = false) (hpc : s.pc ≠ .idle) :
    (EosUdpOutThread.runStep inp s).stepsToExit < s.stepsToExit := by
  unfold EosUdpOutThread.runStep
  split <;> rename_i h <;> (try split_ifs) <;>
    simp_all [EosUdpOutThread.stepsToExit, EosUdpOutThread.UpdateLog, udpOut_foldl_log]
  all_goals omega

theorem udpOut_wait_idle (inps : List UdpOutInput) (s s₁ : EosUdpOutThread)
    (h : EosUdpOutThread.wait inps s = some s₁) :
    s₁.pc = .idle ∧ s₁.m_Run = s.m_Run := by
  induction inps generalizing s with
  | nil =>
    simp only [EosUdpOutThread.wait] at h
    split at h
    · cases h; exact ⟨by assumption, rfl⟩
    · cases h
  | cons inp inps ih =>
    simp only [EosUdpOutThread.wait] at h
    split at h
    · cases h; exact ⟨by assumption, rfl⟩
    · obtain ⟨h₁, h₂⟩ := ih _ h
      exact ⟨h₁, by rw [h₂, udpOut_runStep_run]⟩

theorem udpOut_wait_of_idle (inps : List UdpOutInput) (s : EosUdpOutThread)
    (h : s.pc = .idle) : EosUdpOutThread.wait inps s = some s := by
  cases inps <;> simp [EosUdpOutThread.wait, h]

theorem udpOut_wait_returns (inps : List UdpOutInput) (s : EosUdpOutThread)
    (hrun : s.m_Run = false) (hlen : s.stepsToExit ≤ inps.length) :
    ∃ s₁, EosUdpOutThread.wait inps s = some s₁ := by
  induction inps generalizing s with
  | nil =>
    have hpc : s.pc = .idle := by
      by_contra hne
      have : 0 < s.stepsToExit := by
        unfold EosUdpOutThread.stepsToExit
        split <;> simp_all
      simp at hlen; omega
    exact ⟨s, udpOut_wait_of_idle _ s hpc⟩
  | cons inp inps ih =>
    by_cases hpc : s.pc = .idle
    · exact ⟨s, udpOut_wait_of_idle _ s hpc⟩
    · have hlt := udpOut_runStep_steps inp s hrun hpc
      have hr : (EosUdpOutThread.runStep inp s).m_Run = false := by
        rw [udpOut_runStep_run, hrun]
      obtain ⟨s₁, hs₁⟩ := ih (EosUdpOutThread.runStep inp s) hr
        (by simp at hlen; omega)
      exact ⟨s₁, by simp [EosUdpOutThread.wait, hpc, hs₁]⟩

end StopUdpOut

section StopUdpIn

theorem udpIn_foldl_log (l : List String) (s : EosUdpInThread) :
    (l.foldl EosUdpInThread.OSCParserClient_Log s).history = s.history ∧
    (l.foldl EosUdpInThread.OSCParserClient_Log s).m_Run = s.m_Run ∧
    (l.foldl EosUdpInThread.OSCParserClient_Log s).m_Q = s.m_Q ∧
    (l.foldl EosUdpInThread.OSCParserClient_Log s).scratch = s.scratch ∧
    (l.foldl EosUdpInThread.OSCParserClient_Log s).scratchSize = s.scratchSize := by
  induction l generalizing s with
  | nil => simp
  | cons m l ih => simp [List.foldl_cons, ih, EosUdpInThread.OSCParserClient_Log]

theorem udpIn_Recv_run (s : EosUdpInThread) (buf : Option Bytes) (size : Nat) :
    (s.OSCHandlerClient_Recv buf size).m_Run = s.m_Run ∧
    (s.OSCHandlerClient_Recv buf size).pc = s.pc := by
  unfold EosUdpInThread.OSCHandlerClient_Recv
  split <;> (try split) <;> simp

theorem udpIn_datagram_run (s : EosUdpInThread) (inp : UdpInInput) (bytes : Bytes)
    (len : Nat) : (s.datagram inp bytes len).m_Run = s.m_Run := by
  simp only [EosUdpInThread.datagram, EosUdpInThread.ProcessPacket, udpIn_Recv_run]
  split_ifs <;> simp [udpIn_foldl_log]

theorem udpIn_runStep_run (inp : UdpInInput) (s : EosUdpInThread) :
    (EosUdpInThread.runStep inp s).m_Run = s.m_Run := by
  unfold EosUdpInThread.runStep
  split <;> (try split) <;> (try split_ifs) <;>
    simp [EosUdpInThread.UpdateLog, udpIn_datagram_run]

theorem udpIn_runStep_steps (inp : UdpInInput) (s : EosUdpInThread)
    (hrun : s.m_Run = false) (hpc : s.pc ≠ .idle) :
    (EosUdpInThread.runStep inp s).stepsToExit < s.stepsToExit := by
  unfold EosUdpInThread.runStep
  split <;> rename_i h <;> (try split) <;> (try split_ifs) <;>
    simp_all [EosUdpInThread.stepsToExit, EosUdpInThread.UpdateLog]

theorem udpIn_wait_idle (inps : List UdpInInput) (s s₁ : EosUdpInThread)
    (h : EosUdpInThread.wait inps s = some s₁) :
    s₁.pc = .idle ∧ s₁.m_Run = s.m_Run := by
  induction inps generalizing s with
  | nil =>
    simp only [EosUdpInThread.wait] at h
    split at h
    · cases h; exact ⟨by assumption, rfl⟩
    · cases h
  | cons inp inps ih =>
    simp only [EosUdpInThread.wait] at h
    split at h
    · cases h; exact ⟨by assumption, rfl⟩
    · obtain ⟨h₁, h₂⟩ := ih _ h
      exact ⟨h₁, by rw [h₂, udpIn_runStep_run]⟩

theorem udpIn_wait_of_idle (inps : List UdpInInput) (s : EosUdpInThread)
    (h : s.pc = .idle) : EosUdpInThread.wait inps s = some s := by
  cases inps <;> simp [EosUdpInThread.wait, h]

theorem udpIn_wait_returns (inps : List UdpInInput) (s : EosUdpInThread)
    (hrun : s.m_Run = false) (hlen : s.stepsToExit ≤ inps.length) :
    ∃ s₁, EosUdpInThread.wait inps s = some s₁ := by
  induction inps generalizing s with
  | nil =>
    have hpc : s.pc = .idle := by
      by_contra hne
      have : 0 < s.stepsToExit := by
        unfold EosUdpInThread.stepsToExit
        split <;> simp_all
      simp at hlen; omega
    exact ⟨s, udpIn_wait_of_idle _ s hpc⟩
  | cons inp inps ih =>
    by_cases hpc : s.pc = .idle
    · exact ⟨s, udpIn_wait_of_idle _ s hpc⟩
    · have hlt := udpIn_runStep_steps inp s hrun hpc
      have hr : (EosUdpInThread.runStep inp s).m_Run = false := by
        rw [udpIn_runStep_run, hrun]
      obtain ⟨s₁, hs₁⟩ := ih (EosUdpInThread.runStep inp s) hr
        (by simp at hlen; omega)
      exact ⟨s₁, by simp [EosUdpInThread.wait, hpc, hs₁]⟩

end StopUdpIn

section StopTcp

variable {F : OSCStream}

theorem tcp_foldl_log (l : List String) (s : EosTcpClientThread F) :
    (l.foldl EosTcpClientThread.OSCParserClient_Log s).m_Run = s.m_Run ∧
    (l.foldl EosTcpClientThread.OSCParserClient_Log s).pc = s.pc := by
  induction l generalizing s with
  | nil => simp
  | cons m l ih => simp [List.foldl_cons, ih, EosTcpClientThread.OSCParserClient_Log]

theorem tcp_Recv_run (s : EosTcpClientThread F) (buf : Option Bytes) (size : Nat) :
    (s.OSCHandlerClient_Recv buf size).m_Run = s.m_Run ∧
    (s.OSCHandlerClient_Recv buf size).pc = s.pc := by
  unfold EosTcpClientThread.OSCHandlerClient_Recv
  split <;> (try split) <;> simp

theorem tcp_runStep_run (inp : TcpInput) (s : EosTcpClientThread F) :
    (EosTcpClientThread.runStep inp s).m_Run = s.m_Run := by
  unfold EosTcpClientThread.runStep
  split <;> (try split_ifs) <;>
    simp [EosTcpClientThread.UpdateLog, tcp_foldl_log, tcp_Recv_run,
      EosTcpClientThread.ProcessPacket]
  all_goals (split <;> simp [tcp_foldl_log, tcp_Recv_run])

theorem tcp_runStep_steps (inp : TcpInput) (s : EosTcpClientThread F)
    (hrun : s.m_Run = false) (hpc : s.pc ≠ .idle) :
    (EosTcpClientThread.runStep inp s).stepsToExit < s.stepsToExit := by
  unfold EosTcpClientThread.runStep
  split <;> rename_i h <;> (try dsimp only) <;> (try split_ifs) <;>
    simp_all [EosTcpClientThread.stepsToExit, EosTcpClientThread.UpdateLog]

theorem tcp_wait_idle (inps : List TcpInput) (s s₁ : EosTcpClientThread F)
    (h : EosTcpClientThread.wait inps s = some s₁) :
    s₁.pc = .idle ∧ s₁.m_Run = s.m_Run := by
  induction inps generalizing s with
  | nil =>
    simp only [EosTcpClientThread.wait] at h
    split at h
    · cases h; exact ⟨by assumption, rfl⟩
    · cases h
  | cons inp inps ih =>
    simp only [EosTcpClientThread.wait] at h
    split at h
    · cases h; exact ⟨by assumption, rfl⟩
    · obtain ⟨h₁, h₂⟩ := ih _ h
      exact ⟨h₁, by rw [h₂, tcp_runStep_run]⟩

theorem tcp_wait_of_idle (inps : List TcpInput) (s : EosTcpClientThread F)
    (h : s.pc = .idle) : EosTcpClientThread.wait inps s = some s := by
  cases inps <;> simp [EosTcpClientThread.wait, h]

theorem tcp_wait_returns (inps : List TcpInput) (s : EosTcpClientThread F)
    (hrun : s.m_Run = false) (hlen : s.stepsToExit ≤ inps.length) :
    ∃ s₁, EosTcpClientThread.wait inps s = some s₁ := by
  induction inps generalizing s with
  | nil =>
    have hpc : s.pc = .idle := by
      by_contra hne
      have : 0 < s.stepsToExit := by
        unfold EosTcpClientThread.stepsToExit
        split <;> simp_all
      simp at hlen; omega
    exact ⟨s, tcp_wait_of_idle _ s hpc⟩
  | cons inp inps ih =>
    by_cases hpc : s.pc = .idle
    · exact ⟨s, tcp_wait_of_idle _ s hpc⟩
    · have hlt := tcp_runStep_steps inp s hrun hpc
      have hr : (EosTcpClientThread.runStep inp s).m_Run = false := by
        rw [tcp_runStep_run, hrun]
      obtain ⟨s₁, hs₁⟩ := ih (EosTcpClientThread.runStep inp s) hr
        (by simp at hlen; omega)
      exact ⟨s₁, by simp [EosTcpClientThread.wait, hpc, hs₁]⟩

end StopTcp

section StopClaims

variable {F : OSCStream}

theorem udpOut_Stop_post (inps : List UdpOutInput) (s s₁ : EosUdpOutThread)
    (h : s.Stop inps = some s₁) : s₁.pc = .idle ∧ s₁.m_Run = false ∧ s₁.m_Q = [] := by
  simp only [EosUdpOutThread.Stop] at h
  split at h
  · cases h
  · rename_i w hw
    obtain ⟨h₁, h₂⟩ := udpOut_wait_idle _ _ _ hw
    cases h
    exact ⟨h₁, h₂, rfl⟩

theorem udpOut_Stop_of_stopped (inps : List UdpOutInput) (s : EosUdpOutThread)
    (hpc : s.pc = .idle) (hrun : s.m_Run = false) (hq : s.m_Q = []) :
    s.Stop inps = some s := by
  have hs : { s with m_Run := false } = s := by cases s; simp_all
  simp only [EosUdpOutThread.Stop, hs, udpOut_wait_of_idle inps s hpc]
  cases s; simp_all

theorem udpIn_Stop_post (inps : List UdpInInput) (s s₁ : EosUdpInThread)
    (h : s.Stop inps = some s₁) : s₁.pc = .idle ∧ s₁.m_Run = false ∧ s₁.m_Q = [] := by
  simp only [EosUdpInThread.Stop] at h
  split at h
  · cases h
  · rename_i w hw
    obtain ⟨h₁, h₂⟩ := udpIn_wait_idle _ _ _ hw
    cases h
    exact ⟨h₁, h₂, rfl⟩

theorem udpIn_Stop_of_stopped (inps : List UdpInInput) (s : EosUdpInThread)
    (hpc : s.pc = .idle) (hrun : s.m_Run = false) (hq : s.m_Q = []) :
    s.Stop inps = some s := by
  have hs : { s with m_Run := false } = s := by cases s; simp_all
  simp only [EosUdpInThread.Stop, hs, udpIn_wait_of_idle inps s hpc]
  cases s; simp_all

theorem tcp_Stop_post (inps : List TcpInput) (s s₁ : EosTcpClientThread F)
    (h : s.Stop inps = some s₁) :
    s₁.pc = .idle ∧ s₁.m_Run = false ∧ s₁.m_SendQ = [] ∧ s₁.m_RecvQ = [] := by
  simp only [EosTcpClientThread.Stop] at h
  split at h
  · cases h
  · rename_i w hw
    obtain ⟨h₁, h₂⟩ := tcp_wait_idle _ _ _ hw
    cases h
    exact ⟨h₁, h₂, rfl, rfl⟩

theorem tcp_Stop_of_stopped (inps : List TcpInput) (s : EosTcpClientThread F)
    (hpc : s.pc = .idle) (hrun : s.m_Run = false) (hsq : s.m_SendQ = [])
    (hrq : s.m_RecvQ = []) : s.Stop inps = some s := by
  have hs : { s with m_Run := false } = s := by cases s; simp_all
  simp only [EosTcpClientThread.Stop, hs, tcp_wait_of_idle inps s hpc]
  cases s; simp_all

theorem udpOut_Stop_returns (inps : List UdpOutInput) (s : EosUdpOutThread)
    (h : s.stepsToExit ≤ inps.length) : ∃ s₁, s.Stop inps = some s₁ := by
  obtain ⟨w, hw⟩ := udpOut_wait_returns inps { s with m_Run := false } rfl h
  exact ⟨_, by simp only [EosUdpOutThread.Stop, hw]; rfl⟩

theorem udpIn_Stop_returns (inps : List UdpInInput) (s : EosUdpInThread)
    (h : s.stepsToExit ≤ inps.length) : ∃ s₁, s.Stop inps = some s₁ := by
  obtain ⟨w, hw⟩ := udpIn_wait_returns inps { s with m_Run := false } rfl h
  exact ⟨_, by simp only [EosUdpInThread.Stop, hw]; rfl⟩

theorem tcp_Stop_returns (inps : List TcpInput) (s : EosTcpClientThread F)
    (h : s.stepsToExit ≤ inps.length) : ∃ s₁, s.Stop inps = some s₁ := by
  obtain ⟨w, hw⟩ := tcp_wait_returns inps { s with m_Run := false } rfl h
  exact ⟨_, by simp only [EosTcpClientThread.Stop, hw]; rfl⟩

/-- C8: `Stop` returns once the worker has left `run()`, which it does within
`stepsToExit` steps of the stop request, and after `Stop` has returned every packet
queue of the transport is empty: the send queue of the UDP output transport, the
receive queue of the UDP input transport, the send queue and the receive queue of the
TCP client. The same holds whenever `Stop` returns. A following `Start` therefore
launches the worker with an empty send queue and an empty batch: nothing queued before
the `Stop` is left to transmit. -/
theorem Stop_empties_queues (u : EosUdpOutThread) (v : EosUdpInThread)
    (t : EosTcpClientThread F) (iu : List UdpOutInput) (iv : List UdpInInput)
    (it : List TcpInput) (hu : u.stepsToExit ≤ iu.length) (hv : v.stepsToExit ≤ iv.length)
    (ht : t.stepsToExit ≤ it.length) :
    (∃ u₁, u.Stop iu = some u₁ ∧ u₁.m_Q = []) ∧
    (∃ v₁, v.Stop iv = some v₁ ∧ v₁.m_Q = []) ∧
    (∃ t₁, t.Stop it = some t₁ ∧ t₁.m_SendQ = [] ∧ t₁.m_RecvQ = []) ∧
    (∀ inps u₁, u.Stop inps = some u₁ → u₁.m_Q = []) ∧
    (∀ inps v₁, v.Stop inps = some v₁ → v₁.m_Q = []) ∧
    (∀ inps t₁, t.Stop inps = some t₁ → t₁.m_SendQ = [] ∧ t₁.m_RecvQ = []) ∧
    (∀ inps ip port u₂, u.Start inps ip port = some u₂ →
      u₂.m_Q = [] ∧ u₂.q = [] ∧ u₂.pc = .start) ∧
    (∀ inps ip port mode t₂, t.Start inps ip port mode = some t₂ →
      t₂.m_SendQ = [] ∧ t₂.sendQ = [] ∧ t₂.pc = .start) := by
  refine ⟨?_, ?_, ?_, ?_, ?_, ?_, ?_, ?_⟩
  · obtain ⟨u₁, hS⟩ := udpOut_Stop_returns iu u hu
    exact ⟨u₁, hS, (udpOut_Stop_post iu u u₁ hS).2.2⟩
  · obtain ⟨v₁, hS⟩ := udpIn_Stop_returns iv v hv
    exact ⟨v₁, hS, (udpIn_Stop_post iv v v₁ hS).2.2⟩
  · obtain ⟨t₁, hS⟩ := tcp_Stop_returns it t ht
    exact ⟨t₁, hS, (tcp_Stop_post it t t₁ hS).2.2⟩
  · exact fun inps u₁ h => (udpOut_Stop_post inps u u₁ h).2.2
  · exact fun inps v₁ h => (udpIn_Stop_post inps v v₁ h).2.2
  · exact fun inps t₁ h => (tcp_Stop_post inps t t₁ h).2.2
  · intro inps ip port u₂ h
    simp only [EosUdpOutThread.Start] at h
    split at h
    · cases h
    · rename_i w hw
      cases h
      exact ⟨(udpOut_Stop_post inps u w hw).2.2, rfl, rfl⟩
  · intro inps ip port mode t₂ h
    simp only [EosTcpClientThread.Start] at h
    split at h
    · cases h
    · rename_i w hw
      cases h
      exact ⟨(tcp_Stop_post inps t w hw).2.2.1, rfl, rfl⟩

/-- C9: `Stop` is idempotent on each transport: when `Stop` has returned with state
`s₁`, a second `Stop` returns at once, whatever the environment, and leaves `s₁` as it
is; and `Stop` on a transport that was never started leaves the freshly constructed
state (run flag false, all queues empty, no thread) unchanged. -/
theorem Stop_idempotent (u u₁ : EosUdpOutThread) (v v₁ : EosUdpInThread)
    (t t₁ : EosTcpClientThread F) (iu iu₂ : List UdpOutInput) (iv iv₂ : List UdpInInput)
    (it it₂ : List TcpInput) (mode : EnumFrameMode)
    (hu : u.Stop iu = some u₁) (hv : v.Stop iv = some v₁) (ht : t.Stop it = some t₁) :
    u₁.Stop iu₂ = some u₁ ∧ v₁.Stop iv₂ = some v₁ ∧ t₁.Stop it₂ = some t₁ ∧
    EosUdpOutThread.new.Stop iu₂ = some EosUdpOutThread.new ∧
    EosUdpInThread.new.Stop iv₂ = some EosUdpInThread.new ∧
    (EosTcpClientThread.new F mode).Stop it₂ = some (EosTcpClientThread.new F mode) := by
  obtain ⟨a₁, a₂, a₃⟩ := udpOut_Stop_post iu u u₁ hu
  obtain ⟨b₁, b₂, b₃⟩ := udpIn_Stop_post iv v v₁ hv
  obtain ⟨c₁, c₂, c₃, c₄⟩ := tcp_Stop_post it t t₁ ht
  exact ⟨udpOut_Stop_of_stopped iu₂ u₁ a₁ a₂ a₃, udpIn_Stop_of_stopped iv₂ v₁ b₁ b₂ b₃,
    tcp_Stop_of_stopped it₂ t₁ c₁ c₂ c₃ c₄,
    udpOut_Stop_of_stopped iu₂ _ rfl rfl rfl, udpIn_Stop_of_stopped iv₂ _ rfl rfl rfl,
    tcp_Stop_of_stopped it₂ _ rfl rfl rfl rfl⟩

end StopClaims

section StopWitnesses

/-- Three transports with packets still queued: `Stop` returns within 8, 9 and 12 steps
of their workers and leaves every packet queue empty. -/
theorem Stop_empties_queues_witness :
    (udpOutQueued.m_Q = [{ data := some [1], size := 1 }, { data := some [2], size := 1 }] ∧
      udpInQueued.m_Q = [{ data := some [47], size := 1 }] ∧
      tcpQueued.m_SendQ = [{ data := some [9], size := 1 }] ∧
      tcpQueued.m_RecvQ = [{ data := some [47], size := 1 }]) ∧
    (∃ u₁, udpOutQueued.Stop (List.replicate 8 .good) = some u₁ ∧ u₁.m_Q = []) ∧
    (∃ v₁, udpInQueued.Stop (List.replicate 9 .good) = some v₁ ∧ v₁.m_Q = []) ∧
    (∃ t₁, tcpQueued.Stop (List.replicate 12 .connected) = some t₁ ∧
      t₁.m_SendQ = [] ∧ t₁.m_RecvQ = []) :=
  have h := Stop_empties_queues udpOutQueued udpInQueued tcpQueued
    (List.replicate 8 .good) (List.replicate 9 .good) (List.replicate 12 .connected)
    (by decide) (by decide) (by decide)
  ⟨⟨by rfl, by rfl, by rfl, by rfl⟩, h.1, h.2.1, h.2.2.1⟩

/-- Three transports with packets still queued: a second `Stop` after the first
returns the same state, and `Stop` leaves freshly constructed transports as they are. -/
theorem Stop_idempotent_witness :
    ∃ u₁ v₁ t₁,
      (udpOutQueued.Stop (List.replicate 8 .good) = some u₁ ∧
        udpInQueued.Stop (List.replicate 9 .good) = some v₁ ∧
        tcpQueued.Stop (List.replicate 12 .connected) = some t₁) ∧
      u₁.Stop [] = some u₁ ∧ v₁.Stop [] = some v₁ ∧ t₁.Stop [] = some t₁ ∧
      EosUdpOutThread.new.Stop [] = some EosUdpOutThread.new ∧
      EosUdpInThread.new.Stop [] = some EosUdpInThread.new ∧
      (EosTcpClientThread.new specFramer .FRAME_MODE_1_0).Stop [] =
        some (EosTcpClientThread.new specFramer .FRAME_MODE_1_0) := by
  obtain ⟨u₁, hu⟩ := udpOut_Stop_returns (List.replicate 8 .good) udpOutQueued (by decide)
  obtain ⟨v₁, hv⟩ := udpIn_Stop_returns (List.replicate 9 .good) udpInQueued (by decide)
  obtain ⟨t₁, ht⟩ := tcp_Stop_returns (List.replicate 12 .connected) tcpQueued (by decide)
  exact ⟨u₁, v₁, t₁, ⟨hu, hv, ht⟩,
    Stop_idempotent udpOutQueued u₁ udpInQueued v₁ tcpQueued t₁ _ [] _ [] _ []
      .FRAME_MODE_1_0 hu hv ht⟩

end StopWitnesses

section QueueEffects

variable {F : OSCStream}

/-- C15: for every buffer and size, `OSCHandlerClient_Recv` of the UDP input transport
and of the TCP client appends exactly one packet to the end of the receive queue when
the buffer is not null and the size is not 0: a copy in a buffer of its own, with that
size and the bytes `buf[0..size)`. Otherwise the receive queue is unchanged. The handler
`OSCHandler::ProcessPacket` does just this call and returns true. -/
theorem OSCHandlerClient_Recv_queue (u : EosUdpInThread) (t : EosTcpClientThread F)
    (buf : Option Bytes) (size : Nat) :
    (u.OSCHandlerClient_Recv buf size).m_Q =
      (match buf with
       | some bytes =>
         if size = 0 then u.m_Q
         else u.m_Q ++ [{ data := some (bytes.take size), size := size }]
       | none => u.m_Q) ∧
    (t.OSCHandlerClient_Recv buf size).m_RecvQ =
      (match buf with
       | some bytes =>
         if size = 0 then t.m_RecvQ
         else t.m_RecvQ ++ [{ data := some (bytes.take size), size := size }]
       | none => t.m_RecvQ) ∧
    (∀ bytes : Bytes, size ≤ bytes.length → (bytes.take size).length = size) ∧
    u.ProcessPacket buf size = (u.OSCHandlerClient_Recv buf size, true) ∧
    t.ProcessPacket buf size = (t.OSCHandlerClient_Recv buf size, true) := by
  refine ⟨?_, ?_, ?_, rfl, rfl⟩
  · cases buf with
    | none => rfl
    | some bytes =>
      by_cases h : size = 0 <;>
        simp [EosUdpInThread.OSCHandlerClient_Recv, h, memcpy_newChar]
  · cases buf with
    | none => rfl
    | some bytes =>
      by_cases h : size = 0 <;>
        simp [EosTcpClientThread.OSCHandlerClient_Recv, h, memcpy_newChar]
  · intro bytes h
    rw [List.length_take]
    exact Nat.min_eq_left h

/-- C17: when `Send` returns true the transport afterwards is the transport before with
the packet appended at the end of the send queue, and nothing else changed; when `Send`
returns false the transport is unchanged. This holds for the UDP output transport and
for the TCP client, in every state. -/
theorem Send_frame (u : EosUdpOutThread) (t : EosTcpClientThread F) (packet : sPacket) :
    ((u.Send packet).2 = true → (u.Send packet).1 = { u with m_Q := u.m_Q ++ [packet] }) ∧
    ((u.Send packet).2 = false → (u.Send packet).1 = u) ∧
    ((t.Send packet).2 = true →
      (t.Send packet).1 = { t with m_SendQ := t.m_SendQ ++ [packet] }) ∧
    ((t.Send packet).2 = false → (t.Send packet).1 = t) := by
  simp only [EosUdpOutThread.Send, EosTcpClientThread.Send]
  split <;> simp

end QueueEffects

section ArgLemmas

open QString

theorem scan_text_append (xs ys : List Char) (h : ∀ c ∈ xs, c ≠ '%') :
    scan .text (xs ++ ys) = xs.map .text ++ scan .text ys := by
  induction xs with
  | nil => rfl
  | cons c xs ih =>
    have hc : c ≠ '%' := h c (List.mem_cons_self _ _)
    have ih₁ := ih (fun d hd => h d (List.mem_cons_of_mem _ hd))
    simp [scan, hc, ih₁]

theorem lowest_text_append (xs : List Char) (ps : List Piece) :
    lowest (xs.map .text ++ ps) = lowest ps := by
  induction xs with
  | nil => rfl
  | cons c xs ih => simpa [lowest] using ih

theorem render_text_append (n : Nat) (a aL xs : List Char) (ps : List Piece) :
    render n a aL (xs.map .text ++ ps) = xs ++ render n a aL ps := by
  induction xs with
  | nil => rfl
  | cons c xs ih => simp [render, ih]

/-- One `arg` on a string that begins with text free of `%`: the text stays, the rest
is worked on. -/
theorem replaced_text_append (T R : List Char) (a aL : String) (n : Nat)
    (hT : ∀ c ∈ T, c ≠ '%') (hn : lowest (scan .text R) = some n) :
    replaced (String.mk (T ++ R)) a aL =
      String.mk (T ++ render n a.toList aL.toList (scan .text R)) := by
  unfold replaced
  simp only [String.toList]
  rw [scan_text_append T R hT, lowest_text_append, hn]
  dsimp only
  rw [render_text_append]

theorem digitChar_plain (k : Nat) (h : k < 10) :
    Nat.digitChar k ≠ '%' ∧ Nat.digitChar k ≠ Char.ofNat 0 := by
  interval_cases k <;> decide

theorem toDigitsCore_plain (fuel n : Nat) (ds : List Char)
    (h : ∀ c ∈ ds, c ≠ '%' ∧ c ≠ Char.ofNat 0) :
    ∀ c ∈ Nat.toDigitsCore 10 fuel n ds, c ≠ '%' ∧ c ≠ Char.ofNat 0 := by
  induction fuel generalizing n ds with
  | zero => simpa [Nat.toDigitsCore] using h
  | succ fuel ih =>
    have hd := digitChar_plain (n % 10) (Nat.mod_lt _ (by decide))
    have hds : ∀ c ∈ Nat.digitChar (n % 10) :: ds, c ≠ '%' ∧ c ≠ Char.ofNat 0 := by
      intro c hc
      rcases List.mem_cons.mp hc with rfl | hc
      · exact hd
      · exact h c hc
    unfold Nat.toDigitsCore
    dsimp only
    split
    · exact hds
    · exact ih _ _ hds

/-- The decimal digits of a number hold neither `%` nor NUL. -/
theorem toString_plain (n : Nat) : plainText (toString n) := by
  intro c hc
  exact toDigitsCore_plain (n + 1) n [] (by simp) c hc

theorem constData_plain (l : List Char) (h : ∀ c ∈ l, c ≠ Char.ofNat 0) :
    constData (String.mk l) = String.mk l := by
  unfold constData
  congr 1
  show l.takeWhile _ = l
  rw [List.takeWhile_eq_self_iff]
  intro c hc
  simpa using h c hc

end ArgLemmas


section Reconnect

variable {F : OSCStream}

theorem reconnectLine_contains (transport ip : String) (port : Nat) :
    containsText (reconnectLine transport ip port).text "reconnecting in 5" :=
  ⟨transport ++ " " ++ ip ++ ":" ++ toString port ++ " ", "...", by
    simp only [reconnectLine, String.append_assoc]
    rfl⟩

/-- A text that contains a part holds the characters of the part in a row. -/
theorem containsText_infix (line part : String) (h : containsText line part) :
    part.toList <:+: line.toList := by
  obtain ⟨front, back, h⟩ := h
  exact ⟨front.toList, back.toList, by rw [h]; simp [String.data_append]⟩

/-- The three calls of `arg` on a reconnect text whose address is plain text: address,
port and seconds go to their place markers. -/
theorem reconnect_text_plain (pre ip : String) (port : Nat) (loc : Nat → String)
    (hpre : plainText pre) (hip : plainText ip) :
    QString.constData (QString.argN (QString.argN
      (QString.arg (pre ++ "%1:%2 reconnecting in %3...") ip) port loc) 5 loc) =
    pre ++ ip ++ ":" ++ toString port ++ " reconnecting in 5..." := by
  have hport := toString_plain port
  have h₁ : QString.arg (pre ++ "%1:%2 reconnecting in %3...") ip =
      String.mk ((pre.toList ++ ip.toList) ++ ":%2 reconnecting in %3...".toList) := by
    have h := replaced_text_append pre.toList "%1:%2 reconnecting in %3...".toList ip ip 1
      (fun c hc => (hpre c hc).1) (by decide)
    rw [List.append_assoc]
    exact h
  have h₂ : QString.argN (String.mk ((pre.toList ++ ip.toList) ++
        ":%2 reconnecting in %3...".toList)) port loc =
      String.mk ((pre.toList ++ ip.toList ++ ":".toList ++ (toString port).toList) ++
        " reconnecting in %3...".toList) := by
    have h := replaced_text_append (pre.toList ++ ip.toList)
      ":%2 reconnecting in %3...".toList (toString port) (loc port) 2
      (fun c hc => by
        rcases List.mem_append.mp hc with hc | hc
        · exact (hpre c hc).1
        · exact (hip c hc).1) (by decide)
    simp only [List.append_assoc]
    simp only [List.append_assoc] at h
    exact h
  have h₃ : QString.argN (String.mk ((pre.toList ++ ip.toList ++ ":".toList ++
        (toString port).toList) ++ " reconnecting in %3...".toList)) 5 loc =
      String.mk (pre.toList ++ ip.toList ++ ":".toList ++ (toString port).toList ++
        " reconnecting in 5...".toList) := by
    have h := replaced_text_append (pre.toList ++ ip.toList ++ ":".toList ++
      (toString port).toList) " reconnecting in %3...".toList (toString 5) (loc 5) 3
      (fun c hc => by
        simp only [List.mem_append] at hc
        rcases hc with ((hc | hc) | hc) | hc
        · exact (hpre c hc).1
        · exact (hip c hc).1
        · revert c; decide
        · exact (hport c hc).1) (by decide)
    exact h
  rw [h₁, h₂, h₃, constData_plain]
  · apply String.ext
    simp [String.data_append]
  · intro c hc
    simp only [List.mem_append] at hc
    rcases hc with (((hc | hc) | hc) | hc) | hc
    · exact (hpre c hc).2
    · exact (hip c hc).2
    · revert c; decide
    · exact (hport c hc).2
    · revert c; decide

theorem udpOut_reconnect_text (s : EosUdpOutThread) (h : plainText s.m_Ip) :
    (⟨.LOG_MSG_TYPE_INFO, s.reconnectText⟩ : sLogMsg) =
      reconnectLine "udp output" s.m_Ip s.m_Port := by
  have h₁ := reconnect_text_plain "udp output " s.m_Ip s.m_Port s.locale (by decide) h
  unfold reconnectLine
  congr 1

theorem udpIn_reconnect_text (s : EosUdpInThread) (h : plainText s.m_Ip) :
    (⟨.LOG_MSG_TYPE_INFO, s.reconnectText⟩ : sLogMsg) =
      reconnectLine "udp input" s.m_Ip s.m_Port := by
  have h₁ := reconnect_text_plain "udp input " s.m_Ip s.m_Port s.locale (by decide) h
  unfold reconnectLine
  congr 1

theorem tcp_reconnect_text (s : EosTcpClientThread F) (h : plainText s.m_Ip) :
    (⟨.LOG_MSG_TYPE_INFO, s.reconnectText⟩ : sLogMsg) =
      reconnectLine "tcp client" s.m_Ip s.m_Port := by
  have h₁ := reconnect_text_plain "tcp client " s.m_Ip s.m_Port s.locale (by decide) h
  unfold reconnectLine
  congr 1

end Reconnect

section ReconnectSteps

variable {F : OSCStream}

/-- The four steps of the UDP output worker after a failed `Initialize`. -/
theorem udpOut_init_failure (s : EosUdpOutThread) (i₀ i₁ i₂ i₃ : UdpOutInput)
    (hpc : s.pc = .init) (hfail : i₀.ok = false) :
    let s₄ := EosUdpOutThread.runStep i₃ (EosUdpOutThread.runStep i₂
      (EosUdpOutThread.runStep i₁ (EosUdpOutThread.runStep i₀ s)))
    s₄.pc = .delayTest ∧ s₄.history = s.history ∧ s₄.m_NetEventQ = s.m_NetEventQ ∧
    s₄.logged = s.logged ++ i₀.log ++
      (if s.m_Run then [⟨.LOG_MSG_TYPE_INFO, s.reconnectText⟩] else []) := by
  have h₁ : EosUdpOutThread.runStep i₀ s =
      { s with m_PrivateLog := EosLog.AddLog s.m_PrivateLog i₀.log, pc := .deleteUdp } := by
    unfold EosUdpOutThread.runStep; simp [hpc, hfail]
  have h₂ : ∀ (x : EosUdpOutThread), x.pc = .deleteUdp →
      EosUdpOutThread.runStep i₁ x = { x with pc := .reconnectTest } := by
    intro x hx; unfold EosUdpOutThread.runStep; simp [hx]
  have h₃ : ∀ (x : EosUdpOutThread), x.pc = .reconnectTest →
      (EosUdpOutThread.runStep i₂ x).pc = .timerStart ∧
      (EosUdpOutThread.runStep i₂ x).history = x.history ∧
      (EosUdpOutThread.runStep i₂ x).m_NetEventQ = x.m_NetEventQ ∧
      (EosUdpOutThread.runStep i₂ x).logged = x.logged ++
        (if x.m_Run then [⟨.LOG_MSG_TYPE_INFO, x.reconnectText⟩] else []) := by
    intro x hx
    unfold EosUdpOutThread.runStep
    simp only [hx]
    split
    · rename_i hr
      simp [EosUdpOutThread.UpdateLog, EosUdpOutThread.logged, EosLog.AddLog, EosLog.AddInfo,
        hr]
    · rename_i hr
      simp [EosUdpOutThread.logged, hr]
  have h₄ : ∀ (x : EosUdpOutThread), x.pc = .timerStart →
      EosUdpOutThread.runStep i₃ x = { x with pc := .delayTest } := by
    intro x hx; unfold EosUdpOutThread.runStep; simp [hx]
  intro s₄
  obtain ⟨a, b, c, d⟩ := h₃ (EosUdpOutThread.runStep i₁ (EosUdpOutThread.runStep i₀ s))
    (by rw [h₁, h₂ _ rfl])
  have e : s₄ = { EosUdpOutThread.runStep i₂ (EosUdpOutThread.runStep i₁
      (EosUdpOutThread.runStep i₀ s)) with pc := .delayTest } := h₄ _ a
  rw [e]
  refine ⟨rfl, ?_, ?_, ?_⟩
  · show (EosUdpOutThread.runStep i₂ _).history = _
    rw [b, h₁, h₂ _ rfl]
  · show (EosUdpOutThread.runStep i₂ _).m_NetEventQ = _
    rw [c, h₁, h₂ _ rfl]
  · show (EosUdpOutThread.runStep i₂ _).logged = _
    rw [d, h₁, h₂ _ rfl]
    simp [EosUdpOutThread.logged, EosLog.AddLog, EosUdpOutThread.reconnectText, EosUdpOutThread.msg]

end ReconnectSteps

section ReconnectClaims

variable {F : OSCStream}

/-- The four steps of the UDP input worker after a failed `Initialize`. -/
theorem udpIn_init_failure (s : EosUdpInThread) (i₀ i₁ i₂ i₃ : UdpInInput)
    (hpc : s.pc = .init) (hfail : i₀.ok = false) :
    let s₄ := EosUdpInThread.runStep i₃ (EosUdpInThread.runStep i₂
      (EosUdpInThread.runStep i₁ (EosUdpInThread.runStep i₀ s)))
    s₄.pc = .delayTest ∧ s₄.history = s.history ∧ s₄.m_Q = s.m_Q ∧
    s₄.logged = s.logged ++ i₀.log ++
      (if s.m_Run then [⟨.LOG_MSG_TYPE_INFO, s.reconnectText⟩] else []) := by
  have h₁ : EosUdpInThread.runStep i₀ s =
      { s with m_PrivateLog := EosLog.AddLog s.m_PrivateLog i₀.log, pc := .deleteUdp } := by
    unfold EosUdpInThread.runStep; simp [hpc, hfail]
  have h₂ : ∀ (x : EosUdpInThread), x.pc = .deleteUdp →
      EosUdpInThread.runStep i₁ x = { x with pc := .reconnectTest } := by
    intro x hx; unfold EosUdpInThread.runStep; simp [hx]
  have h₃ : ∀ (x : EosUdpInThread), x.pc = .reconnectTest →
      (EosUdpInThread.runStep i₂ x).pc = .timerStart ∧
      (EosUdpInThread.runStep i₂ x).history = x.history ∧
      (EosUdpInThread.runStep i₂ x).m_Q = x.m_Q ∧
      (EosUdpInThread.runStep i₂ x).logged = x.logged ++
        (if x.m_Run then [⟨.LOG_MSG_TYPE_INFO, x.reconnectText⟩] else []) := by
    intro x hx
    unfold EosUdpInThread.runStep
    simp only [hx]
    split
    · rename_i hr
      simp [EosUdpInThread.UpdateLog, EosUdpInThread.logged, EosLog.AddLog, EosLog.AddInfo,
        hr]
    · rename_i hr
      simp [EosUdpInThread.logged, hr]
  have h₄ : ∀ (x : EosUdpInThread), x.pc = .timerStart →
      EosUdpInThread.runStep i₃ x = { x with pc := .delayTest } := by
    intro x hx; unfold EosUdpInThread.runStep; simp [hx]
  intro s₄
  obtain ⟨a, b, c, d⟩ := h₃ (EosUdpInThread.runStep i₁ (EosUdpInThread.runStep i₀ s))
    (by rw [h₁, h₂ _ rfl])
  have e : s₄ = { EosUdpInThread.runStep i₂ (EosUdpInThread.runStep i₁
      (EosUdpInThread.runStep i₀ s)) with pc := .delayTest } := h₄ _ a
  rw [e]
  refine ⟨rfl, ?_, ?_, ?_⟩
  · show (EosUdpInThread.runStep i₂ _).history = _
    rw [b, h₁, h₂ _ rfl]
  · show (EosUdpInThread.runStep i₂ _).m_Q = _
    rw [c, h₁, h₂ _ rfl]
  · show (EosUdpInThread.runStep i₂ _).logged = _
    rw [d, h₁, h₂ _ rfl]
    simp [EosUdpInThread.logged, EosLog.AddLog, EosUdpInThread.reconnectText, EosUdpInThread.msg]

/-- The four steps of the TCP worker after a failed `Initialize`. -/
theorem tcp_init_failure (s : EosTcpClientThread F) (i₀ i₁ i₂ i₃ : TcpInput)
    (hpc : s.pc = .init) (hfail : i₀.ok = false) :
    let s₄ := EosTcpClientThread.runStep i₃ (EosTcpClientThread.runStep i₂
      (EosTcpClientThread.runStep i₁ (EosTcpClientThread.runStep i₀ s)))
    s₄.pc = .delayTest ∧ s₄.history = s.history ∧ s₄.m_NetEventQ = s.m_NetEventQ ∧
    s₄.logged = s.logged ++ i₀.log ++
      (if s.m_Run then [⟨.LOG_MSG_TYPE_INFO, s.reconnectText⟩] else []) := by
  have h₁ : EosTcpClientThread.runStep i₀ s =
      { s with m_PrivateLog := EosLog.AddLog s.m_PrivateLog i₀.log,
               connectState := i₀.connectState, pc := .deleteTcp } := by
    unfold EosTcpClientThread.runStep; simp [hpc, hfail]
  have h₂ : ∀ (x : EosTcpClientThread F), x.pc = .deleteTcp →
      EosTcpClientThread.runStep i₁ x = { x with pc := .reconnectTest } := by
    intro x hx; unfold EosTcpClientThread.runStep; simp [hx]
  have h₃ : ∀ (x : EosTcpClientThread F), x.pc = .reconnectTest →
      (EosTcpClientThread.runStep i₂ x).pc = .timerStart ∧
      (EosTcpClientThread.runStep i₂ x).history = x.history ∧
      (EosTcpClientThread.runStep i₂ x).m_NetEventQ = x.m_NetEventQ ∧
      (EosTcpClientThread.runStep i₂ x).logged = x.logged ++
        (if x.m_Run then [⟨.LOG_MSG_TYPE_INFO, x.reconnectText⟩] else []) := by
    intro x hx
    unfold EosTcpClientThread.runStep
    simp only [hx]
    split
    · rename_i hr
      simp [EosTcpClientThread.UpdateLog, EosTcpClientThread.logged, EosLog.AddLog,
        EosLog.AddInfo, hr]
    · rename_i hr
      simp [EosTcpClientThread.logged, hr]
  have h₄ : ∀ (x : EosTcpClientThread F), x.pc = .timerStart →
      EosTcpClientThread.runStep i₃ x = { x with pc := .delayTest } := by
    intro x hx; unfold EosTcpClientThread.runStep; simp [hx]
  intro s₄
  obtain ⟨a, b, c, d⟩ := h₃ (EosTcpClientThread.runStep i₁ (EosTcpClientThread.runStep i₀ s))
    (by rw [h₁, h₂ _ rfl])
  have e : s₄ = { EosTcpClientThread.runStep i₂ (EosTcpClientThread.runStep i₁
      (EosTcpClientThread.runStep i₀ s)) with pc := .delayTest } := h₄ _ a
  rw [e]
  refine ⟨rfl, ?_, ?_, ?_⟩
  · show (EosTcpClientThread.runStep i₂ _).history = _
    rw [b, h₁, h₂ _ rfl]
  · show (EosTcpClientThread.runStep i₂ _).m_NetEventQ = _
    rw [c, h₁, h₂ _ rfl]
  · show (EosTcpClientThread.runStep i₂ _).logged = _
    rw [d, h₁, h₂ _ rfl]
    simp [EosTcpClientThread.logged, EosLog.AddLog, EosTcpClientThread.reconnectText, EosTcpClientThread.msg]

theorem udpOut_delay_step (inp : UdpOutInput) (x : EosUdpOutThread) (h : x.pc = .delayTest) :
    (EosUdpOutThread.runStep inp x).pc =
      (if x.m_Run = true ∧ inp.expired = false then .delayTest else .outerTest) := by
  unfold EosUdpOutThread.runStep
  simp only [h]
  cases x.m_Run <;> cases inp.expired <;> simp

theorem udpIn_delay_step (inp : UdpInInput) (x : EosUdpInThread) (h : x.pc = .delayTest) :
    (EosUdpInThread.runStep inp x).pc =
      (if x.m_Run = true ∧ inp.expired = false then .delayTest else .outerTest) := by
  unfold EosUdpInThread.runStep
  simp only [h]
  cases x.m_Run <;> cases inp.expired <;> simp

theorem tcp_delay_step (inp : TcpInput) (x : EosTcpClientThread F) (h : x.pc = .delayTest) :
    (EosTcpClientThread.runStep inp x).pc =
      (if x.m_Run = true ∧ inp.expired = false then .delayTest else .outerTest) := by
  unfold EosTcpClientThread.runStep
  simp only [h]
  cases x.m_Run <;> cases inp.expired <;> simp

end ReconnectClaims

section ConnectWindow

variable {F : OSCStream}

/-- The net events one step of the TCP worker pushes: Connected at the push of line
487, Disconnected at the push of line 545, none anywhere else. -/
theorem tcp_runStep_events (inp : TcpInput) (s : EosTcpClientThread F) :
    netEventsOf (EosTcpClientThread.runStep inp s).history =
      netEventsOf s.history ++
        (match s.pc with
         | .pushConnected => [NetEvent.NET_EVENT_CONNECTED]
         | .pushDisconnected => [NetEvent.NET_EVENT_DISCONNECTED]
         | _ => []) := by
  unfold EosTcpClientThread.runStep
  split <;> rename_i hpc <;> simp only [hpc]
  all_goals (try split) <;>
    (try simp_all [netEventsOf_append, netEventsOf, EosTcpClientThread.UpdateLog,
      tcp_foldl_log_history])
  · simp only [EosTcpClientThread.ProcessPacket]
    rcases tcp_Recv_history (List.foldl EosTcpClientThread.OSCParserClient_Log
        { s with oscStream := (F.GetNextFrame s.oscStream).1,
                 m_Prefix := EosTcpClientThread.inPrefix
                   { s with oscStream := (F.GetNextFrame s.oscStream).1 },
                 m_LogMsgType := LogMsgType.LOG_MSG_TYPE_RECV } inp.printed)
        (F.GetNextFrame s.oscStream).2.1 (F.GetNextFrame s.oscStream).2.2 with hr | ⟨p, hr⟩
    · simp_all [tcp_foldl_log_history]
    · simp_all [tcp_foldl_log_history, netEventsOf_append, netEventsOf]
  · split <;> simp_all [tcp_foldl_log_history]

/-- The push of Connected is reached from the test of line 484 only, and only with the
run flag set and the socket connected. -/
theorem tcp_runStep_pushConnected (inp : TcpInput) (s : EosTcpClientThread F) :
    (EosTcpClientThread.runStep inp s).pc = .pushConnected ↔
      (s.pc = .connectedTest ∧ s.m_Run = true ∧ s.connectState = .CONNECT_CONNECTED) := by
  unfold EosTcpClientThread.runStep
  split <;> rename_i hpc <;> (try dsimp only) <;> (try split_ifs) <;> simp_all

/-- The five steps of the TCP worker after the connect window has expired with the
connect still in progress. -/
theorem tcp_connect_timeout (s : EosTcpClientThread F) (i₁ i₂ i₃ i₄ i₅ : TcpInput)
    (hpc : s.pc = .connectBreakTest) (hst : s.connectState = .CONNECT_IN_PROGRESS)
    (hexp : i₁.expired = true) :
    (EosTcpClientThread.runStep i₁ s).pc = .connectedTest ∧
    (EosTcpClientThread.runStep i₂ (EosTcpClientThread.runStep i₁ s)).pc = .deleteTcp ∧
    (EosTcpClientThread.runStep i₅ (EosTcpClientThread.runStep i₄ (EosTcpClientThread.runStep i₃
      (EosTcpClientThread.runStep i₂ (EosTcpClientThread.runStep i₁ s))))).pc = .delayTest ∧
    (EosTcpClientThread.runStep i₅ (EosTcpClientThread.runStep i₄ (EosTcpClientThread.runStep i₃
      (EosTcpClientThread.runStep i₂ (EosTcpClientThread.runStep i₁ s))))).history =
        s.history ∧
    (EosTcpClientThread.runStep i₅ (EosTcpClientThread.runStep i₄ (EosTcpClientThread.runStep i₃
      (EosTcpClientThread.runStep i₂ (EosTcpClientThread.runStep i₁ s))))).m_NetEventQ =
        s.m_NetEventQ := by
  have h₁ : EosTcpClientThread.runStep i₁ s = { s with pc := .connectedTest } := by
    unfold EosTcpClientThread.runStep; simp [hpc, hexp]
  have h₂ : EosTcpClientThread.runStep i₂ { s with pc := .connectedTest } =
      { s with pc := .deleteTcp } := by
    unfold EosTcpClientThread.runStep; simp [hst]
  have h₃ : EosTcpClientThread.runStep i₃ { s with pc := .deleteTcp } =
      { s with pc := .reconnectTest } := by
    unfold EosTcpClientThread.runStep; simp
  have h₄ : (EosTcpClientThread.runStep i₄ { s with pc := .reconnectTest }).pc = .timerStart ∧
      (EosTcpClientThread.runStep i₄ { s with pc := .reconnectTest }).history = s.history ∧
      (EosTcpClientThread.runStep i₄ { s with pc := .reconnectTest }).m_NetEventQ =
        s.m_NetEventQ := by
    unfold EosTcpClientThread.runStep
    simp only []
    split <;> simp [EosTcpClientThread.UpdateLog]
  have h₅ : ∀ x : EosTcpClientThread F, x.pc = .timerStart →
      EosTcpClientThread.runStep i₅ x = { x with pc := .delayTest } := by
    intro x hx; unfold EosTcpClientThread.runStep; simp [hx]
  rw [h₁, h₂, h₃, h₅ _ h₄.1]
  exact ⟨rfl, rfl, rfl, h₄.2.1, h₄.2.2⟩

/-- C12: when the connect window of the TCP worker expires with the connection still in
state `CONNECT_IN_PROGRESS`, the attempt is abandoned: the worker leaves the connect
loop, fails the test of line 484, deletes the socket and reaches the reconnect delay,
with no effect at all on the way: no `NET_EVENT_CONNECTED`, no step of the send/recv
loop; after the delay the outer loop makes a fresh attempt while the run flag is set.
Conversely a step pushes `NET_EVENT_CONNECTED` only at the push of line 487, and that
push is reached only from the test of line 484 with the run flag set and the socket in
state `CONNECT_CONNECTED`. -/
theorem tcp_connect_window (s : EosTcpClientThread F) (i₁ i₂ i₃ i₄ i₅ : TcpInput)
    (hpc : s.pc = .connectBreakTest) (hst : s.connectState = .CONNECT_IN_PROGRESS)
    (hexp : i₁.expired = true) :
    ((EosTcpClientThread.runStep i₁ s).pc = .connectedTest ∧
      (EosTcpClientThread.runStep i₂ (EosTcpClientThread.runStep i₁ s)).pc = .deleteTcp ∧
      (EosTcpClientThread.runStep i₅ (EosTcpClientThread.runStep i₄
        (EosTcpClientThread.runStep i₃ (EosTcpClientThread.runStep i₂
          (EosTcpClientThread.runStep i₁ s))))).pc = .delayTest ∧
      (EosTcpClientThread.runStep i₅ (EosTcpClientThread.runStep i₄
        (EosTcpClientThread.runStep i₃ (EosTcpClientThread.runStep i₂
          (EosTcpClientThread.runStep i₁ s))))).history = s.history ∧
      (EosTcpClientThread.runStep i₅ (EosTcpClientThread.runStep i₄
        (EosTcpClientThread.runStep i₃ (EosTcpClientThread.runStep i₂
          (EosTcpClientThread.runStep i₁ s))))).m_NetEventQ = s.m_NetEventQ) ∧
    (∀ (x : EosTcpClientThread F) (inp : TcpInput), x.pc = .delayTest →
      (EosTcpClientThread.runStep inp x).pc =
        (if x.m_Run = true ∧ inp.expired = false then .delayTest else .outerTest)) ∧
    (∀ (x : EosTcpClientThread F) (inp : TcpInput), x.pc = .outerTest → x.m_Run = true →
      (EosTcpClientThread.runStep inp x).pc = .init) ∧
    (∀ (x : EosTcpClientThread F) (inp : TcpInput),
      netEventsOf (EosTcpClientThread.runStep inp x).history =
        netEventsOf x.history ++
          (match x.pc with
           | .pushConnected => [NetEvent.NET_EVENT_CONNECTED]
           | .pushDisconnected => [NetEvent.NET_EVENT_DISCONNECTED]
           | _ => [])) ∧
    (∀ (x : EosTcpClientThread F) (inp : TcpInput),
      (EosTcpClientThread.runStep inp x).pc = .pushConnected ↔
        (x.pc = .connectedTest ∧ x.m_Run = true ∧
          x.connectState = .CONNECT_CONNECTED)) := by
  refine ⟨tcp_connect_timeout s i₁ i₂ i₃ i₄ i₅ hpc hst hexp,
    fun x inp h => tcp_delay_step inp x h, ?_,
    fun x inp => tcp_runStep_events inp x, fun x inp => tcp_runStep_pushConnected inp x⟩
  intro x inp hx hr
  unfold EosTcpClientThread.runStep
  simp [hx, hr]

/-- The TCP worker `tcpConnecting`: the connect is in progress and the window expires;
five steps later the worker is in the reconnect delay and has had no effect. -/
theorem tcp_connect_window_witness :
    (tcpConnecting.pc = .connectBreakTest ∧
      tcpConnecting.connectState = .CONNECT_IN_PROGRESS ∧
      TcpInput.timedOut.expired = true) ∧
    (EosTcpClientThread.runStep .inProgress (EosTcpClientThread.runStep .inProgress
      (EosTcpClientThread.runStep .inProgress (EosTcpClientThread.runStep .inProgress
        (EosTcpClientThread.runStep .timedOut tcpConnecting))))).pc = .delayTest ∧
    (EosTcpClientThread.runStep .inProgress (EosTcpClientThread.runStep .inProgress
      (EosTcpClientThread.runStep .inProgress (EosTcpClientThread.runStep .inProgress
        (EosTcpClientThread.runStep .timedOut tcpConnecting))))).history = [] :=
  have h := (tcp_connect_window tcpConnecting .timedOut .inProgress .inProgress .inProgress
    .inProgress rfl rfl rfl).1
  ⟨⟨rfl, rfl, rfl⟩, h.2.2.1, h.2.2.2.1⟩

end ConnectWindow

section BatchRelease

/-- C14, the run `tcpRunStopMidBatch`: the worker takes the packets `[1]` and `[2]` from
the send queue in one batch; the stop request arrives after the first has been written.
The batch loop ends at its next test, `sendQ.clear()` empties the batch, and when the
worker has left `run()` the only buffers released are the frame of the first packet and
the first packet. The buffer `[2]` is in no queue any more and has not been released,
and the `Stop` that follows releases nothing either. -/
theorem tcp_unsent_packet_not_released :
    (EosTcpClientThread.exec (tcpRunStopMidBatch.take 12) tcpStarted).sendQ =
      [{ data := some [1], size := 1 }, { data := some [2], size := 1 }] ∧
    (EosTcpClientThread.exec tcpRunStopMidBatch tcpStarted).pc = .idle ∧
    (EosTcpClientThread.exec tcpRunStopMidBatch tcpStarted).sendQ = [] ∧
    (EosTcpClientThread.exec tcpRunStopMidBatch tcpStarted).m_SendQ = [] ∧
    freedBy (EosTcpClientThread.exec tcpRunStopMidBatch tcpStarted).history =
      [some [0, 0, 0, 1, 1], some [1]] ∧
    ((EosTcpClientThread.exec tcpRunStopMidBatch tcpStarted).Stop []).map
      (fun s => freedBy s.history) = some [some [0, 0, 0, 1, 1], some [1]] := by
  refine ⟨by rfl, by rfl, by rfl, by rfl, by rfl, by rfl⟩

end BatchRelease

section Drain

variable {F : OSCStream}

/-- C13 fails: in the run `tcpRunEmptyFrame` the first call of `GetNextFrame` returns
the frame of the empty payload, a buffer with size 0. The worker takes it for "no
frame": it delivers nothing and leaves the drain loop with the run flag set, although
the complete frame of the payload `[47]` is still buffered and the next call would
return it. -/
theorem tcp_drain_stops_at_empty_frame :
    (EosTcpClientThread.exec (tcpRunEmptyFrame.take 8) tcpStarted).pc = .getFrame ∧
    specFramer.GetNextFrame
      (EosTcpClientThread.exec (tcpRunEmptyFrame.take 8) tcpStarted).oscStream =
      (({ mode := .FRAME_MODE_1_0, buf := [0, 0, 0, 1, 47] } : FramerState), some [], 0) ∧
    (EosTcpClientThread.exec tcpRunEmptyFrame tcpStarted).pc = .swapSend ∧
    (EosTcpClientThread.exec tcpRunEmptyFrame tcpStarted).m_Run = true ∧
    (EosTcpClientThread.exec tcpRunEmptyFrame tcpStarted).m_RecvQ = [] ∧
    specFramer.GetNextFrame (EosTcpClientThread.exec tcpRunEmptyFrame tcpStarted).oscStream =
      (({ mode := .FRAME_MODE_1_0, buf := [] } : FramerState), some [47], 1) := by
  refine ⟨by rfl, by rfl, by rfl, by rfl, by rfl, by rfl⟩

end Drain

section DrainSteps

variable {F : OSCStream}

theorem tcp_foldl_log_locals (l : List String) (s : EosTcpClientThread F) :
    (l.foldl EosTcpClientThread.OSCParserClient_Log s).m_RecvQ = s.m_RecvQ ∧
    (l.foldl EosTcpClientThread.OSCParserClient_Log s).m_SendQ = s.m_SendQ ∧
    (l.foldl EosTcpClientThread.OSCParserClient_Log s).sendQ = s.sendQ ∧
    (l.foldl EosTcpClientThread.OSCParserClient_Log s).i = s.i ∧
    (l.foldl EosTcpClientThread.OSCParserClient_Log s).oscStream = s.oscStream ∧
    (l.foldl EosTcpClientThread.OSCParserClient_Log s).m_FrameMode = s.m_FrameMode := by
  induction l generalizing s with
  | nil => simp
  | cons m l ih => simp [List.foldl_cons, ih, EosTcpClientThread.OSCParserClient_Log]

/-- The step of the drain loop that finds a frame: the frame is copied to the end of the
receive queue and the loop goes on. -/
theorem tcp_getFrame_valid (inp : TcpInput) (s : EosTcpClientThread F) (p : sPacket)
    (hpc : s.pc = .getFrame) (hd : (F.GetNextFrame s.oscStream).2.1 = p.data)
    (hs : (F.GetNextFrame s.oscStream).2.2 = p.size)
    (hv : (p.data.isSome && p.size != 0) = true) :
    (EosTcpClientThread.runStep inp s).pc = .drainTest ∧
    (EosTcpClientThread.runStep inp s).m_Run = s.m_Run ∧
    (EosTcpClientThread.runStep inp s).oscStream = (F.GetNextFrame s.oscStream).1 ∧
    (EosTcpClientThread.runStep inp s).m_RecvQ = s.m_RecvQ ++ [copyOf p] := by
  obtain ⟨data, size⟩ := p
  cases data with
  | none => simp at hv
  | some bytes =>
    simp at hv hd hs
    unfold EosTcpClientThread.runStep
    simp [hpc, hd, hs, hv, EosTcpClientThread.ProcessPacket,
      EosTcpClientThread.OSCHandlerClient_Recv, tcp_foldl_log, tcp_foldl_log_locals,
      copyOf, memcpy_newChar]

/-- The step of the drain loop that finds no frame (a null pointer or a size 0): the
loop is left, nothing is delivered. -/
theorem tcp_getFrame_none (inp : TcpInput) (s : EosTcpClientThread F)
    (hpc : s.pc = .getFrame)
    (hv : ((F.GetNextFrame s.oscStream).2.1.isSome &&
      (F.GetNextFrame s.oscStream).2.2 != 0) = false) :
    EosTcpClientThread.runStep inp s =
      { s with oscStream := (F.GetNextFrame s.oscStream).1, pc := .swapSend } := by
  unfold EosTcpClientThread.runStep
  simp only [hpc]
  rw [if_neg (by simpa using hv)]

theorem tcp_drainTest_running (inp : TcpInput) (s : EosTcpClientThread F)
    (hpc : s.pc = .drainTest) (hrun : s.m_Run = true) :
    EosTcpClientThread.runStep inp s = { s with pc := .getFrame } := by
  unfold EosTcpClientThread.runStep
  simp [hpc, hrun]

theorem tcp_drain (ps : List sPacket) (s : EosTcpClientThread F) (st' : F.σ)
    (inps : List TcpInput) (hpc : s.pc = .drainTest) (hrun : s.m_Run = true)
    (hy : F.yields s.oscStream ps st') (hlen : inps.length = 2 * ps.length + 2) :
    (EosTcpClientThread.exec (inps.map TcpAction.worker) s).pc = .swapSend ∧
    (EosTcpClientThread.exec (inps.map TcpAction.worker) s).oscStream = st' ∧
    (EosTcpClientThread.exec (inps.map TcpAction.worker) s).m_RecvQ =
      s.m_RecvQ ++ ps.map copyOf ∧
    (EosTcpClientThread.exec (inps.map TcpAction.worker) s).m_Run = true := by
  induction ps generalizing s inps with
  | nil =>
    obtain ⟨hv, hst⟩ := hy
    match inps, hlen with
    | [a, b], _ =>
      simp only [EosTcpClientThread.exec, List.map, List.foldl, EosTcpClientThread.act]
      rw [tcp_drainTest_running a s hpc hrun,
        tcp_getFrame_none b { s with pc := .getFrame } rfl hv]
      simp [hst, hrun]
  | cons p ps ih =>
    obtain ⟨hd, hs, hv, hrest⟩ := hy
    match inps, hlen with
    | a :: b :: rest, hl =>
      have hl' : rest.length = 2 * ps.length + 2 := by
        simp only [List.length_cons] at hl; omega
      simp only [EosTcpClientThread.exec, List.map, List.foldl, EosTcpClientThread.act]
      rw [tcp_drainTest_running a s hpc hrun]
      obtain ⟨e₁, e₂, e₃, e₄⟩ :=
        tcp_getFrame_valid b { s with pc := .getFrame } p rfl hd hs hv
      have := ih (EosTcpClientThread.runStep b { s with pc := .getFrame }) rest e₁
        (e₂.trans hrun) (by rw [e₃]; exact hrest) hl'
      simp only [EosTcpClientThread.exec] at this
      rw [e₄] at this
      simpa using this

end DrainSteps

section DrainClaims

variable {F : OSCStream}

/-- C13, as the code has it: in an iteration of the TCP connected loop, while the run
flag is set, the worker keeps calling `GetNextFrame` until it returns a null pointer or
a size 0, and every frame returned before that is delivered to the end of the receive
queue, in the order returned. With the run flag cleared the drain loop is left without
a call. -/
theorem tcp_drain_delivers (s : EosTcpClientThread F) (ps : List sPacket) (st' : F.σ)
    (inps : List TcpInput) (hpc : s.pc = .drainTest) (hrun : s.m_Run = true)
    (hy : F.yields s.oscStream ps st') (hlen : inps.length = 2 * ps.length + 2) :
    ((EosTcpClientThread.exec (inps.map TcpAction.worker) s).pc = .swapSend ∧
      (EosTcpClientThread.exec (inps.map TcpAction.worker) s).oscStream = st' ∧
      (EosTcpClientThread.exec (inps.map TcpAction.worker) s).m_RecvQ =
        s.m_RecvQ ++ ps.map copyOf ∧
      (EosTcpClientThread.exec (inps.map TcpAction.worker) s).m_Run = true) ∧
    (∀ (x : EosTcpClientThread F) (inp : TcpInput), x.pc = .drainTest → x.m_Run = false →
      EosTcpClientThread.runStep inp x = { x with pc := .swapSend }) := by
  refine ⟨tcp_drain ps s st' inps hpc hrun hy hlen, ?_⟩
  intro x inp hx hr
  unfold EosTcpClientThread.runStep
  simp [hx, hr]

/-- The worker `tcpTwoFrames` has the frames of `[47]` and `[48, 49]` buffered: six steps
later both packets are at the end of the receive queue, in this order, and the drain
loop is left. -/
theorem tcp_drain_delivers_witness :
    (tcpTwoFrames.pc = .drainTest ∧ tcpTwoFrames.m_Run = true ∧ tcpTwoFrames.m_RecvQ = []) ∧
    (EosTcpClientThread.exec ((List.replicate 6 TcpInput.connected).map TcpAction.worker)
      tcpTwoFrames).m_RecvQ =
      [{ data := some [47], size := 1 }, { data := some [48, 49], size := 2 }] ∧
    (EosTcpClientThread.exec ((List.replicate 6 TcpInput.connected).map TcpAction.worker)
      tcpTwoFrames).pc = .swapSend :=
  have hy : specFramer.yields tcpTwoFrames.oscStream
      [{ data := some [47], size := 1 }, { data := some [48, 49], size := 2 }]
      ({ mode := .FRAME_MODE_1_0, buf := [] } : FramerState) :=
    ⟨rfl, rfl, rfl, rfl, rfl, rfl, rfl, rfl⟩
  have h := (tcp_drain_delivers tcpTwoFrames _ _ (List.replicate 6 TcpInput.connected)
    rfl rfl hy rfl).1
  ⟨⟨rfl, rfl, rfl⟩, h.2.2.1, h.1⟩

end DrainClaims

section StartShutdown

variable {F : OSCStream}

theorem tcp_destructor_returns (t : EosTcpClientThread F) (logQ : LOG_Q) (recvQ : PACKET_Q)
    (netEventQ : NETEVENT_Q) (hpc : t.pc = .idle) (hrun : t.m_Run = false)
    (hq : t.m_SendQ = []) :
    (t.Flush logQ recvQ netEventQ).1.Stop [] = some (t.Flush logQ recvQ netEventQ).1 :=
  tcp_Stop_of_stopped [] _ hpc hrun hq rfl

theorem udpIn_destructor_returns (t : EosUdpInThread) (logQ : LOG_Q) (recvQ : PACKET_Q)
    (hpc : t.pc = .idle) (hrun : t.m_Run = false) :
    (t.Flush logQ recvQ).1.Stop [] = some (t.Flush logQ recvQ).1 :=
  udpIn_Stop_of_stopped [] _ hpc hrun rfl

theorem udpOut_destructor_returns (t : EosUdpOutThread) (logQ : LOG_Q)
    (netEventQ : NETEVENT_Q) (hpc : t.pc = .idle) (hrun : t.m_Run = false)
    (hq : t.m_Q = []) :
    (t.Flush logQ netEventQ).1.Stop [] = some (t.Flush logQ netEventQ).1 :=
  udpOut_Stop_of_stopped [] _ hpc hrun hq

theorem ShutdownTcp_post (it : List TcpInput) (w w' : MainWindow F)
    (h : w.ShutdownTcp it = some w') :
    w'.m_TcpClientThread = none ∧ w'.m_UdpInThread = w.m_UdpInThread ∧
    w'.m_UdpOutThread = w.m_UdpOutThread := by
  unfold MainWindow.ShutdownTcp at h
  split at h
  · split at h
    · cases h
    · dsimp only at h
      split at h
      · cases h
      · cases h; exact ⟨rfl, rfl, rfl⟩
  · rename_i hn; cases h; exact ⟨hn, rfl, rfl⟩

theorem ShutdownUdpIn_post (iv : List UdpInInput) (w w' : MainWindow F)
    (h : w.ShutdownUdpIn iv = some w') :
    w'.m_UdpInThread = none ∧ w'.m_TcpClientThread = w.m_TcpClientThread ∧
    w'.m_UdpOutThread = w.m_UdpOutThread := by
  unfold MainWindow.ShutdownUdpIn at h
  split at h
  · split at h
    · cases h
    · dsimp only at h
      split at h
      · cases h
      · cases h; exact ⟨rfl, rfl, rfl⟩
  · rename_i hn; cases h; exact ⟨hn, rfl, rfl⟩

theorem ShutdownUdpOut_post (iu : List UdpOutInput) (w w' : MainWindow F)
    (h : w.ShutdownUdpOut iu = some w') :
    w'.m_UdpOutThread = none ∧ w'.m_TcpClientThread = w.m_TcpClientThread ∧
    w'.m_UdpInThread = w.m_UdpInThread := by
  unfold MainWindow.ShutdownUdpOut at h
  split at h
  · split at h
    · cases h
    · dsimp only at h
      split at h
      · cases h
      · cases h; exact ⟨rfl, rfl, rfl⟩
  · rename_i hn; cases h; exact ⟨hn, rfl, rfl⟩

/-- After `Shutdown` no transport exists. -/
theorem Shutdown_post (iu : List UdpOutInput) (iv : List UdpInInput) (it : List TcpInput)
    (w w' : MainWindow F) (h : w.Shutdown iu iv it = some w') :
    w'.m_TcpClientThread = none ∧ w'.m_UdpInThread = none ∧ w'.m_UdpOutThread = none := by
  unfold MainWindow.Shutdown at h
  split at h
  · cases h
  · rename_i w₁ h₁
    split at h
    · cases h
    · rename_i w₂ h₂
      split at h
      · cases h
      · rename_i w₃ h₃
        cases h
        obtain ⟨a₁, _, _⟩ := ShutdownTcp_post it w w₁ h₁
        obtain ⟨b₁, b₂, _⟩ := ShutdownUdpIn_post iv w₁ w₂ h₂
        obtain ⟨c₁, c₂, c₃⟩ := ShutdownUdpOut_post iu w₂ w₃ h₃
        refine ⟨?_, ?_, ?_⟩
        · show w₃.m_TcpClientThread = none
          rw [c₂, b₂, a₁]
        · show w₃.m_UdpInThread = none
          rw [c₃, b₁]
        · show w₃.m_UdpOutThread = none
          exact c₁

end StartShutdown

section StartClaims

variable {F : OSCStream}

theorem ShutdownTcp_returns (it : List TcpInput) (w : MainWindow F)
    (ht : ∀ t, w.m_TcpClientThread = some t → t.stepsToExit ≤ it.length) :
    ∃ w', w.ShutdownTcp it = some w' := by
  unfold MainWindow.ShutdownTcp
  cases hw : w.m_TcpClientThread with
  | none => exact ⟨w, rfl⟩
  | some t =>
    obtain ⟨t₁, h₁⟩ := tcp_Stop_returns it t (ht t hw)
    obtain ⟨a, b, c, _⟩ := tcp_Stop_post it t t₁ h₁
    simp only [h₁]
    rw [tcp_destructor_returns t₁ _ _ _ a b c]
    exact ⟨_, rfl⟩

theorem ShutdownUdpIn_returns (iv : List UdpInInput) (w : MainWindow F)
    (hv : ∀ t, w.m_UdpInThread = some t → t.stepsToExit ≤ iv.length) :
    ∃ w', w.ShutdownUdpIn iv = some w' := by
  unfold MainWindow.ShutdownUdpIn
  cases hw : w.m_UdpInThread with
  | none => exact ⟨w, rfl⟩
  | some t =>
    obtain ⟨t₁, h₁⟩ := udpIn_Stop_returns iv t (hv t hw)
    obtain ⟨a, b, _⟩ := udpIn_Stop_post iv t t₁ h₁
    simp only [h₁]
    rw [udpIn_destructor_returns t₁ _ _ a b]
    exact ⟨_, rfl⟩

theorem ShutdownUdpOut_returns (iu : List UdpOutInput) (w : MainWindow F)
    (hu : ∀ t, w.m_UdpOutThread = some t → t.stepsToExit ≤ iu.length) :
    ∃ w', w.ShutdownUdpOut iu = some w' := by
  unfold MainWindow.ShutdownUdpOut
  cases hw : w.m_UdpOutThread with
  | none => exact ⟨w, rfl⟩
  | some t =>
    obtain ⟨t₁, h₁⟩ := udpOut_Stop_returns iu t (hu t hw)
    obtain ⟨a, b, c⟩ := udpOut_Stop_post iu t t₁ h₁
    simp only [h₁]
    rw [udpOut_destructor_returns t₁ _ _ a b c]
    exact ⟨_, rfl⟩

theorem Shutdown_returns (iu : List UdpOutInput) (iv : List UdpInInput) (it : List TcpInput)
    (w : MainWindow F)
    (hu : ∀ t, w.m_UdpOutThread = some t → t.stepsToExit ≤ iu.length)
    (hv : ∀ t, w.m_UdpInThread = some t → t.stepsToExit ≤ iv.length)
    (ht : ∀ t, w.m_TcpClientThread = some t → t.stepsToExit ≤ it.length) :
    ∃ w', w.Shutdown iu iv it = some w' := by
  obtain ⟨w₁, h₁⟩ := ShutdownTcp_returns it w ht
  obtain ⟨_, a₂, a₃⟩ := ShutdownTcp_post it w w₁ h₁
  obtain ⟨w₂, h₂⟩ := ShutdownUdpIn_returns iv w₁ (by rw [a₂]; exact hv)
  obtain ⟨_, _, b₃⟩ := ShutdownUdpIn_post iv w₁ w₂ h₂
  obtain ⟨w₃, h₃⟩ := ShutdownUdpOut_returns iu w₂ (by rw [b₃, a₃]; exact hu)
  exact ⟨_, by simp only [MainWindow.Shutdown, h₁, h₂, h₃]; rfl⟩

theorem udpOut_new_Start (ip : String) (port : Nat) :
    ∃ u, EosUdpOutThread.new.Start [] ip port = some u := by
  simp only [EosUdpOutThread.Start, udpOut_Stop_of_stopped [] EosUdpOutThread.new rfl rfl rfl]
  exact ⟨_, rfl⟩

theorem udpIn_new_Start (ip : String) (port : Nat) :
    ∃ u, EosUdpInThread.new.Start [] ip port = some u := by
  simp only [EosUdpInThread.Start, udpIn_Stop_of_stopped [] EosUdpInThread.new rfl rfl rfl]
  exact ⟨_, rfl⟩

theorem tcp_new_Start (ip : String) (port : Nat) (mode unset : EnumFrameMode) :
    ∃ t, (EosTcpClientThread.new F unset).Start [] ip port mode = some t := by
  simp only [EosTcpClientThread.Start,
    tcp_Stop_of_stopped [] (EosTcpClientThread.new F unset) rfl rfl rfl rfl]
  exact ⟨_, rfl⟩

/-- Whenever `Start` returns, the transports are those of the configured mode. -/
theorem Start_post (panel : SettingsPanel) (iu : List UdpOutInput) (iv : List UdpInInput)
    (it : List TcpInput) (w w' : MainWindow F) (h : w.Start panel iu iv it = some w') :
    w'.transportsFor panel.GetMode := by
  unfold MainWindow.Start at h
  split at h
  · cases h
  · rename_i w₁ h₁
    obtain ⟨a, b, c⟩ := Shutdown_post iu iv it w w₁ h₁
    dsimp only at h
    split at h
    · rename_i hm
      split at h
      · cases h
      · cases h
        exact Or.inl ⟨Or.inl hm, rfl, c, b⟩
    · rename_i hm
      split at h
      · cases h
      · cases h
        exact Or.inl ⟨Or.inr hm, rfl, c, b⟩
    · rename_i hm₀ hm₁
      split at h
      · cases h
      · split at h
        · cases h
        · cases h
          exact Or.inr ⟨fun e => hm₀ e, fun e => hm₁ e, a, rfl, rfl⟩

theorem Start_returns (panel : SettingsPanel) (iu : List UdpOutInput)
    (iv : List UdpInInput) (it : List TcpInput) (w : MainWindow F)
    (hu : ∀ t, w.m_UdpOutThread = some t → t.stepsToExit ≤ iu.length)
    (hv : ∀ t, w.m_UdpInThread = some t → t.stepsToExit ≤ iv.length)
    (ht : ∀ t, w.m_TcpClientThread = some t → t.stepsToExit ≤ it.length) :
    ∃ w', w.Start panel iu iv it = some w' := by
  obtain ⟨w₁, h₁⟩ := Shutdown_returns iu iv it w hu hv ht
  obtain ⟨t, ht'⟩ := tcp_new_Start (F := F) panel.GetIP panel.GetTcpPort panel.GetMode
    .FRAME_MODE_INVALID
  obtain ⟨u, hu'⟩ := udpOut_new_Start panel.GetIP panel.GetUdpOutputPort
  obtain ⟨v, hv'⟩ := udpIn_new_Start "0.0.0.0" panel.GetUdpInputPort
  unfold MainWindow.Start
  simp only [h₁]
  cases hm : panel.GetMode <;> simp only [hm] at ht' ⊢ <;> simp [ht', hu', hv']

end StartClaims

section StartTransports

variable {F : OSCStream}

/-- C16: the application runs the UDP pair or the TCP client, never all three. For every
configured frame mode and every prior state of the main window, `Start` returns once
the workers of the transports that existed have left `run()`, and whenever it has
returned either the mode is 1.0 or 1.1 and the TCP client is the only transport (both
UDP transports are null), or the mode is another one and the UDP output and the UDP
input transports exist and the TCP client is null. -/
theorem Start_udp_pair_or_tcp (panel : SettingsPanel) (iu : List UdpOutInput)
    (iv : List UdpInInput) (it : List TcpInput) (w : MainWindow F)
    (hu : ∀ t, w.m_UdpOutThread = some t → t.stepsToExit ≤ iu.length)
    (hv : ∀ t, w.m_UdpInThread = some t → t.stepsToExit ≤ iv.length)
    (ht : ∀ t, w.m_TcpClientThread = some t → t.stepsToExit ≤ it.length) :
    (∃ w', w.Start panel iu iv it = some w' ∧ w'.transportsFor panel.GetMode) ∧
    (∀ (iu' : List UdpOutInput) (iv' : List UdpInInput) (it' : List TcpInput)
      (w' : MainWindow F), w.Start panel iu' iv' it' = some w' →
        w'.transportsFor panel.GetMode) := by
  obtain ⟨w', h⟩ := Start_returns panel iu iv it w hu hv ht
  exact ⟨⟨w', h, Start_post panel iu iv it w w' h⟩,
    fun iu' iv' it' w' h' => Start_post panel iu' iv' it' w w' h'⟩

/-- The main window `windowAfterSession` runs the TCP client; `Start` with the settings
of a UDP setup leaves the UDP pair and no TCP client. -/
theorem Start_udp_pair_or_tcp_witness :
    windowAfterSession.m_TcpClientThread.isSome = true ∧
    ∃ w', windowAfterSession.Start panelUdp [] [] (List.replicate 6 .connected) = some w' ∧
      w'.m_TcpClientThread = none ∧ w'.m_UdpOutThread.isSome = true ∧
      w'.m_UdpInThread.isSome = true := by
  refine ⟨rfl, ?_⟩
  obtain ⟨⟨w', h, hw⟩, _⟩ := Start_udp_pair_or_tcp panelUdp [] []
    (List.replicate 6 TcpInput.connected) windowAfterSession
    (fun t h => by cases h) (fun t h => by cases h)
    (fun t h => by cases h; decide)
  refine ⟨w', h, ?_⟩
  rcases hw with ⟨hm, _⟩ | ⟨_, _, a, b, c⟩
  · rcases hm with hm | hm <;> cases hm
  · exact ⟨a, b, c⟩

end StartTransports

section Framer

theorem ofBe32_be32 (n : Nat) (h : n < 2 ^ 32) : ofBe32 (be32 n) = n := by
  simp only [ofBe32, be32, List.getD_cons_zero, List.getD_cons_succ]
  omega

theorem be32_length (n : Nat) : (be32 n).length = 4 := rfl

/-- Mode 1.0 round trip of the framer of the spec, for payloads whose length fits the
four-byte prefix. -/
theorem framer_roundtrip_1_0 (p : Bytes) (h : p.length < 2 ^ 32) :
    specFramer.CreateFrame .FRAME_MODE_1_0 (some p) p.length =
      (some (be32 p.length ++ p), 4 + p.length) ∧
    specFramer.GetNextFrame
      (specFramer.Add (specFramer.new .FRAME_MODE_1_0)
        (specFramer.CreateFrame .FRAME_MODE_1_0 (some p) p.length).1
        (specFramer.CreateFrame .FRAME_MODE_1_0 (some p) p.length).2) =
      (({ mode := .FRAME_MODE_1_0, buf := [] } : FramerState), some p, p.length) := by
  have hc : specFramer.CreateFrame .FRAME_MODE_1_0 (some p) p.length =
      (some (be32 p.length ++ p), 4 + p.length) := by
    simp [specFramer, FramerState.CreateFrame]
  refine ⟨hc, ?_⟩
  rw [hc]
  have hadd : specFramer.Add (specFramer.new .FRAME_MODE_1_0) (some (be32 p.length ++ p))
      (4 + p.length) = ({ mode := .FRAME_MODE_1_0, buf := be32 p.length ++ p } : FramerState) := by
    simp only [specFramer, FramerState.Add, List.nil_append]
    rw [List.take_of_length_le (by simp [be32_length])]
  show specFramer.GetNextFrame (specFramer.Add (specFramer.new .FRAME_MODE_1_0)
    (some (be32 p.length ++ p)) (4 + p.length)) = _
  rw [hadd]
  have ht : (be32 p.length ++ p).take 4 = be32 p.length := by
    rw [List.take_append_of_le_length (by simp [be32_length])]
    exact List.take_of_length_le (by simp [be32_length])
  simp only [specFramer, FramerState.GetNextFrame, ht, ofBe32_be32 p.length h]
  simp [be32_length]

end Framer

section FramerLong

theorem be32_wraps : be32 (2 ^ 32) = [0, 0, 0, 0] := by
  simp [be32]

theorem framer_1_0_long (p : Bytes) (h : p.length = 2 ^ 32) :
    specFramer.GetNextFrame
      (specFramer.Add (specFramer.new .FRAME_MODE_1_0)
        (specFramer.CreateFrame .FRAME_MODE_1_0 (some p) (2 ^ 32)).1
        (specFramer.CreateFrame .FRAME_MODE_1_0 (some p) (2 ^ 32)).2) =
      (({ mode := .FRAME_MODE_1_0, buf := p } : FramerState), some [], 0) := by
  have hc : specFramer.CreateFrame .FRAME_MODE_1_0 (some p) (2 ^ 32) =
      (some ([0, 0, 0, 0] ++ p), 4 + 2 ^ 32) := by
    simp only [specFramer, FramerState.CreateFrame, be32_wraps]
    rw [List.take_of_length_le (by omega)]
  rw [hc]
  have hadd : specFramer.Add (specFramer.new .FRAME_MODE_1_0) (some ([0, 0, 0, 0] ++ p))
      (4 + 2 ^ 32) = ({ mode := .FRAME_MODE_1_0, buf := [0, 0, 0, 0] ++ p } : FramerState) := by
    simp only [specFramer, FramerState.Add, List.nil_append]
    rw [List.take_of_length_le (by simp; omega)]
  show specFramer.GetNextFrame (specFramer.Add (specFramer.new .FRAME_MODE_1_0)
    (some ([0, 0, 0, 0] ++ p)) (4 + 2 ^ 32)) = _
  rw [hadd]
  simp [specFramer, FramerState.GetNextFrame, ofBe32]
  rw [if_neg (by omega), if_neg (by omega)]

end FramerLong

section FramerClaims

/-- C19 fails for a payload of 2^32 bytes: its length does not fit the four-byte
prefix, the prefix of its frame reads 0, and `GetNextFrame` on the frame yields the
empty payload and leaves the 2^32 bytes in the buffer. -/
theorem framer_roundtrip_1_0_too_long :
    (List.replicate (2 ^ 32) 0 : Bytes).length = 2 ^ 32 ∧
    specFramer.GetNextFrame
      (specFramer.Add (specFramer.new .FRAME_MODE_1_0)
        (specFramer.CreateFrame .FRAME_MODE_1_0 (some (List.replicate (2 ^ 32) 0))
          (2 ^ 32)).1
        (specFramer.CreateFrame .FRAME_MODE_1_0 (some (List.replicate (2 ^ 32) 0))
          (2 ^ 32)).2) =
      (({ mode := .FRAME_MODE_1_0, buf := List.replicate (2 ^ 32) 0 } : FramerState),
        some [], 0) :=
  ⟨List.length_replicate _ _, framer_1_0_long _ (List.length_replicate _ _)⟩

/-- C19, for payloads the four-byte prefix can describe: for every payload `p` of fewer
than 2^32 bytes, the empty payload included, the Mode 1.0 frame of `p` is the four-byte
big-endian length of `p` followed by `p`, and feeding it to a fresh framer with `Add`
and calling `GetNextFrame` yields exactly `p`, with nothing left in the buffer. -/
theorem framer_roundtrip_mode_1_0 (p : Bytes) (h : p.length < 2 ^ 32) :
    specFramer.CreateFrame .FRAME_MODE_1_0 (some p) p.length =
      (some (be32 p.length ++ p), 4 + p.length) ∧
    specFramer.GetNextFrame
      (specFramer.Add (specFramer.new .FRAME_MODE_1_0)
        (specFramer.CreateFrame .FRAME_MODE_1_0 (some p) p.length).1
        (specFramer.CreateFrame .FRAME_MODE_1_0 (some p) p.length).2) =
      (({ mode := .FRAME_MODE_1_0, buf := [] } : FramerState), some p, p.length) :=
  framer_roundtrip_1_0 p h

/-- The payloads `[]` and `[47, 0, 0, 0]` round-trip in Mode 1.0. -/
theorem framer_roundtrip_mode_1_0_witness :
    specFramer.CreateFrame .FRAME_MODE_1_0 (some []) 0 = (some [0, 0, 0, 0], 4) ∧
    specFramer.GetNextFrame
      (specFramer.Add (specFramer.new .FRAME_MODE_1_0) (some [0, 0, 0, 0]) 4) =
      (({ mode := .FRAME_MODE_1_0, buf := [] } : FramerState), some [], 0) ∧
    specFramer.GetNextFrame
      (specFramer.Add (specFramer.new .FRAME_MODE_1_0) (some [0, 0, 0, 4, 47, 0, 0, 0]) 8) =
      (({ mode := .FRAME_MODE_1_0, buf := [] } : FramerState), some [47, 0, 0, 0], 4) :=
  ⟨(framer_roundtrip_mode_1_0 [] (by decide)).1,
    (framer_roundtrip_mode_1_0 [] (by decide)).2,
    (framer_roundtrip_mode_1_0 [47, 0, 0, 0] (by decide)).2⟩

end FramerClaims

section Slip

theorem slipUnescape_cons (b : Nat) (l : Bytes) (h : b ≠ SLIP_ESC) :
    slipUnescape (b :: l) = b :: slipUnescape l := by
  cases l with
  | nil => simp [slipUnescape]
  | cons c cs => simp [slipUnescape, h]

theorem slipUnescape_slipEscape (p : Bytes) : slipUnescape (slipEscape p) = p := by
  induction p with
  | nil => simp [slipEscape, slipUnescape]
  | cons b bs ih =>
    by_cases h₁ : b = SLIP_END
    · simp [slipEscape, slipUnescape, h₁, ih]
    · by_cases h₂ : b = SLIP_ESC
      · subst h₂
        simp [slipEscape, slipUnescape, ih, SLIP_ESC, SLIP_END, SLIP_ESC_ESC, SLIP_ESC_END]
      · simp [slipEscape, h₁, h₂, slipUnescape_cons b _ h₂, ih]

theorem slipEscape_no_end (p : Bytes) : ∀ b ∈ slipEscape p, (b != SLIP_END) = true := by
  induction p with
  | nil => simp [slipEscape]
  | cons c cs ih =>
    intro b hb
    by_cases h₁ : c = SLIP_END
    · simp only [slipEscape, h₁, if_true, List.mem_cons] at hb
      rcases hb with rfl | rfl | hb
      · decide
      · decide
      · exact ih b hb
    · by_cases h₂ : c = SLIP_ESC
      · rw [slipEscape, if_neg h₁, if_pos h₂] at hb
        simp only [List.mem_cons] at hb
        rcases hb with rfl | rfl | hb
        · decide
        · decide
        · exact ih b hb
      · simp only [slipEscape, h₁, h₂, if_false, List.mem_cons] at hb
        rcases hb with rfl | hb
        · simpa using h₁
        · exact ih b hb

/-- Mode 1.1 round trip of the framer of the spec. -/
theorem framer_roundtrip_1_1 (p : Bytes) :
    specFramer.CreateFrame .FRAME_MODE_1_1 (some p) p.length =
      (some (slipEscape p ++ [SLIP_END]), (slipEscape p).length + 1) ∧
    specFramer.GetNextFrame
      (specFramer.Add (specFramer.new .FRAME_MODE_1_1)
        (specFramer.CreateFrame .FRAME_MODE_1_1 (some p) p.length).1
        (specFramer.CreateFrame .FRAME_MODE_1_1 (some p) p.length).2) =
      (({ mode := .FRAME_MODE_1_1, buf := [] } : FramerState), some p, p.length) := by
  have hc : specFramer.CreateFrame .FRAME_MODE_1_1 (some p) p.length =
      (some (slipEscape p ++ [SLIP_END]), (slipEscape p).length + 1) := by
    simp [specFramer, FramerState.CreateFrame]
  refine ⟨hc, ?_⟩
  rw [hc]
  have hadd : specFramer.Add (specFramer.new .FRAME_MODE_1_1)
      (some (slipEscape p ++ [SLIP_END])) ((slipEscape p).length + 1) =
      ({ mode := .FRAME_MODE_1_1, buf := slipEscape p ++ [SLIP_END] } : FramerState) := by
    simp only [specFramer, FramerState.Add, List.nil_append]
    rw [List.take_of_length_le (by simp)]
  show specFramer.GetNextFrame (specFramer.Add (specFramer.new .FRAME_MODE_1_1)
    (some (slipEscape p ++ [SLIP_END])) ((slipEscape p).length + 1)) = _
  rw [hadd]
  have ht : (slipEscape p ++ [SLIP_END]).takeWhile (fun b => b != SLIP_END) =
      slipEscape p := by
    rw [List.takeWhile_append_of_pos (slipEscape_no_end p)]
    simp [List.takeWhile]
  simp only [specFramer, FramerState.GetNextFrame, ht, slipUnescape_slipEscape]
  simp

end Slip

section SlipClaims

/-- C20: for every byte payload `p`, payloads that hold the terminator and escape byte
values and the empty payload included, the Mode 1.1 frame of `p` is the escaped payload
followed by the terminator byte, and feeding it to a fresh framer with `Add` and calling
`GetNextFrame` yields exactly `p`, byte for byte, with nothing left in the buffer. -/
theorem framer_roundtrip_mode_1_1 (p : Bytes) :
    specFramer.CreateFrame .FRAME_MODE_1_1 (some p) p.length =
      (some (slipEscape p ++ [SLIP_END]), (slipEscape p).length + 1) ∧
    specFramer.GetNextFrame
      (specFramer.Add (specFramer.new .FRAME_MODE_1_1)
        (specFramer.CreateFrame .FRAME_MODE_1_1 (some p) p.length).1
        (specFramer.CreateFrame .FRAME_MODE_1_1 (some p) p.length).2) =
      (({ mode := .FRAME_MODE_1_1, buf := [] } : FramerState), some p, p.length) :=
  framer_roundtrip_1_1 p

end SlipClaims

section SendPath

variable {F : OSCStream}

end SendPath

section SendPathSteps

variable {F : OSCStream}

end SendPathSteps

section SendPathRuns

variable {F : OSCStream}

end SendPathRuns

section SendPathClaim

variable {F : OSCStream}

end SendPathClaim

section PartialFrame

/-- On a proper beginning of a Mode 1.0 frame `GetNextFrame` finds nothing and leaves
the buffer as it is. -/
theorem framer_1_0_incomplete (p buf rest : Bytes) (h : p.length < 2 ^ 32)
    (hb : buf ++ rest = be32 p.length ++ p) (hr : rest ≠ []) :
    specFramer.GetNextFrame ({ mode := .FRAME_MODE_1_0, buf := buf } : FramerState) =
      (({ mode := .FRAME_MODE_1_0, buf := buf } : FramerState), none, 0) := by
  have hlen : buf.length + rest.length = 4 + p.length := by
    have := congrArg List.length hb
    simpa [be32_length] using this
  have hpos : 0 < rest.length := List.length_pos.mpr hr
  by_cases h4 : buf.length < 4
  · simp [specFramer, FramerState.GetNextFrame, h4]
  · have ht : buf.take 4 = be32 p.length := by
      have h₁ : (buf ++ rest).take 4 = buf.take 4 :=
        List.take_append_of_le_length (by omega)
      have h₂ : (be32 p.length ++ p).take 4 = be32 p.length := by
        rw [List.take_append_of_le_length (by simp [be32_length])]
        exact List.take_of_length_le (by simp [be32_length])
      rw [← h₁, hb, h₂]
    simp only [specFramer, FramerState.GetNextFrame, ht, ofBe32_be32 p.length h]
    rw [if_neg h4, if_pos (by omega)]

/-- On a whole Mode 1.0 frame `GetNextFrame` returns the payload and empties the
buffer. -/
theorem framer_1_0_complete (p : Bytes) (h : p.length < 2 ^ 32) :
    specFramer.GetNextFrame
        ({ mode := .FRAME_MODE_1_0, buf := be32 p.length ++ p } : FramerState) =
      (({ mode := .FRAME_MODE_1_0, buf := [] } : FramerState), some p, p.length) := by
  have ht : (be32 p.length ++ p).take 4 = be32 p.length := by
    rw [List.take_append_of_le_length (by simp [be32_length])]
    exact List.take_of_length_le (by simp [be32_length])
  simp only [specFramer, FramerState.GetNextFrame, ht, ofBe32_be32 p.length h]
  simp [be32_length]

theorem framer_1_0_poll (p : Bytes) (h : p.length < 2 ^ 32) (rest buf : Bytes)
    (hb : buf ++ rest = be32 p.length ++ p) (hr : rest ≠ []) :
    specFramer.poll ({ mode := .FRAME_MODE_1_0, buf := buf } : FramerState) rest =
      (({ mode := .FRAME_MODE_1_0, buf := [] } : FramerState),
        List.replicate (rest.length - 1) (none, 0) ++ [(some p, p.length)]) := by
  induction rest generalizing buf with
  | nil => exact absurd rfl hr
  | cons b bs ih =>
    have hadd : specFramer.Add ({ mode := .FRAME_MODE_1_0, buf := buf } : FramerState)
        (some [b]) 1 = ({ mode := .FRAME_MODE_1_0, buf := buf ++ [b] } : FramerState) := by
      simp [specFramer, FramerState.Add]
    have hb₁ : (buf ++ [b]) ++ bs = be32 p.length ++ p := by simpa using hb
    unfold OSCStream.poll
    rw [hadd]
    by_cases hbs : bs = []
    · subst hbs
      rw [List.append_nil] at hb₁
      rw [hb₁, framer_1_0_complete p h]
      simp [OSCStream.poll]
    · rw [framer_1_0_incomplete p (buf ++ [b]) bs h hb₁ hbs]
      simp only []
      rw [ih (buf ++ [b]) hb₁ hbs]
      have hl : (b :: bs).length - 1 = (bs.length - 1) + 1 := by
        have := List.length_pos.mpr hbs
        simp; omega
      rw [hl, List.replicate_succ]
      rfl

/-- With a payload of 2^32 bytes the prefix of the frame reads 0, and the fourth byte
already completes an empty frame. -/
theorem framer_1_0_poll_long (p : Bytes) (h : p.length = 2 ^ 32) :
    specFramer.CreateFrame .FRAME_MODE_1_0 (some p) p.length =
      (some ([0, 0, 0, 0] ++ p), 4 + p.length) ∧
    specFramer.poll (specFramer.new .FRAME_MODE_1_0) (([0, 0, 0, 0] ++ p).take 4) =
      (({ mode := .FRAME_MODE_1_0, buf := [] } : FramerState),
        [(none, 0), (none, 0), (none, 0), (some [], 0)]) := by
  constructor
  · rw [h]
    simp only [specFramer, FramerState.CreateFrame, be32_wraps]
    rw [List.take_of_length_le (by omega)]
  · have ht : (([0, 0, 0, 0] : Bytes) ++ p).take 4 = [0, 0, 0, 0] := by
      rw [List.take_append_of_le_length (by simp)]
      rfl
    rw [ht]
    rfl

end PartialFrame

section PartialFrameClaims

/-- C21 fails for a payload of 2^32 bytes: the frame has 4 + 2^32 bytes, and when it is
fed one byte at a time `GetNextFrame` returns a frame (the empty one) after the fourth
byte already. -/
theorem framer_partial_1_0_too_long :
    (List.replicate (2 ^ 32) 0 : Bytes).length = 2 ^ 32 ∧
    specFramer.CreateFrame .FRAME_MODE_1_0 (some (List.replicate (2 ^ 32) 0))
        (List.replicate (2 ^ 32) 0 : Bytes).length =
      (some ([0, 0, 0, 0] ++ List.replicate (2 ^ 32) 0),
        4 + (List.replicate (2 ^ 32) 0 : Bytes).length) ∧
    specFramer.poll (specFramer.new .FRAME_MODE_1_0)
        (([0, 0, 0, 0] ++ List.replicate (2 ^ 32) 0).take 4) =
      (({ mode := .FRAME_MODE_1_0, buf := [] } : FramerState),
        [(none, 0), (none, 0), (none, 0), (some [], 0)]) :=
  ⟨List.length_replicate _ _,
    (framer_1_0_poll_long _ (List.length_replicate _ _)).1,
    (framer_1_0_poll_long _ (List.length_replicate _ _)).2⟩

/-- C21, for payloads the four-byte prefix can describe: for every payload `p` of
`N < 2^32` bytes, the empty payload included, the Mode 1.0 frame of `p` has `4 + N`
bytes, and when a fresh framer gets them one at a time with a call of `GetNextFrame`
after every `Add`, the first `4 + N - 1` calls return none, the call after the last
byte returns the payload `p` and leaves the buffer empty, and one more call returns
none. -/
theorem framer_partial_frame_1_0 (p : Bytes) (h : p.length < 2 ^ 32) :
    specFramer.CreateFrame .FRAME_MODE_1_0 (some p) p.length =
      (some (be32 p.length ++ p), 4 + p.length) ∧
    (be32 p.length ++ p).length = 4 + p.length ∧
    specFramer.poll (specFramer.new .FRAME_MODE_1_0) (be32 p.length ++ p) =
      (({ mode := .FRAME_MODE_1_0, buf := [] } : FramerState),
        List.replicate (4 + p.length - 1) (none, 0) ++ [(some p, p.length)]) ∧
    specFramer.GetNextFrame ({ mode := .FRAME_MODE_1_0, buf := [] } : FramerState) =
      (({ mode := .FRAME_MODE_1_0, buf := [] } : FramerState), none, 0) := by
  have hl : (be32 p.length ++ p).length = 4 + p.length := by simp [be32_length]
  refine ⟨(framer_roundtrip_1_0 p h).1, hl, ?_, rfl⟩
  have hne : be32 p.length ++ p ≠ [] := by simp [be32]
  have := framer_1_0_poll p h (be32 p.length ++ p) [] (by simp) hne
  rw [hl] at this
  exact this

/-- The payloads `[]` and `[47, 9]` fed byte by byte in Mode 1.0. -/
theorem framer_partial_frame_1_0_witness :
    specFramer.poll (specFramer.new .FRAME_MODE_1_0) [0, 0, 0, 0] =
      (({ mode := .FRAME_MODE_1_0, buf := [] } : FramerState),
        [(none, 0), (none, 0), (none, 0), (some [], 0)]) ∧
    specFramer.poll (specFramer.new .FRAME_MODE_1_0) [0, 0, 0, 2, 47, 9] =
      (({ mode := .FRAME_MODE_1_0, buf := [] } : FramerState),
        [(none, 0), (none, 0), (none, 0), (none, 0), (none, 0), (some [47, 9], 2)]) :=
  ⟨(framer_partial_frame_1_0 [] (by decide)).2.2.1,
    (framer_partial_frame_1_0 [47, 9] (by decide)).2.2.1⟩

end PartialFrameClaims

section StartResets

variable {F : OSCStream}

theorem udpOut_Start_post (inps : List UdpOutInput) (u u₀ : EosUdpOutThread)
    (ip : String) (port : Nat) (h : u.Start inps ip port = some u₀) :
    u₀.m_Q = [] ∧ u₀.m_NetEventQ = [] ∧ u₀.m_Run = true ∧ u₀.pc = .start ∧ u₀.q = [] := by
  simp only [EosUdpOutThread.Start] at h
  split at h
  · cases h
  · rename_i w hw
    cases h
    exact ⟨(udpOut_Stop_post inps u w hw).2.2, rfl, rfl, rfl, rfl⟩

theorem tcp_Start_post (inps : List TcpInput) (t t₀ : EosTcpClientThread F)
    (ip : String) (port : Nat) (mode : EnumFrameMode)
    (h : t.Start inps ip port mode = some t₀) :
    t₀.m_SendQ = [] ∧ t₀.m_NetEventQ = [] ∧ t₀.m_Run = true ∧ t₀.pc = .start ∧
      t₀.sendQ = [] := by
  simp only [EosTcpClientThread.Start] at h
  split at h
  · cases h
  · rename_i w hw
    cases h
    exact ⟨(tcp_Stop_post inps t w hw).2.2.1, rfl, rfl, rfl, rfl⟩

theorem udpOut_Start_returns (inps : List UdpOutInput) (u : EosUdpOutThread)
    (ip : String) (port : Nat) (h : u.stepsToExit ≤ inps.length) :
    ∃ u₀, u.Start inps ip port = some u₀ := by
  obtain ⟨w, hw⟩ := udpOut_Stop_returns inps u h
  exact ⟨_, by simp only [EosUdpOutThread.Start, hw]; rfl⟩

theorem tcp_Start_returns (inps : List TcpInput) (t : EosTcpClientThread F)
    (ip : String) (port : Nat) (mode : EnumFrameMode) (h : t.stepsToExit ≤ inps.length) :
    ∃ t₀, t.Start inps ip port mode = some t₀ := by
  obtain ⟨w, hw⟩ := tcp_Stop_returns inps t h
  exact ⟨_, by simp only [EosTcpClientThread.Start, hw]; rfl⟩

/-- A packet that `Send` accepts while no worker runs is released by the `Stop` inside
the next `Start`, and the transport that `Start` launches is the one it would have
launched without the packet. -/
theorem udpOut_Send_then_Start (inps : List UdpOutInput) (u : EosUdpOutThread)
    (ip : String) (port : Nat) (p : sPacket) (hpc : u.pc = .idle)
    (hv : (p.data.isSome && p.size != 0) = true) :
    (u.Send p).2 = true ∧
    (∃ s₁, (u.Send p).1.Stop inps = some s₁ ∧ Effect.free p.data ∈ s₁.history ∧
      s₁.m_Q = []) ∧
    (u.Send p).1.Start inps ip port = u.Start inps ip port := by
  have hs : u.Send p = ({ u with m_Q := u.m_Q ++ [p] }, true) := by
    simp [EosUdpOutThread.Send, hv]
  rw [hs]
  refine ⟨rfl, ?_, ?_⟩
  · have hS : EosUdpOutThread.Stop inps { u with m_Q := u.m_Q ++ [p] } =
        some { u with m_Run := false, m_Q := [],
                      history := u.history ++
                        (u.m_Q ++ [p]).map (fun (p : sPacket) => Effect.free p.data) } := by
      simp only [EosUdpOutThread.Stop]
      rw [udpOut_wait_of_idle inps _ (by exact hpc)]
    exact ⟨_, hS, by simp, rfl⟩
  · simp only [EosUdpOutThread.Start, EosUdpOutThread.Stop]
    rw [udpOut_wait_of_idle inps _ (by exact hpc),
      udpOut_wait_of_idle inps { u with m_Run := false } (by exact hpc)]
    rfl

theorem tcp_Send_then_Start (inps : List TcpInput) (t : EosTcpClientThread F)
    (ip : String) (port : Nat) (mode : EnumFrameMode) (p : sPacket) (hpc : t.pc = .idle)
    (hv : (p.data.isSome && p.size != 0) = true) :
    (t.Send p).2 = true ∧
    (∃ s₁, (t.Send p).1.Stop inps = some s₁ ∧ Effect.free p.data ∈ s₁.history ∧
      s₁.m_SendQ = []) ∧
    (t.Send p).1.Start inps ip port mode = t.Start inps ip port mode := by
  have hs : t.Send p = ({ t with m_SendQ := t.m_SendQ ++ [p] }, true) := by
    simp [EosTcpClientThread.Send, hv]
  rw [hs]
  refine ⟨rfl, ?_, ?_⟩
  · let u₁ : List Effect := t.history ++
        (t.m_SendQ ++ [p]).map (fun (p : sPacket) => Effect.free p.data) ++
        t.m_RecvQ.map (fun (p : sPacket) => Effect.free p.data)
    have hS : EosTcpClientThread.Stop inps { t with m_SendQ := t.m_SendQ ++ [p] } =
        some { t with m_Run := false, m_SendQ := [], m_RecvQ := [],
                      history := u₁ } := by
      simp only [EosTcpClientThread.Stop]
      rw [tcp_wait_of_idle inps _ (by exact hpc)]
    exact ⟨_, hS, by simp [u₁], rfl⟩
  · simp only [EosTcpClientThread.Start, EosTcpClientThread.Stop]
    rw [tcp_wait_of_idle inps _ (by exact hpc),
      tcp_wait_of_idle inps { t with m_Run := false } (by exact hpc)]
    rfl

end StartResets

section StartResetsClaims

variable {F : OSCStream}

/-- C22: `Start` resets the queues of the UDP output transport and of the TCP client.
From every prior state `Start` returns once the old worker has left `run()` (within
`stepsToExit` steps), and whenever it returns the send queue and the net-event queue
are empty and the run flag is set, so a `Flush` right after `Start` hands over no
event: events of the previous run that were not flushed are lost. `Send` does not look
at the run flag: while no worker runs it accepts a valid packet and returns true, the
`Stop` inside the next `Start` releases the packet, and the transport that `Start`
launches is exactly the one it would have launched had the packet never been sent, so
the packet is never transmitted. -/
theorem Start_resets_queues (u : EosUdpOutThread) (t : EosTcpClientThread F)
    (iu : List UdpOutInput) (it : List TcpInput) (ip : String) (port : Nat)
    (mode : EnumFrameMode)
    (hu : u.stepsToExit ≤ iu.length) (ht : t.stepsToExit ≤ it.length) :
    (∃ u₀, u.Start iu ip port = some u₀ ∧
      u₀.m_Q = [] ∧ u₀.m_NetEventQ = [] ∧ u₀.m_Run = true) ∧
    (∃ t₀, t.Start it ip port mode = some t₀ ∧
      t₀.m_SendQ = [] ∧ t₀.m_NetEventQ = [] ∧ t₀.m_Run = true) ∧
    (∀ inps u₀, u.Start inps ip port = some u₀ →
      u₀.m_Q = [] ∧ u₀.m_NetEventQ = [] ∧ u₀.m_Run = true ∧
      ∀ logQ netEventQ, (u₀.Flush logQ netEventQ).2.2 = []) ∧
    (∀ inps t₀, t.Start inps ip port mode = some t₀ →
      t₀.m_SendQ = [] ∧ t₀.m_NetEventQ = [] ∧ t₀.m_Run = true ∧
      ∀ logQ recvQ netEventQ, (t₀.Flush logQ recvQ netEventQ).2.2.2 = []) ∧
    (∀ inps (p : sPacket), u.pc = .idle → (p.data.isSome && p.size != 0) = true →
      (u.Send p).2 = true ∧
      (∃ s₁, (u.Send p).1.Stop inps = some s₁ ∧ Effect.free p.data ∈ s₁.history ∧
        s₁.m_Q = []) ∧
      (u.Send p).1.Start inps ip port = u.Start inps ip port) ∧
    (∀ inps (p : sPacket), t.pc = .idle → (p.data.isSome && p.size != 0) = true →
      (t.Send p).2 = true ∧
      (∃ s₁, (t.Send p).1.Stop inps = some s₁ ∧ Effect.free p.data ∈ s₁.history ∧
        s₁.m_SendQ = []) ∧
      (t.Send p).1.Start inps ip port mode = t.Start inps ip port mode) := by
  refine ⟨?_, ?_, ?_, ?_, ?_, ?_⟩
  · obtain ⟨u₀, h⟩ := udpOut_Start_returns iu u ip port hu
    obtain ⟨a, b, c, _⟩ := udpOut_Start_post iu u u₀ ip port h
    exact ⟨u₀, h, a, b, c⟩
  · obtain ⟨t₀, h⟩ := tcp_Start_returns it t ip port mode ht
    obtain ⟨a, b, c, _⟩ := tcp_Start_post it t t₀ ip port mode h
    exact ⟨t₀, h, a, b, c⟩
  · intro inps u₀ h
    obtain ⟨a, b, c, _⟩ := udpOut_Start_post inps u u₀ ip port h
    exact ⟨a, b, c, fun _ _ => b⟩
  · intro inps t₀ h
    obtain ⟨a, b, c, _⟩ := tcp_Start_post inps t t₀ ip port mode h
    exact ⟨a, b, c, fun _ _ _ => b⟩
  · exact fun inps p hpc hv => udpOut_Send_then_Start inps u ip port p hpc hv
  · exact fun inps p hpc hv => tcp_Send_then_Start inps t ip port mode p hpc hv

/-- A UDP output transport and a TCP client with packets in their send queues and the
event of their session not yet flushed: `Start` returns with both queues empty. -/
theorem Start_resets_queues_witness :
    (udpOutQueued.m_Q = [{ data := some [1], size := 1 }, { data := some [2], size := 1 }] ∧
      udpOutQueued.m_NetEventQ = [.NET_EVENT_CONNECTED] ∧
      tcpQueued.m_SendQ = [{ data := some [9], size := 1 }] ∧
      tcpQueued.m_NetEventQ = [.NET_EVENT_CONNECTED]) ∧
    (∃ u₀, udpOutQueued.Start (List.replicate 8 .good) "127.0.0.1" 8000 = some u₀ ∧
      u₀.m_Q = [] ∧ u₀.m_NetEventQ = [] ∧ u₀.m_Run = true) ∧
    (∃ t₀, tcpQueued.Start (List.replicate 12 .connected) "127.0.0.1" 3032
        .FRAME_MODE_1_0 = some t₀ ∧
      t₀.m_SendQ = [] ∧ t₀.m_NetEventQ = [] ∧ t₀.m_Run = true) :=
  have h := Start_resets_queues udpOutQueued tcpQueued
    (List.replicate 8 .good) (List.replicate 12 .connected) "127.0.0.1" 8000
    .FRAME_MODE_1_0 (by decide) (by decide)
  have h₂ := Start_resets_queues udpOutQueued tcpQueued
    (List.replicate 8 .good) (List.replicate 12 .connected) "127.0.0.1" 3032
    .FRAME_MODE_1_0 (by decide) (by decide)
  ⟨⟨by rfl, by rfl, by rfl, by rfl⟩, h.1, h₂.2.1⟩

end StartResetsClaims

section StopEvents

variable {F : OSCStream}

theorem netEventsOf_free (q : PACKET_Q) :
    netEventsOf (q.map (fun (p : sPacket) => Effect.free p.data)) = [] := by
  induction q with
  | nil => rfl
  | cons p q ih => simpa [netEventsOf] using ih

theorem tcp_Recv_netEventQ (s : EosTcpClientThread F) (buf : Option Bytes) (size : Nat) :
    (s.OSCHandlerClient_Recv buf size).m_NetEventQ = s.m_NetEventQ := by
  unfold EosTcpClientThread.OSCHandlerClient_Recv
  split <;> (try split) <;> simp

theorem tcp_foldl_log_netEventQ (l : List String) (s : EosTcpClientThread F) :
    (l.foldl EosTcpClientThread.OSCParserClient_Log s).m_NetEventQ = s.m_NetEventQ := by
  induction l generalizing s with
  | nil => rfl
  | cons m l ih => simp [List.foldl_cons, ih, EosTcpClientThread.OSCParserClient_Log]

theorem udpOut_foldl_log_netEventQ (l : List String) (s : EosUdpOutThread) :
    (l.foldl EosUdpOutThread.OSCParserClient_Log s).m_NetEventQ = s.m_NetEventQ ∧
    (l.foldl EosUdpOutThread.OSCParserClient_Log s).history = s.history := by
  induction l generalizing s with
  | nil => simp
  | cons m l ih => simp [List.foldl_cons, ih, EosUdpOutThread.OSCParserClient_Log]

/-- A step of the UDP output worker touches the net-event queue only by pushing. -/
theorem udpOut_runStep_netEventQ (inp : UdpOutInput) (s : EosUdpOutThread) :
    ∃ es, (EosUdpOutThread.runStep inp s).m_NetEventQ = s.m_NetEventQ ++ es ∧
      netEventsOf (EosUdpOutThread.runStep inp s).history = netEventsOf s.history ++ es := by
  unfold EosUdpOutThread.runStep
  split <;> rename_i hpc
  case h_5 => exact ⟨[.NET_EVENT_CONNECTED], by simp [netEventsOf_append, netEventsOf]⟩
  case h_11 => exact ⟨[.NET_EVENT_DISCONNECTED], by simp [netEventsOf_append, netEventsOf]⟩
  all_goals
    refine ⟨[], ?_⟩
    (try dsimp only)
    (try split_ifs) <;>
      simp [netEventsOf_append, netEventsOf, EosUdpOutThread.UpdateLog,
        udpOut_foldl_log_netEventQ]

/-- A step of the TCP worker touches the net-event queue only by pushing. -/
theorem tcp_runStep_netEventQ (inp : TcpInput) (s : EosTcpClientThread F) :
    (EosTcpClientThread.runStep inp s).m_NetEventQ =
      s.m_NetEventQ ++
        (match s.pc with
         | .pushConnected => [NetEvent.NET_EVENT_CONNECTED]
         | .pushDisconnected => [NetEvent.NET_EVENT_DISCONNECTED]
         | _ => []) := by
  unfold EosTcpClientThread.runStep
  split <;> rename_i hpc <;> simp only [hpc] <;> (try split_ifs) <;>
    simp [EosTcpClientThread.UpdateLog, tcp_foldl_log_netEventQ, tcp_Recv_netEventQ,
      EosTcpClientThread.ProcessPacket]

end StopEvents

section StopEventsRuns

variable {F : OSCStream}

theorem udpOut_wait_netEventQ (inps : List UdpOutInput) (s s₁ : EosUdpOutThread)
    (h : EosUdpOutThread.wait inps s = some s₁) :
    ∃ pushed, s₁.m_NetEventQ = s.m_NetEventQ ++ pushed ∧
      netEventsOf s₁.history = netEventsOf s.history ++ pushed := by
  induction inps generalizing s with
  | nil =>
    simp only [EosUdpOutThread.wait] at h
    split at h
    · cases h; exact ⟨[], by simp⟩
    · cases h
  | cons inp inps ih =>
    simp only [EosUdpOutThread.wait] at h
    split at h
    · cases h; exact ⟨[], by simp⟩
    · obtain ⟨es, h₁, h₂⟩ := udpOut_runStep_netEventQ inp s
      obtain ⟨pushed, h₃, h₄⟩ := ih _ h
      exact ⟨es ++ pushed, by rw [h₃, h₁, List.append_assoc],
        by rw [h₄, h₂, List.append_assoc]⟩

theorem tcp_wait_netEventQ (inps : List TcpInput) (s s₁ : EosTcpClientThread F)
    (h : EosTcpClientThread.wait inps s = some s₁) :
    ∃ pushed, s₁.m_NetEventQ = s.m_NetEventQ ++ pushed ∧
      netEventsOf s₁.history = netEventsOf s.history ++ pushed := by
  induction inps generalizing s with
  | nil =>
    simp only [EosTcpClientThread.wait] at h
    split at h
    · cases h; exact ⟨[], by simp⟩
    · cases h
  | cons inp inps ih =>
    simp only [EosTcpClientThread.wait] at h
    split at h
    · cases h; exact ⟨[], by simp⟩
    · obtain ⟨pushed, h₃, h₄⟩ := ih _ h
      refine ⟨(match s.pc with
         | .pushConnected => [NetEvent.NET_EVENT_CONNECTED]
         | .pushDisconnected => [NetEvent.NET_EVENT_DISCONNECTED]
         | _ => []) ++ pushed, ?_, ?_⟩
      · rw [h₃, tcp_runStep_netEventQ, List.append_assoc]
      · rw [h₄, tcp_runStep_events, List.append_assoc]

/-- With the run flag cleared, a step of the UDP output worker behind `Initialize`
pushes what is still to come at its position. -/
theorem udpOut_runStep_pending (inp : UdpOutInput) (s : EosUdpOutThread)
    (hrun : s.m_Run = false) (hpc : s.pc ≠ .init) :
    (EosUdpOutThread.runStep inp s).pc ≠ .init ∧
    (EosUdpOutThread.runStep inp s).m_NetEventQ ++ (EosUdpOutThread.runStep inp s).pc.pending =
      s.m_NetEventQ ++ s.pc.pending := by
  unfold EosUdpOutThread.runStep
  split <;> rename_i h <;> (try dsimp only) <;> (try split_ifs) <;>
    simp_all [UdpOutPc.pending, EosUdpOutThread.UpdateLog, udpOut_foldl_log_netEventQ,
      udpOut_foldl_log]

/-- With the run flag cleared, a step of the TCP worker pushes what is still to come at
its position. -/
theorem tcp_runStep_pending (inp : TcpInput) (s : EosTcpClientThread F)
    (hrun : s.m_Run = false) :
    (EosTcpClientThread.runStep inp s).m_NetEventQ ++
        (EosTcpClientThread.runStep inp s).pc.pending =
      s.m_NetEventQ ++ s.pc.pending := by
  unfold EosTcpClientThread.runStep
  split <;> rename_i h <;> (try dsimp only) <;> (try split_ifs) <;>
    simp_all [TcpPc.pending, EosTcpClientThread.UpdateLog, tcp_foldl_log_netEventQ,
      tcp_foldl_log, tcp_Recv_netEventQ, tcp_Recv_run, EosTcpClientThread.ProcessPacket]

theorem udpOut_wait_pending (inps : List UdpOutInput) (s s₁ : EosUdpOutThread)
    (h : EosUdpOutThread.wait inps s = some s₁) (hrun : s.m_Run = false)
    (hpc : s.pc ≠ .init) : s₁.m_NetEventQ = s.m_NetEventQ ++ s.pc.pending := by
  induction inps generalizing s with
  | nil =>
    simp only [EosUdpOutThread.wait] at h
    split at h
    · rename_i hi; cases h; simp [hi, UdpOutPc.pending]
    · cases h
  | cons inp inps ih =>
    simp only [EosUdpOutThread.wait] at h
    split at h
    · rename_i hi; cases h; simp [hi, UdpOutPc.pending]
    · obtain ⟨h₁, h₂⟩ := udpOut_runStep_pending inp s hrun hpc
      have h₃ := ih _ h (by rw [udpOut_runStep_run]; exact hrun) h₁
      rw [h₃, h₂]

theorem tcp_wait_pending (inps : List TcpInput) (s s₁ : EosTcpClientThread F)
    (h : EosTcpClientThread.wait inps s = some s₁) (hrun : s.m_Run = false) :
    s₁.m_NetEventQ = s.m_NetEventQ ++ s.pc.pending := by
  induction inps generalizing s with
  | nil =>
    simp only [EosTcpClientThread.wait] at h
    split at h
    · rename_i hi; cases h; simp [hi, TcpPc.pending]
    · cases h
  | cons inp inps ih =>
    simp only [EosTcpClientThread.wait] at h
    split at h
    · rename_i hi; cases h; simp [hi, TcpPc.pending]
    · have h₃ := ih _ h (by rw [tcp_runStep_run]; exact hrun)
      rw [h₃, tcp_runStep_pending inp s hrun]

end StopEventsRuns

section StopEventsClaims

variable {F : OSCStream}

theorem udpOut_Stop_netEventQ (inps : List UdpOutInput) (u u₁ : EosUdpOutThread)
    (h : u.Stop inps = some u₁) :
    (∃ pushed, u₁.m_NetEventQ = u.m_NetEventQ ++ pushed ∧
      netEventsOf u₁.history = netEventsOf u.history ++ pushed) ∧
    (u.pc ≠ .init → u₁.m_NetEventQ = u.m_NetEventQ ++ u.pc.pending) := by
  simp only [EosUdpOutThread.Stop] at h
  split at h
  · cases h
  · rename_i w hw
    cases h
    obtain ⟨pushed, h₁, h₂⟩ := udpOut_wait_netEventQ _ _ _ hw
    refine ⟨⟨pushed, h₁, ?_⟩,
      fun hpc => udpOut_wait_pending inps { u with m_Run := false } w hw rfl hpc⟩
    show netEventsOf (w.history ++ _) = _
    rw [netEventsOf_append, netEventsOf_free, List.append_nil, h₂]

theorem tcp_Stop_netEventQ (inps : List TcpInput) (t t₁ : EosTcpClientThread F)
    (h : t.Stop inps = some t₁) :
    (∃ pushed, t₁.m_NetEventQ = t.m_NetEventQ ++ pushed ∧
      netEventsOf t₁.history = netEventsOf t.history ++ pushed) ∧
    t₁.m_NetEventQ = t.m_NetEventQ ++ t.pc.pending := by
  simp only [EosTcpClientThread.Stop] at h
  split at h
  · cases h
  · rename_i w hw
    cases h
    obtain ⟨pushed, h₁, h₂⟩ := tcp_wait_netEventQ _ _ _ hw
    refine ⟨⟨pushed, h₁, ?_⟩, tcp_wait_pending inps { t with m_Run := false } w hw rfl⟩
    show netEventsOf (w.history ++ _ ++ _) = _
    rw [netEventsOf_append, netEventsOf_append, netEventsOf_free, netEventsOf_free,
      List.append_nil, List.append_nil, h₂]

/-- The net-event queue of the window right after the TCP part of `Shutdown`. -/
theorem ShutdownTcp_netEventQ (it : List TcpInput) (w w₁ : MainWindow F)
    (t : EosTcpClientThread F) (ht : w.m_TcpClientThread = some t)
    (h : w.ShutdownTcp it = some w₁) :
    w₁.m_NetEventQ = t.m_NetEventQ ++ t.pc.pending := by
  unfold MainWindow.ShutdownTcp at h
  rw [ht] at h
  dsimp only at h
  cases hS : t.Stop it with
  | none => simp [hS] at h
  | some t₁ =>
    rw [hS] at h
    dsimp only at h
    split at h
    · cases h
    · cases h
      exact (tcp_Stop_netEventQ it t t₁ hS).2

/-- The net-event queue of the window right after the UDP output part of `Shutdown`. -/
theorem ShutdownUdpOut_netEventQ (iu : List UdpOutInput) (w w₁ : MainWindow F)
    (u : EosUdpOutThread) (hu : w.m_UdpOutThread = some u) (hpc : u.pc ≠ .init)
    (h : w.ShutdownUdpOut iu = some w₁) :
    w₁.m_NetEventQ = u.m_NetEventQ ++ u.pc.pending := by
  unfold MainWindow.ShutdownUdpOut at h
  rw [hu] at h
  dsimp only at h
  cases hS : u.Stop iu with
  | none => simp [hS] at h
  | some u₁ =>
    rw [hS] at h
    dsimp only at h
    split at h
    · cases h
    · cases h
      exact (udpOut_Stop_netEventQ iu u u₁ hS).2 hpc

/-- C23: `Stop` leaves the net-event queue of the UDP output transport and of the TCP
client as it is, apart from what the worker pushes on its way out of `run()`. From
every state `Stop` returns once the worker has left `run()` (within `stepsToExit`
steps), and whenever it returns, the net-event queue is the queue before `Stop`
followed by the events the worker pushed meanwhile (nothing when no worker runs); a
worker inside a session pushes exactly the final `NET_EVENT_DISCONNECTED`. A `Flush`
after `Stop` returns that queue, final event included, and so does the `Stop`-`Flush`
sequence of `MainWindow::Shutdown`. -/
theorem Stop_keeps_netEventQ (u : EosUdpOutThread) (t : EosTcpClientThread F)
    (iu : List UdpOutInput) (it : List TcpInput)
    (hu : u.stepsToExit ≤ iu.length) (ht : t.stepsToExit ≤ it.length) :
    (∃ u₁, u.Stop iu = some u₁ ∧
      (u.pc ≠ .init → u₁.m_NetEventQ = u.m_NetEventQ ++ u.pc.pending) ∧
      ∃ pushed, u₁.m_NetEventQ = u.m_NetEventQ ++ pushed ∧
        netEventsOf u₁.history = netEventsOf u.history ++ pushed) ∧
    (∃ t₁, t.Stop it = some t₁ ∧ t₁.m_NetEventQ = t.m_NetEventQ ++ t.pc.pending ∧
      ∃ pushed, t₁.m_NetEventQ = t.m_NetEventQ ++ pushed ∧
        netEventsOf t₁.history = netEventsOf t.history ++ pushed) ∧
    (∀ inps u₁, u.Stop inps = some u₁ →
      (∃ pushed, u₁.m_NetEventQ = u.m_NetEventQ ++ pushed ∧
        netEventsOf u₁.history = netEventsOf u.history ++ pushed) ∧
      (u.pc ≠ .init → u₁.m_NetEventQ = u.m_NetEventQ ++ u.pc.pending) ∧
      (u.pc = .idle → u₁.m_NetEventQ = u.m_NetEventQ) ∧
      ∀ logQ netEventQ, (u₁.Flush logQ netEventQ).2.2 = u₁.m_NetEventQ) ∧
    (∀ inps t₁, t.Stop inps = some t₁ →
      (∃ pushed, t₁.m_NetEventQ = t.m_NetEventQ ++ pushed ∧
        netEventsOf t₁.history = netEventsOf t.history ++ pushed) ∧
      t₁.m_NetEventQ = t.m_NetEventQ ++ t.pc.pending ∧
      (t.pc = .idle → t₁.m_NetEventQ = t.m_NetEventQ) ∧
      ∀ logQ recvQ netEventQ, (t₁.Flush logQ recvQ netEventQ).2.2.2 = t₁.m_NetEventQ) ∧
    (∀ inps (w w₁ : MainWindow F), w.m_UdpOutThread = some u → u.pc ≠ .init →
      w.ShutdownUdpOut inps = some w₁ → w₁.m_NetEventQ = u.m_NetEventQ ++ u.pc.pending) ∧
    (∀ inps (w w₁ : MainWindow F), w.m_TcpClientThread = some t →
      w.ShutdownTcp inps = some w₁ → w₁.m_NetEventQ = t.m_NetEventQ ++ t.pc.pending) := by
  refine ⟨?_, ?_, ?_, ?_, ?_, ?_⟩
  · obtain ⟨u₁, h⟩ := udpOut_Stop_returns iu u hu
    exact ⟨u₁, h, (udpOut_Stop_netEventQ iu u u₁ h).2, (udpOut_Stop_netEventQ iu u u₁ h).1⟩
  · obtain ⟨t₁, h⟩ := tcp_Stop_returns it t ht
    exact ⟨t₁, h, (tcp_Stop_netEventQ it t t₁ h).2, (tcp_Stop_netEventQ it t t₁ h).1⟩
  · intro inps u₁ h
    obtain ⟨a, b⟩ := udpOut_Stop_netEventQ inps u u₁ h
    refine ⟨a, b, ?_, fun _ _ => rfl⟩
    intro hpc
    have := b (by rw [hpc]; decide)
    rw [this, hpc]
    simp [UdpOutPc.pending]
  · intro inps t₁ h
    obtain ⟨a, b⟩ := tcp_Stop_netEventQ inps t t₁ h
    refine ⟨a, b, ?_, fun _ _ _ => rfl⟩
    intro hpc
    rw [b, hpc]
    simp [TcpPc.pending]
  · exact fun inps w w₁ hw hpc h => ShutdownUdpOut_netEventQ inps w w₁ u hw hpc h
  · exact fun inps w w₁ hw h => ShutdownTcp_netEventQ inps w w₁ t hw h

/-- A UDP output transport and a TCP client inside a session whose `Connected` event
has not been flushed: after `Stop` the queue holds `Connected` and the final
`Disconnected`. -/
theorem Stop_keeps_netEventQ_witness :
    (udpOutQueued.m_NetEventQ = [.NET_EVENT_CONNECTED] ∧
      tcpQueued.m_NetEventQ = [.NET_EVENT_CONNECTED]) ∧
    (∃ t₁, tcpQueued.Stop (List.replicate 12 .connected) = some t₁ ∧
      t₁.m_NetEventQ = [.NET_EVENT_CONNECTED, .NET_EVENT_DISCONNECTED] ∧
      ∃ pushed, t₁.m_NetEventQ = tcpQueued.m_NetEventQ ++ pushed ∧
        netEventsOf t₁.history = netEventsOf tcpQueued.history ++ pushed) ∧
    (∀ inps u₁, udpOutQueued.Stop inps = some u₁ →
      u₁.m_NetEventQ = [.NET_EVENT_CONNECTED, .NET_EVENT_DISCONNECTED]) :=
  have h := Stop_keeps_netEventQ udpOutQueued tcpQueued
    (List.replicate 8 .good) (List.replicate 12 .connected) (by decide) (by decide)
  ⟨⟨by rfl, by rfl⟩, h.2.1, fun inps u₁ hS => (h.2.2.1 inps u₁ hS).2.1 (by decide)⟩

end StopEventsClaims

section Scratch

theorem recvSizes_append (h₁ h₂ : List Effect) :
    recvSizes (h₁ ++ h₂) = recvSizes h₁ ++ recvSizes h₂ := by
  induction h₁ with
  | nil => simp [recvSizes]
  | cons e h ih => cases e <;> simp [recvSizes, ih]

/-- The work on one datagram, with the scratch buffer as `memcpy` finds it. -/
theorem udpIn_datagram_eq (s : EosUdpInThread) (inp : UdpInInput) (bytes : Bytes)
    (len : Nat) :
    s.datagram inp bytes len =
      ({ (((inp.printed.foldl EosUdpInThread.OSCParserClient_Log
            { s with m_Prefix :=
                s.inPrefix inp.host }).scratchFor len))
          with scratch :=
            ((inp.printed.foldl EosUdpInThread.OSCParserClient_Log
              { s with m_Prefix :=
                  s.inPrefix inp.host }).scratchFor
                len).scratch.map (fun dst => memcpy dst bytes len) }.ProcessPacket
        (((inp.printed.foldl EosUdpInThread.OSCParserClient_Log
              { s with m_Prefix :=
                  s.inPrefix inp.host }).scratchFor
                len).scratch.map (fun dst => memcpy dst bytes len)) len).1 := rfl

/-- At the copy the buffer exists and is recorded as large enough. -/
theorem udpIn_scratchFor (s : EosUdpInThread) (len : Nat) :
    (s.scratchFor len).scratch.isSome = true ∧ len ≤ (s.scratchFor len).scratchSize ∧
    recvSizes (s.scratchFor len).history = recvSizes s.history ∧
    (s.scratchFor len).pc = s.pc ∧ (s.scratchFor len).m_Run = s.m_Run ∧
    ((s.scratch = none → s.scratchSize = 0) →
      (s.scratchFor len).scratchSize = max s.scratchSize len) ∧
    (s.capacityInv → (s.scratchFor len).capacityInv) := by
  unfold EosUdpInThread.scratchFor EosUdpInThread.capacityInv
  cases hs : s.scratch with
  | none =>
    simp [hs, newChar]
    intro h; rw [h]; simp
  | some b =>
    by_cases hlt : s.scratchSize < len
    · simp [hs, hlt, newChar, recvSizes_append, recvSizes]
      omega
    · simp [hs, hlt]
      omega

theorem memcpy_length (dst src : Bytes) (n : Nat) (h₁ : n ≤ src.length)
    (h₂ : n ≤ dst.length) : (memcpy dst src n).length = dst.length := by
  simp [memcpy, List.length_take, List.length_drop]
  omega

theorem udpIn_foldl_log_pc (l : List String) (s : EosUdpInThread) :
    (l.foldl EosUdpInThread.OSCParserClient_Log s).pc = s.pc := by
  induction l generalizing s with
  | nil => rfl
  | cons m l ih => simp [List.foldl_cons, ih, EosUdpInThread.OSCParserClient_Log]

/-- What the work on one datagram does to the scratch buffer and to the history. -/
theorem udpIn_datagram_scratch (s : EosUdpInThread) (inp : UdpInInput) (bytes : Bytes)
    (len : Nat) (hlen : 0 < len) :
    (s.datagram inp bytes len).scratch.isSome = true ∧
    len ≤ (s.datagram inp bytes len).scratchSize ∧
    recvSizes (s.datagram inp bytes len).history = recvSizes s.history ++ [len] ∧
    (s.datagram inp bytes len).pc = s.pc ∧
    ((s.scratch = none → s.scratchSize = 0) →
      (s.datagram inp bytes len).scratchSize = max s.scratchSize len) ∧
    (s.capacityInv → len ≤ bytes.length → (s.datagram inp bytes len).capacityInv) := by
  rw [udpIn_datagram_eq]
  have hl := udpIn_foldl_log inp.printed
    { s with m_Prefix := s.inPrefix inp.host }
  have hpc := udpIn_foldl_log_pc inp.printed
    { s with m_Prefix := s.inPrefix inp.host }
  generalize (inp.printed.foldl EosUdpInThread.OSCParserClient_Log
      { s with m_Prefix := s.inPrefix inp.host }) = s₁
    at hl hpc ⊢
  obtain ⟨l₁, _, _, l₄, l₅⟩ := hl
  have l₁ : s₁.history = s.history := l₁
  have l₄ : s₁.scratch = s.scratch := l₄
  have l₅ : s₁.scratchSize = s.scratchSize := l₅
  have hpc : s₁.pc = s.pc := hpc
  obtain ⟨a, b, c, d, e, f, g⟩ := udpIn_scratchFor s₁ len
  generalize s₁.scratchFor len = s₂ at a b c d e f g ⊢
  cases hb : s₂.scratch with
  | none => simp [hb] at a
  | some buf =>
    have hne : len ≠ 0 := by omega
    simp only [EosUdpInThread.ProcessPacket, EosUdpInThread.OSCHandlerClient_Recv,
      Option.map_some']
    rw [if_pos (by simpa using hne)]
    refine ⟨rfl, b, ?_, by rw [← hpc, ← d], ?_, ?_⟩
    · simp [recvSizes_append, recvSizes, c, l₁]
    · intro h
      have := f (by rw [l₄, l₅]; exact h)
      rw [l₅] at this
      exact this
    · intro hc hfit
      have hc₁ : s₁.capacityInv := by
        intro x hx; rw [l₅]; exact hc x (by rw [← l₄]; exact hx)
      have hc₂ := g hc₁ buf hb
      intro x hx
      simp only [Option.some.injEq] at hx
      subst hx
      show (memcpy buf bytes len).length = s₂.scratchSize
      rw [memcpy_length buf bytes len hfit (by omega), hc₂]

end Scratch

section ScratchRuns

/-- Once inside the receive loop the worker comes back to `Initialize` only with the
run flag set, and leaves the loop only with the run flag cleared. -/
theorem udpIn_runStep_loop (inp : UdpInInput) (s : EosUdpInThread)
    (h₁ : s.pc ≠ .start) (h₂ : s.pc ≠ .init) (h₃ : s.pc ≠ .sessionInit)
    (h₄ : s.pc ≠ .innerTest → s.pc ≠ .recv → s.pc ≠ .afterRecv → s.m_Run = false) :
    (EosUdpInThread.runStep inp s).pc ≠ .start ∧
    (EosUdpInThread.runStep inp s).pc ≠ .init ∧
    (EosUdpInThread.runStep inp s).pc ≠ .sessionInit ∧
    ((EosUdpInThread.runStep inp s).pc ≠ .innerTest →
      (EosUdpInThread.runStep inp s).pc ≠ .recv →
      (EosUdpInThread.runStep inp s).pc ≠ .afterRecv →
      (EosUdpInThread.runStep inp s).m_Run = false) := by
  unfold EosUdpInThread.runStep
  split <;> rename_i h <;> (try split) <;> (try split_ifs) <;>
    simp_all [EosUdpInThread.UpdateLog, udpIn_datagram_run]

/-- A step of the worker outside the work on a datagram leaves the scratch buffer and
the enqueued sizes as they are. -/
theorem udpIn_runStep_other (inp : UdpInInput) (s : EosUdpInThread)
    (h₃ : s.pc ≠ .sessionInit)
    (hr : s.pc = .recv → ∀ bytes, inp.data = some bytes → ¬ inp.len > 0) :
    (EosUdpInThread.runStep inp s).scratch = s.scratch ∧
    (EosUdpInThread.runStep inp s).scratchSize = s.scratchSize ∧
    recvSizes (EosUdpInThread.runStep inp s).history = recvSizes s.history := by
  unfold EosUdpInThread.runStep
  split <;> rename_i h <;> (try split) <;> (try split_ifs) <;>
    simp_all [EosUdpInThread.UpdateLog, recvSizes_append, recvSizes]

/-- The step of the worker that works on a datagram. -/
theorem udpIn_runStep_datagram (inp : UdpInInput) (s : EosUdpInThread) (bytes : Bytes)
    (hpc : s.pc = .recv) (hd : inp.data = some bytes) (hl : inp.len > 0) :
    EosUdpInThread.runStep inp s =
      { ({ s with m_PrivateLog := EosLog.AddLog s.m_PrivateLog inp.log }.datagram inp bytes
          inp.len.toNat) with pc := .afterRecv } := by
  unfold EosUdpInThread.runStep
  simp only [hpc, hd]
  rw [if_pos hl]

theorem udpIn_runStep_scratchInv (base : List Nat) (inp : UdpInInput) (s : EosUdpInThread)
    (h : s.scratchInv base) :
    (EosUdpInThread.runStep inp s).scratchInv base ∧
    s.scratchSize ≤ (EosUdpInThread.runStep inp s).scratchSize ∧
    (inp.fits → s.capacityInv → (EosUdpInThread.runStep inp s).capacityInv) := by
  obtain ⟨h₁, h₂, h₃, h₄, lens, h₅, h₆, h₇, h₈⟩ := h
  obtain ⟨a₁, a₂, a₃, a₄⟩ := udpIn_runStep_loop inp s h₁ h₂ h₃ h₄
  by_cases hd : s.pc = .recv ∧ ∃ bytes, inp.data = some bytes ∧ inp.len > 0
  · obtain ⟨hpc, bytes, hd, hl⟩ := hd
    have hpos : 0 < inp.len.toNat := by omega
    have hnone : s.scratch = none → s.scratchSize = 0 := by
      intro hn
      have : lens = [] := by
        by_contra hne
        have := h₇.mpr hne
        simp [hn] at this
      rw [h₆, this]; rfl
    obtain ⟨b₁, b₂, b₃, b₄, b₅, b₆⟩ := udpIn_datagram_scratch
      { s with m_PrivateLog := EosLog.AddLog s.m_PrivateLog inp.log } inp bytes
      inp.len.toNat hpos
    have hstep := udpIn_runStep_datagram inp s bytes hpc hd hl
    have hsz := b₅ hnone
    have hpos₂ : ∀ n ∈ lens ++ [inp.len.toNat], 0 < n := by
      intro n hn
      rcases List.mem_append.mp hn with hn | hn
      · exact h₈ n hn
      · rw [List.mem_singleton.mp hn]; exact hpos
    refine ⟨⟨a₁, a₂, a₃, a₄, lens ++ [inp.len.toNat], ?_, ?_, ?_, hpos₂⟩, ?_, ?_⟩
    · rw [hstep]
      show recvSizes (EosUdpInThread.datagram _ inp bytes inp.len.toNat).history = _
      rw [b₃]
      show recvSizes s.history ++ _ = _
      rw [h₅, List.append_assoc]
    · rw [hstep]
      show (EosUdpInThread.datagram _ inp bytes inp.len.toNat).scratchSize = _
      rw [hsz, List.foldl_append]
      show max s.scratchSize _ = _
      rw [h₆]; rfl
    · rw [hstep]
      show (EosUdpInThread.datagram _ inp bytes inp.len.toNat).scratch.isSome = true ↔ _
      simp [b₁]
    · rw [hstep]
      show s.scratchSize ≤ (EosUdpInThread.datagram _ inp bytes inp.len.toNat).scratchSize
      rw [hsz]
      exact Nat.le_max_left _ _
    · intro hfit hc
      rw [hstep]
      have hfit₁ : inp.len.toNat ≤ bytes.length := by
        have := hfit bytes hd
        omega
      exact b₆ hc hfit₁
  · have hr : s.pc = .recv → ∀ bytes, inp.data = some bytes → ¬ inp.len > 0 := by
      intro hpc bytes hb hl
      exact hd ⟨hpc, bytes, hb, hl⟩
    obtain ⟨c₁, c₂, c₃⟩ := udpIn_runStep_other inp s h₃ hr
    refine ⟨⟨a₁, a₂, a₃, a₄, lens, by rw [c₃, h₅], by rw [c₂, h₆], by rw [c₁, h₇], h₈⟩,
      by rw [c₂], ?_⟩
    intro _ hc b hb
    rw [c₂]
    exact hc b (by rw [← c₁]; exact hb)

theorem udpIn_act_scratchInv (base : List Nat) (a : UdpInAction) (s : EosUdpInThread)
    (h : s.scratchInv base) :
    (EosUdpInThread.act a s).scratchInv base ∧
    s.scratchSize ≤ (EosUdpInThread.act a s).scratchSize ∧
    ((∀ inp ∈ workerInputs [a], inp.fits) → s.capacityInv →
      (EosUdpInThread.act a s).capacityInv) := by
  cases a with
  | worker inp =>
    obtain ⟨a, b, c⟩ := udpIn_runStep_scratchInv base inp s h
    exact ⟨a, b, fun hf hc => c (hf inp (by simp [workerInputs])) hc⟩
  | flush logQ recvQ =>
    exact ⟨h, Nat.le_refl _, fun _ hc => hc⟩
  | stopRequest =>
    obtain ⟨h₁, h₂, h₃, h₄, h₅⟩ := h
    exact ⟨⟨h₁, h₂, h₃, fun _ _ _ => rfl, h₅⟩, Nat.le_refl _, fun _ hc => hc⟩

theorem workerInputs_cons (a : UdpInAction) (acts : List UdpInAction) :
    workerInputs (a :: acts) = workerInputs [a] ++ workerInputs acts := by
  cases a <;> simp [workerInputs]

theorem udpIn_exec_scratchInv (base : List Nat) (acts : List UdpInAction)
    (s : EosUdpInThread) (h : s.scratchInv base) :
    (EosUdpInThread.exec acts s).scratchInv base ∧
    s.scratchSize ≤ (EosUdpInThread.exec acts s).scratchSize ∧
    ((∀ inp ∈ workerInputs acts, inp.fits) → s.capacityInv →
      (EosUdpInThread.exec acts s).capacityInv) := by
  induction acts generalizing s with
  | nil => exact ⟨h, Nat.le_refl _, fun _ hc => hc⟩
  | cons a acts ih =>
    obtain ⟨a₁, a₂, a₃⟩ := udpIn_act_scratchInv base a s h
    obtain ⟨b₁, b₂, b₃⟩ := ih _ a₁
    refine ⟨b₁, Nat.le_trans a₂ b₂, ?_⟩
    intro hf hc
    rw [workerInputs_cons] at hf
    exact b₃ (fun inp hi => hf inp (List.mem_append_right _ hi))
      (a₃ (fun inp hi => hf inp (List.mem_append_left _ hi)) hc)

end ScratchRuns

section ScratchClaims

/-- The step of the worker that works on a datagram, seen from the call of `memcpy`. -/
theorem udpIn_runStep_copy (inp : UdpInInput) (s : EosUdpInThread) (bytes : Bytes)
    (hpc : s.pc = .recv) (hd : inp.data = some bytes) (hl : inp.len > 0) :
    EosUdpInThread.runStep inp s =
      { ({ s.atCopy inp inp.len.toNat with
            scratch := (s.atCopy inp inp.len.toNat).scratch.map
              (fun dst => memcpy dst bytes inp.len.toNat) }.ProcessPacket
          ((s.atCopy inp inp.len.toNat).scratch.map
            (fun dst => memcpy dst bytes inp.len.toNat)) inp.len.toNat).1
        with pc := .afterRecv } := by
  rw [udpIn_runStep_datagram inp s bytes hpc hd hl, udpIn_datagram_eq]
  rfl

theorem udpIn_atCopy (inp : UdpInInput) (s : EosUdpInThread) (len : Nat) :
    (s.atCopy inp len).scratch.isSome = true ∧ len ≤ (s.atCopy inp len).scratchSize ∧
    (s.capacityInv → (s.atCopy inp len).capacityInv) := by
  obtain ⟨a, b, _, _, _, _, g⟩ := udpIn_scratchFor
    (inp.printed.foldl EosUdpInThread.OSCParserClient_Log
      { s with m_PrivateLog := EosLog.AddLog s.m_PrivateLog inp.log,
               m_Prefix := s.inPrefix inp.host }) len
  refine ⟨a, b, fun hc => g ?_⟩
  have hl := udpIn_foldl_log inp.printed
    { s with m_PrivateLog := EosLog.AddLog s.m_PrivateLog inp.log,
             m_Prefix := s.inPrefix inp.host }
  intro x hx
  rw [hl.2.2.2.2]
  exact hc x (by rw [← hl.2.2.2.1]; exact hx)

/-- C24: the copy of a datagram into the scratch buffer of the UDP input worker never
overflows the buffer. Take the worker at the set-up of a session (269-275) and any run
from there: worker steps with arbitrary inputs, `Flush` calls and a stop request in any
order. The set-up leaves no buffer and capacity 0. After the run, with `lens` the
lengths of the datagrams the worker has worked on since (each is > 0), `scratchSize` is
the largest of `lens`, a buffer exists exactly when `lens` is not empty, no further
action makes `scratchSize` smaller, and, when every buffer `RecvPacket` returned held
at least `len` bytes, the buffer has exactly `scratchSize` bytes. When the worker then
gets a datagram `(data, len)` with `len > 0`, at the call of `memcpy` the buffer is
non-null, `scratchSize` is at least `len`, and (under the same condition) the buffer
has `scratchSize` bytes; the step is that copy followed by `ProcessPacket`. -/
theorem udpIn_scratch_no_overflow (s₀ : EosUdpInThread) (inp₀ : UdpInInput)
    (acts : List UdpInAction) (hpc : s₀.pc = .sessionInit) :
    ((EosUdpInThread.runStep inp₀ s₀).scratch = none ∧
      (EosUdpInThread.runStep inp₀ s₀).scratchSize = 0 ∧
      (EosUdpInThread.runStep inp₀ s₀).pc = .innerTest) ∧
    (∃ lens,
      recvSizes (EosUdpInThread.exec acts (EosUdpInThread.runStep inp₀ s₀)).history =
        recvSizes s₀.history ++ lens ∧
      (∀ n ∈ lens, 0 < n) ∧
      (EosUdpInThread.exec acts (EosUdpInThread.runStep inp₀ s₀)).scratchSize =
        lens.foldl max 0 ∧
      ((EosUdpInThread.exec acts (EosUdpInThread.runStep inp₀ s₀)).scratch.isSome = true ↔
        lens ≠ [])) ∧
    (∀ a, (EosUdpInThread.exec acts (EosUdpInThread.runStep inp₀ s₀)).scratchSize ≤
      (EosUdpInThread.act a
        (EosUdpInThread.exec acts (EosUdpInThread.runStep inp₀ s₀))).scratchSize) ∧
    ((∀ inp ∈ workerInputs acts, inp.fits) →
      (EosUdpInThread.exec acts (EosUdpInThread.runStep inp₀ s₀)).capacityInv) ∧
    (∀ (inp : UdpInInput) (bytes : Bytes),
      (EosUdpInThread.exec acts (EosUdpInThread.runStep inp₀ s₀)).pc = .recv →
      inp.data = some bytes → inp.len > 0 →
      ∃ buf,
        ((EosUdpInThread.exec acts (EosUdpInThread.runStep inp₀ s₀)).atCopy inp
          inp.len.toNat).scratch = some buf ∧
        inp.len.toNat ≤
          ((EosUdpInThread.exec acts (EosUdpInThread.runStep inp₀ s₀)).atCopy inp
            inp.len.toNat).scratchSize ∧
        ((∀ i ∈ workerInputs acts, i.fits) →
          buf.length =
            ((EosUdpInThread.exec acts (EosUdpInThread.runStep inp₀ s₀)).atCopy inp
              inp.len.toNat).scratchSize) ∧
        EosUdpInThread.runStep inp
            (EosUdpInThread.exec acts (EosUdpInThread.runStep inp₀ s₀)) =
          { ({ (EosUdpInThread.exec acts (EosUdpInThread.runStep inp₀ s₀)).atCopy inp
                  inp.len.toNat with
                scratch := some (memcpy buf bytes inp.len.toNat) }.ProcessPacket
              (some (memcpy buf bytes inp.len.toNat)) inp.len.toNat).1
            with pc := .afterRecv }) := by
  have hs₁ : EosUdpInThread.runStep inp₀ s₀ =
      { s₀ with scratch := none, scratchSize := 0, pc := .innerTest } := by
    unfold EosUdpInThread.runStep
    simp only [hpc]
  have hinv : (EosUdpInThread.runStep inp₀ s₀).scratchInv (recvSizes s₀.history) := by
    rw [hs₁]
    exact ⟨by simp, by simp, by simp, by simp, [], by simp, rfl, by simp, by simp⟩
  have hcap : (EosUdpInThread.runStep inp₀ s₀).capacityInv := by
    rw [hs₁]; intro b hb; cases hb
  obtain ⟨⟨_, _, _, _, lens, e₁, e₂, e₃, e₄⟩, _, hc⟩ :=
    udpIn_exec_scratchInv (recvSizes s₀.history) acts _ hinv
  have hinv₂ := (udpIn_exec_scratchInv (recvSizes s₀.history) acts _ hinv).1
  refine ⟨by rw [hs₁]; exact ⟨rfl, rfl, rfl⟩, ⟨lens, e₁, e₄, e₂, e₃⟩, ?_,
    fun hf => hc hf hcap, ?_⟩
  · intro a
    exact (udpIn_act_scratchInv (recvSizes s₀.history) a _ hinv₂).2.1
  · intro inp bytes hr hd hl
    obtain ⟨a, b, c⟩ := udpIn_atCopy inp
      (EosUdpInThread.exec acts (EosUdpInThread.runStep inp₀ s₀)) inp.len.toNat
    cases hb : ((EosUdpInThread.exec acts (EosUdpInThread.runStep inp₀ s₀)).atCopy inp
        inp.len.toNat).scratch with
    | none => simp [hb] at a
    | some buf =>
      refine ⟨buf, rfl, b, fun hf => c (hc hf hcap) buf hb, ?_⟩
      rw [udpIn_runStep_copy inp _ bytes hr hd hl, hb]
      rfl

/-- A session of the UDP input worker with datagrams of 2, 3 and 1 bytes: the recorded
capacity is 3 afterwards, and no further action makes it smaller. -/
theorem udpIn_scratch_no_overflow_witness :
    udpInAtSession.pc = .sessionInit ∧
    recvSizes (EosUdpInThread.exec udpInRunDatagrams
      (EosUdpInThread.runStep .good udpInAtSession)).history = [2, 3, 1] ∧
    (EosUdpInThread.exec udpInRunDatagrams
      (EosUdpInThread.runStep .good udpInAtSession)).scratchSize = 3 ∧
    (EosUdpInThread.exec udpInRunDatagrams
      (EosUdpInThread.runStep .good udpInAtSession)).scratch = some [47, 2, 3] ∧
    (∀ a, (EosUdpInThread.exec udpInRunDatagrams
        (EosUdpInThread.runStep .good udpInAtSession)).scratchSize ≤
      (EosUdpInThread.act a (EosUdpInThread.exec udpInRunDatagrams
        (EosUdpInThread.runStep .good udpInAtSession))).scratchSize) :=
  ⟨by decide, by decide, by decide, by decide,
    (udpIn_scratch_no_overflow udpInAtSession .good udpInRunDatagrams (by decide)).2.2.1⟩

end ScratchClaims

section ToyClientSend

variable {F : OSCStream}

/-- C25: `MainWindow::ToyClient_Send` returns true exactly when the buffer is non-null,
the size is not 0, and the message is local or a sending transport exists (UDP output
or TCP client); so with a valid non-local buffer and no transport, and with a null or
empty buffer, it returns false. A local message goes to `m_Toys->Recv` and to no
transport. When the UDP output transport exists, a valid non-local packet is appended
to its queue and the TCP client is left as it is; the TCP client gets the packet only
when there is no UDP output transport. -/
theorem ToyClient_Send_result (w : MainWindow F) (isLocal : Bool) (buf : Option Bytes)
    (size : Nat) :
    ((w.ToyClient_Send isLocal buf size).2 = true ↔
      (buf.isSome = true ∧ size ≠ 0 ∧
        (isLocal = true ∨ w.m_UdpOutThread.isSome = true ∨
          w.m_TcpClientThread.isSome = true))) ∧
    (buf.isSome = true → size ≠ 0 → isLocal = false → w.m_UdpOutThread = none →
      w.m_TcpClientThread = none → w.ToyClient_Send isLocal buf size = (w, false)) ∧
    (buf = none ∨ size = 0 → w.ToyClient_Send isLocal buf size = (w, false)) ∧
    (buf.isSome = true → size ≠ 0 → isLocal = true →
      w.ToyClient_Send isLocal buf size =
        ({ w with toys := w.toys ++ [.Recv buf size] }, true)) ∧
    (∀ u, w.m_UdpOutThread = some u →
      (w.ToyClient_Send isLocal buf size).1.m_TcpClientThread = w.m_TcpClientThread ∧
      (buf.isSome = true → size ≠ 0 → isLocal = false →
        w.ToyClient_Send isLocal buf size =
          ({ w with
              m_UdpOutThread := some { u with m_Q := u.m_Q ++ [⟨buf, size⟩] } }, true))) ∧
    (∀ t, w.m_UdpOutThread = none → w.m_TcpClientThread = some t →
      buf.isSome = true → size ≠ 0 → isLocal = false →
      w.ToyClient_Send isLocal buf size =
        ({ w with
            m_TcpClientThread := some { t with m_SendQ := t.m_SendQ ++ [⟨buf, size⟩] } },
          true)) := by
  refine ⟨?_, ?_, ?_, ?_, ?_, ?_⟩
  · unfold MainWindow.ToyClient_Send
    by_cases hv : (buf.isSome && size != 0) = true
    · have hv₂ : buf.isSome = true ∧ size ≠ 0 := by simpa using hv
      rw [if_pos hv]
      cases isLocal with
      | true => simp [hv₂]
      | false =>
        cases hu : w.m_UdpOutThread with
        | some u => simp [EosUdpOutThread.Send, hv, hv₂]
        | none =>
          cases ht : w.m_TcpClientThread with
          | some t => simp [EosTcpClientThread.Send, hv, hv₂]
          | none => simp
    · rw [if_neg hv]
      have : ¬ (buf.isSome = true ∧ size ≠ 0) := by simpa using hv
      simp only [Bool.false_eq_true, false_iff]
      exact fun h => this ⟨h.1, h.2.1⟩
  · intro h₁ h₂ h₃ h₄ h₅
    simp [MainWindow.ToyClient_Send, h₁, h₂, h₃, h₄, h₅]
  · intro h
    unfold MainWindow.ToyClient_Send
    rw [if_neg]
    rcases h with h | h <;> simp [h]
  · intro h₁ h₂ h₃
    simp [MainWindow.ToyClient_Send, h₁, h₂, h₃]
  · intro u hu
    constructor
    · unfold MainWindow.ToyClient_Send
      simp only [hu]
      split_ifs <;> rfl
    · intro h₁ h₂ h₃
      simp [MainWindow.ToyClient_Send, h₁, h₂, h₃, hu, EosUdpOutThread.Send]
  · intro t hu ht h₁ h₂ h₃
    simp [MainWindow.ToyClient_Send, h₁, h₂, h₃, hu, ht, EosTcpClientThread.Send]

end ToyClientSend

section SettingsMode

/-- The integers in `[0, FRAME_MODE_COUNT)` are the frame modes. -/
theorem frameMode_of_range (n : Int) (h₀ : 0 ≤ n) (h₁ : n < FRAME_MODE_COUNT) :
    ∃ m : EnumFrameMode, m.toInt = n := by
  unfold FRAME_MODE_COUNT at h₁
  have h : n = 0 ∨ n = 1 ∨ n = 2 := by omega
  rcases h with h | h | h
  · exact ⟨.FRAME_MODE_INVALID, by rw [h]; rfl⟩
  · exact ⟨.FRAME_MODE_1_0, by rw [h]; rfl⟩
  · exact ⟨.FRAME_MODE_1_1, by rw [h]; rfl⟩

/-- The mode `LoadSettings` hands to `SetMode` for the integer `n` of the first item. -/
theorem loadedMode_range (n : Int) :
    0 ≤ (if n < 0 ∨ n ≥ FRAME_MODE_COUNT then EnumFrameMode.FRAME_MODE_INVALID.toInt else n) ∧
    (if n < 0 ∨ n ≥ FRAME_MODE_COUNT then EnumFrameMode.FRAME_MODE_INVALID.toInt else n) <
      FRAME_MODE_COUNT := by
  unfold FRAME_MODE_COUNT EnumFrameMode.toInt
  split_ifs with h
  · simp
  · simp only [not_or, not_lt, ge_iff_le, not_le] at h
    omega

/-- The calls of `LoadSettings` on a line that is there: `SetMode` first when the line
has an item, and no other `SetMode`. -/
theorem LoadSettings_calls (q : QtText) (frames top : Bool) (lines : List String)
    (index : Int) (h₀ : 0 ≤ index) (h₁ : index < lines.length) :
    ∃ rest, (∀ n, SettingsCall.SetMode n ∉ rest) ∧
      (MainWindow.LoadSettings q frames top lines index).1 =
        (if (q.GetItemsFromQuotedString (lines.getD index.toNat "")).length > 0 then
          [SettingsCall.SetMode
            (if q.toInt ((q.GetItemsFromQuotedString (lines.getD index.toNat "")).getD 0 "") < 0 ∨
                q.toInt ((q.GetItemsFromQuotedString (lines.getD index.toNat "")).getD 0 "") ≥
                  FRAME_MODE_COUNT
             then EnumFrameMode.FRAME_MODE_INVALID.toInt
             else q.toInt ((q.GetItemsFromQuotedString (lines.getD index.toNat "")).getD 0 ""))]
         else []) ++ rest := by
  unfold MainWindow.LoadSettings
  rw [if_pos ⟨h₀, h₁⟩]
  simp only [List.append_assoc]
  refine ⟨_, ?_, rfl⟩
  intro n hn
  simp only [List.mem_append] at hn
  rcases hn with hn | hn | hn | hn | hn | hn <;> split_ifs at hn <;> simp at hn

end SettingsMode

section SettingsModeClaims

/-- C26: the frame mode read from a settings line is always a valid frame mode. When
`LoadSettings` finds the line and the line has an item, its first call is `SetMode`
with the integer `n` of the first item when `0 <= n < FRAME_MODE_COUNT` and with
`FRAME_MODE_INVALID` otherwise, and it makes no other `SetMode` call; whatever the
line, every mode it passes to `SetMode` lies in `[0, FRAME_MODE_COUNT)` and is one of
the frame modes. `SettingsPanel::GetMode` returns the integer stored with the current
item of the combo box when that is in `[0, FRAME_MODE_COUNT)` and `FRAME_MODE_INVALID`
in every other case, so its result is always in `[0, FRAME_MODE_COUNT)` and one of the
frame modes. -/
theorem LoadSettings_mode_valid (q : QtText) (frames top : Bool) (lines : List String)
    (index : Int) (m_Mode : QComboBox) :
    (∀ n, SettingsCall.SetMode n ∈ (MainWindow.LoadSettings q frames top lines index).1 →
      0 ≤ n ∧ n < FRAME_MODE_COUNT ∧ ∃ m : EnumFrameMode, m.toInt = n) ∧
    (0 ≤ index → index < lines.length →
      0 < (q.GetItemsFromQuotedString (lines.getD index.toNat "")).length →
      ∃ rest, (∀ n, SettingsCall.SetMode n ∉ rest) ∧
        (MainWindow.LoadSettings q frames top lines index).1 =
          SettingsCall.SetMode
            (if 0 ≤ q.toInt ((q.GetItemsFromQuotedString (lines.getD index.toNat "")).getD 0 "") ∧
                q.toInt ((q.GetItemsFromQuotedString (lines.getD index.toNat "")).getD 0 "") <
                  FRAME_MODE_COUNT
             then q.toInt ((q.GetItemsFromQuotedString (lines.getD index.toNat "")).getD 0 "")
             else EnumFrameMode.FRAME_MODE_INVALID.toInt) :: rest) ∧
    (0 ≤ SettingsPanel_GetMode m_Mode ∧ SettingsPanel_GetMode m_Mode < FRAME_MODE_COUNT ∧
      ∃ m : EnumFrameMode, m.toInt = SettingsPanel_GetMode m_Mode) ∧
    (∀ n, 0 ≤ m_Mode.currentIndex → m_Mode.itemData m_Mode.currentIndex = some n →
      SettingsPanel_GetMode m_Mode =
        if 0 ≤ n ∧ n < FRAME_MODE_COUNT then n else EnumFrameMode.FRAME_MODE_INVALID.toInt) ∧
    (m_Mode.currentIndex < 0 ∨ m_Mode.itemData m_Mode.currentIndex = none →
      SettingsPanel_GetMode m_Mode = EnumFrameMode.FRAME_MODE_INVALID.toInt) := by
  refine ⟨?_, ?_, ?_, ?_, ?_⟩
  · intro n hn
    by_cases hl : 0 ≤ index ∧ index < lines.length
    · obtain ⟨rest, hr, he⟩ := LoadSettings_calls q frames top lines index hl.1 hl.2
      rw [he] at hn
      rcases List.mem_append.mp hn with hn | hn
      · by_cases hi : (q.GetItemsFromQuotedString (lines.getD index.toNat "")).length > 0
        · rw [if_pos hi, List.mem_singleton] at hn
          have hrange := loadedMode_range
            (q.toInt ((q.GetItemsFromQuotedString (lines.getD index.toNat "")).getD 0 ""))
          rw [← SettingsCall.SetMode.inj hn] at hrange
          exact ⟨hrange.1, hrange.2, frameMode_of_range n hrange.1 hrange.2⟩
        · rw [if_neg hi] at hn
          simp at hn
      · exact absurd hn (hr n)
    · unfold MainWindow.LoadSettings at hn
      rw [if_neg hl] at hn
      simp at hn
  · intro h₀ h₁ hi
    obtain ⟨rest, hr, he⟩ := LoadSettings_calls q frames top lines index h₀ h₁
    refine ⟨rest, hr, ?_⟩
    rw [he, if_pos hi]
    simp only [List.singleton_append, List.cons.injEq, SettingsCall.SetMode.injEq, and_true]
    by_cases hc : 0 ≤ q.toInt ((q.GetItemsFromQuotedString (lines.getD index.toNat "")).getD 0 "") ∧
        q.toInt ((q.GetItemsFromQuotedString (lines.getD index.toNat "")).getD 0 "") <
          FRAME_MODE_COUNT
    · rw [if_pos hc, if_neg (by omega)]
    · rw [if_neg hc, if_pos (by omega)]
  · have hrange : 0 ≤ SettingsPanel_GetMode m_Mode ∧
        SettingsPanel_GetMode m_Mode < FRAME_MODE_COUNT := by
      unfold SettingsPanel_GetMode
      dsimp only
      split_ifs with h₁
      · split
        · split_ifs with h₂
          · exact h₂
          · decide
        · decide
      · decide
    exact ⟨hrange.1, hrange.2, frameMode_of_range _ hrange.1 hrange.2⟩
  · intro n h₀ hd
    unfold SettingsPanel_GetMode
    dsimp only
    rw [if_pos h₀, hd]
  · intro h
    unfold SettingsPanel_GetMode
    dsimp only
    rcases h with h | h
    · rw [if_neg (by omega)]
    · split_ifs
      · rw [h]
      · rfl

end SettingsModeClaims

section GridLayout

/-- The loop of `UpdateLayoutForRect`, entered at column `col` of a row at height `y`:
the widget `j` places further on gets column `(col + j) mod W` of row `(col + j) div W`
counted from there. -/
theorem layoutLoop_get (W x₀ w h : Int) (hW : 0 < W) (l : List ToyWidget) (y col : Int)
    (hc : 0 ≤ col) (hc₂ : col < W) (j : Nat) :
    (ToyGrid.layoutLoop W x₀ w h l (x₀ + col * w) y col)[j]? =
      (l[j]?).map (fun widget =>
        { widget with geometry :=
            ⟨x₀ + ((col + j) % W) * w, y + ((col + j) / W) * h, w, h⟩ }) := by
  induction l generalizing y col j with
  | nil => simp [ToyGrid.layoutLoop]
  | cons widget rest ih =>
    unfold ToyGrid.layoutLoop
    cases j with
    | zero =>
      have h₁ : col % W = col := Int.emod_eq_of_lt hc hc₂
      have h₂ : col / W = 0 := Int.ediv_eq_zero_of_lt hc hc₂
      simp [h₁, h₂]
    | succ j =>
      simp only [List.getElem?_cons_succ]
      by_cases hlast : col + 1 ≥ W
      · rw [if_pos hlast]
        have hcol : col + 1 = W := by omega
        have := ih (y + h) 0 (le_refl 0) hW j
        simp only [zero_mul, add_zero, zero_add] at this
        rw [this]
        have e : col + ((j + 1 : Nat) : Int) = (j : Int) + W * 1 := by push_cast; omega
        have h₁ : (col + ((j + 1 : Nat) : Int)) % W = (j : Int) % W := by
          rw [e, Int.add_mul_emod_self_left]
        have h₂ : (col + ((j + 1 : Nat) : Int)) / W = (j : Int) / W + 1 := by
          rw [e, Int.add_mul_ediv_left _ _ (by omega)]
        rw [h₁, h₂]
        congr 1
        funext widget
        congr 2
        ring
      · rw [if_neg hlast]
        have hx : x₀ + col * w + w = x₀ + (col + 1) * w := by ring
        rw [hx, ih y (col + 1) (by omega) (by omega) j]
        have e : col + 1 + (j : Int) = col + ((j + 1 : Nat) : Int) := by push_cast; ring
        rw [e]

theorem layoutLoop_length (W x₀ w h : Int) (l : List ToyWidget) (x y col : Int) :
    (ToyGrid.layoutLoop W x₀ w h l x y col).length = l.length := by
  induction l generalizing x y col with
  | nil => rfl
  | cons widget rest ih =>
    unfold ToyGrid.layoutLoop
    split_ifs <;> simp [ih]

end GridLayout

section GridLayoutClaims

/-- C29: `ToyGrid::UpdateLayoutForRect` lays the widgets out row-major in equal cells.
For a grid of `W > 0` columns and `H > 0` rows, a rectangle `r` and margins
`(l, t, rt, b)`, with `cw = (r.width - l - rt) / W` and `ch = (r.height - t - b) / H`
by the (truncating) division of `int`, the call changes nothing but the geometries of
the widgets, and for every `i` the `i`-th widget of the list gets the geometry
`(r.x + l + (i mod W) * cw, r.y + t + (i div W) * ch, cw, ch)`. When the rectangle is
at least as large as the margins, the truncating division is the usual one. -/
theorem UpdateLayoutForRect_cells (g : ToyGrid) (r : QRect)
    (hW : 0 < g.m_GridSize.width) (hH : 0 < g.m_GridSize.height) (i : Nat) :
    (g.UpdateLayoutForRect r).m_List[i]? =
      (g.m_List[i]?).map (fun widget =>
        { widget with geometry :=
            ⟨r.x + g.contentsMargins.left + ((i : Int) % g.m_GridSize.width) *
                (r.width - g.contentsMargins.left - g.contentsMargins.right).tdiv
                  g.m_GridSize.width,
              r.y + g.contentsMargins.top + ((i : Int) / g.m_GridSize.width) *
                (r.height - g.contentsMargins.top - g.contentsMargins.bottom).tdiv
                  g.m_GridSize.height,
              (r.width - g.contentsMargins.left - g.contentsMargins.right).tdiv
                g.m_GridSize.width,
              (r.height - g.contentsMargins.top - g.contentsMargins.bottom).tdiv
                g.m_GridSize.height⟩ }) ∧
    (g.UpdateLayoutForRect r).m_List.length = g.m_List.length ∧
    { g.UpdateLayoutForRect r with m_List := g.m_List } = g ∧
    (g.contentsMargins.left + g.contentsMargins.right ≤ r.width →
      (r.width - g.contentsMargins.left - g.contentsMargins.right).tdiv g.m_GridSize.width =
        (r.width - g.contentsMargins.left - g.contentsMargins.right) / g.m_GridSize.width) ∧
    (g.contentsMargins.top + g.contentsMargins.bottom ≤ r.height →
      (r.height - g.contentsMargins.top - g.contentsMargins.bottom).tdiv g.m_GridSize.height =
        (r.height - g.contentsMargins.top - g.contentsMargins.bottom) /
          g.m_GridSize.height) := by
  have hne : g.m_GridSize.isEmpty = false := by
    simp [QSize.isEmpty, hW, hH]
  have hstep : (g.UpdateLayoutForRect r).m_List =
      ToyGrid.layoutLoop g.m_GridSize.width (r.x + g.contentsMargins.left)
        ((r.width - g.contentsMargins.left - g.contentsMargins.right).tdiv
          g.m_GridSize.width)
        ((r.height - g.contentsMargins.top - g.contentsMargins.bottom).tdiv
          g.m_GridSize.height)
        g.m_List (r.x + g.contentsMargins.left) (r.y + g.contentsMargins.top) 0 := by
    unfold ToyGrid.UpdateLayoutForRect
    simp [hne]
  have hrest : { g.UpdateLayoutForRect r with m_List := g.m_List } = g := by
    unfold ToyGrid.UpdateLayoutForRect
    simp [hne]
  refine ⟨?_, ?_, hrest, ?_, ?_⟩
  · rw [hstep]
    have := layoutLoop_get g.m_GridSize.width (r.x + g.contentsMargins.left)
      ((r.width - g.contentsMargins.left - g.contentsMargins.right).tdiv g.m_GridSize.width)
      ((r.height - g.contentsMargins.top - g.contentsMargins.bottom).tdiv
        g.m_GridSize.height) hW g.m_List (r.y + g.contentsMargins.top) 0 (le_refl 0) hW i
    simp only [zero_mul, add_zero, zero_add] at this
    exact this
  · rw [hstep]
    exact layoutLoop_length _ _ _ _ _ _ _ _
  · intro h
    exact Int.tdiv_eq_ediv (by omega) (by omega)
  · intro h
    exact Int.tdiv_eq_ediv (by omega) (by omega)

/-- A grid of 3 columns and 2 rows in the rectangle `(10, 20, 304, 108)` with margins
`(2, 4, 2, 4)`: the cells are 100 by 50, and the fifth widget (index 4) is placed in
column 1 of row 1. -/
theorem UpdateLayoutForRect_cells_witness :
    ((gridThreeByTwo.UpdateLayoutForRect ⟨10, 20, 304, 108⟩).m_List.map
        (fun widget => widget.geometry) =
      [⟨12, 24, 100, 50⟩, ⟨112, 24, 100, 50⟩, ⟨212, 24, 100, 50⟩,
       ⟨12, 74, 100, 50⟩, ⟨112, 74, 100, 50⟩, ⟨212, 74, 100, 50⟩]) ∧
    (gridThreeByTwo.UpdateLayoutForRect ⟨10, 20, 304, 108⟩).m_List[4]? =
      some { (default : ToyWidget) with geometry := ⟨112, 74, 100, 50⟩ } :=
  ⟨by decide,
    (UpdateLayoutForRect_cells gridThreeByTwo ⟨10, 20, 304, 108⟩ (by decide) (by decide) 4).1⟩

end GridLayoutClaims

section GridSize

theorem removeExcess_list (n fuel : Nat) (g : ToyGrid) (h : g.m_List.length ≤ n + fuel) :
    (ToyGrid.removeExcess n fuel g).m_List = g.m_List.take n ∧
    (ToyGrid.removeExcess n fuel g).m_GridSize = g.m_GridSize ∧
    (ToyGrid.removeExcess n fuel g).m_Loading = g.m_Loading ∧
    (ToyGrid.removeExcess n fuel g).m_Mode = g.m_Mode := by
  induction fuel generalizing g with
  | zero =>
    have hl : g.m_List.length ≤ n := by omega
    exact ⟨(List.take_of_length_le hl).symm, rfl, rfl, rfl⟩
  | succ fuel ih =>
    unfold ToyGrid.removeExcess
    by_cases hgt : g.m_List.length > n
    · rw [if_pos hgt]
      obtain ⟨a, b, c, d⟩ := ih
        { g with deleted := g.deleted ++ (g.m_List.drop (g.m_List.length - 1)),
                 m_List := g.m_List.dropLast }
        (by simp only [List.length_dropLast]; omega)
      refine ⟨?_, b, c, d⟩
      rw [a]
      show g.m_List.dropLast.take n = g.m_List.take n
      rw [List.dropLast_eq_take, List.take_take]
      congr 1
      omega
    · rw [if_neg hgt]
      exact ⟨(List.take_of_length_le (by omega)).symm, rfl, rfl, rfl⟩

theorem addNew_list (env : ToyGridEnv) (n fuel : Nat) (g : ToyGrid) :
    (∃ added, (ToyGrid.addNew env n fuel g).m_List = g.m_List ++ added) ∧
    (ToyGrid.addNew env n fuel g).m_GridSize = g.m_GridSize ∧
    (ToyGrid.addNew env n fuel g).m_Loading = g.m_Loading ∧
    (ToyGrid.addNew env n fuel g).m_Mode = g.m_Mode ∧
    ((∀ k, (env.CreateWidget k).isSome = true) → n ≤ g.m_List.length + fuel →
      g.m_List.length ≤ n → (ToyGrid.addNew env n fuel g).m_List.length = n) := by
  induction fuel generalizing g with
  | zero =>
    exact ⟨⟨[], by simp [ToyGrid.addNew]⟩, rfl, rfl, rfl,
      fun _ h₁ h₂ => by simp only [ToyGrid.addNew]; omega⟩
  | succ fuel ih =>
    unfold ToyGrid.addNew
    by_cases hlt : g.m_List.length < n
    · rw [if_pos hlt]
      cases hc : env.CreateWidget g.m_List.length with
      | none =>
        refine ⟨⟨[], by simp⟩, rfl, rfl, rfl, fun hs _ _ => ?_⟩
        have := hs g.m_List.length
        simp [hc] at this
      | some widget =>
        dsimp only
        generalize (if (!g.m_Loading) = true then
            { ({ ToyGrid.ApplyDefaultSettings env widget (g.m_List.length + 1) with
                  mode := g.m_Mode } : ToyWidget) with shown := true }
          else ({ ToyGrid.ApplyDefaultSettings env widget (g.m_List.length + 1) with
                  mode := g.m_Mode } : ToyWidget)) = made
        obtain ⟨⟨added, a⟩, b, c, d, e⟩ := ih { g with m_List := g.m_List ++ [made] }
        refine ⟨⟨made :: added, by rw [a]; simp⟩, b, c, d, ?_⟩
        intro hs h₁ h₂
        exact e hs (by simp only [List.length_append, List.length_singleton]; omega)
          (by simp only [List.length_append, List.length_singleton]; omega)
    · rw [if_neg hlt]
      exact ⟨⟨[], by simp⟩, rfl, rfl, rfl, fun _ _ h₂ => by omega⟩

theorem castSize_mulInt (w h : Int) (hw : 1 ≤ w) (hh : 1 ≤ h) (hfit : w * h < 2 ^ 31) :
    castSize (mulInt w h) = (w * h).toNat := by
  have hpos : 0 < w * h := Int.mul_pos (by omega) (by omega)
  have h₁ : (w * h) % 2 ^ 32 = w * h := Int.emod_eq_of_lt (by omega) (by omega)
  have h₂ : mulInt w h = w * h := by
    unfold mulInt
    simp only [h₁]
    rw [if_pos hfit]
  rw [h₂]
  unfold castSize
  rw [Int.emod_eq_of_lt (by omega) (by omega)]

end GridSize

section GridSizeSteps

theorem layoutLoop_unplaced (W x₀ w h : Int) (l : List ToyWidget) (x y col : Int) :
    (ToyGrid.layoutLoop W x₀ w h l x y col).map ToyWidget.unplaced =
      l.map ToyWidget.unplaced := by
  induction l generalizing x y col with
  | nil => rfl
  | cons widget rest ih =>
    unfold ToyGrid.layoutLoop
    split_ifs <;> simp [ih, ToyWidget.unplaced]

theorem UpdateLayout_list (g : ToyGrid) :
    g.UpdateLayout.m_List.map ToyWidget.unplaced = g.m_List.map ToyWidget.unplaced ∧
    g.UpdateLayout.m_List.length = g.m_List.length ∧
    g.UpdateLayout.m_GridSize = g.m_GridSize := by
  unfold ToyGrid.UpdateLayout ToyGrid.UpdateLayoutForRect
  split_ifs
  · exact ⟨layoutLoop_unplaced _ _ _ _ _ _ _ _, layoutLoop_length _ _ _ _ _ _ _ _, rfl⟩
  · exact ⟨rfl, rfl, rfl⟩

/-- The size `SetGridSize` works with: each side at least 1. -/
theorem SetGridSize_clamp (gridSize : QSize) :
    (if (if gridSize.width < 1 then { gridSize with width := 1 } else gridSize).height < 1
      then { (if gridSize.width < 1 then { gridSize with width := 1 } else gridSize) with
              height := 1 }
      else (if gridSize.width < 1 then { gridSize with width := 1 } else gridSize)) =
      (⟨max 1 gridSize.width, max 1 gridSize.height⟩ : QSize) := by
  obtain ⟨w, h⟩ := gridSize
  by_cases hw : w < 1 <;> by_cases hh : h < 1 <;> simp [hw, hh] <;> omega

theorem resizeList_list (env : ToyGridEnv) (n : Nat) (g : ToyGrid) :
    (∃ added, (ToyGrid.resizeList env n g).m_List = g.m_List.take n ++ added) ∧
    (ToyGrid.resizeList env n g).m_GridSize = g.m_GridSize ∧
    (ToyGrid.resizeList env n g).m_Loading = g.m_Loading ∧
    ((∀ k, (env.CreateWidget k).isSome = true) →
      (ToyGrid.resizeList env n g).m_List.length = n) := by
  unfold ToyGrid.resizeList
  obtain ⟨a, b, c, _⟩ := removeExcess_list n g.m_List.length g (Nat.le_add_left _ _)
  obtain ⟨⟨added, a₂⟩, b₂, c₂, _, e₂⟩ := addNew_list env n
    (n - (ToyGrid.removeExcess n g.m_List.length g).m_List.length)
    (ToyGrid.removeExcess n g.m_List.length g)
  refine ⟨⟨added, by rw [a₂, a]⟩, by rw [b₂, b], by rw [c₂, c], fun hs => e₂ hs (by omega) ?_⟩
  rw [a, List.length_take]
  exact Nat.min_le_left _ _

/-- `SetGridSize` on a grid that has the size already, and on any other grid: the two
loops on the grid with the new size, then the layout. -/
theorem SetGridSize_eq (env : ToyGridEnv) (g : ToyGrid) (gridSize : QSize) :
    (g.m_GridSize = ⟨max 1 gridSize.width, max 1 gridSize.height⟩ →
      g.SetGridSize env gridSize = g) ∧
    (g.m_GridSize ≠ ⟨max 1 gridSize.width, max 1 gridSize.height⟩ →
      (g.SetGridSize env gridSize).m_GridSize =
        ⟨max 1 gridSize.width, max 1 gridSize.height⟩ ∧
      (g.SetGridSize env gridSize).m_List.length =
        (ToyGrid.resizeList env
          (castSize (mulInt (max 1 gridSize.width) (max 1 gridSize.height)))
          { g with m_GridSize :=
              ⟨max 1 gridSize.width, max 1 gridSize.height⟩ }).m_List.length ∧
      (g.SetGridSize env gridSize).m_List.map ToyWidget.unplaced =
        (ToyGrid.resizeList env
          (castSize (mulInt (max 1 gridSize.width) (max 1 gridSize.height)))
          { g with m_GridSize :=
              ⟨max 1 gridSize.width, max 1 gridSize.height⟩ }).m_List.map
          ToyWidget.unplaced) := by
  constructor
  · intro h
    unfold ToyGrid.SetGridSize
    simp only [SetGridSize_clamp]
    rw [if_neg (by simpa using h)]
  · intro h
    unfold ToyGrid.SetGridSize
    simp only [SetGridSize_clamp]
    rw [if_pos h]
    have hgs := (resizeList_list env
      (castSize (mulInt (max 1 gridSize.width) (max 1 gridSize.height)))
      { g with m_GridSize := ⟨max 1 gridSize.width, max 1 gridSize.height⟩ }).2.1
    generalize ToyGrid.resizeList env
      (castSize (mulInt (max 1 gridSize.width) (max 1 gridSize.height)))
      { g with m_GridSize := ⟨max 1 gridSize.width, max 1 gridSize.height⟩ } = g₃ at hgs ⊢
    by_cases hl : g₃.m_Loading = true
    · rw [if_neg (by simp [hl])]
      exact ⟨hgs, rfl, rfl⟩
    · rw [if_pos (by simpa using hl)]
      refine ⟨?_, ?_, ?_⟩
      · rw [(UpdateLayout_list _).2.2]
        exact hgs
      · rw [(UpdateLayout_list _).2.1]
        rfl
      · rw [(UpdateLayout_list _).1]
        rfl

end GridSizeSteps

section GridSizeClaims

/-- `SetGridSize` keeps a matched grid matched when `CreateWidget` succeeds, whatever
the requested size. -/
theorem SetGridSize_matched (env : ToyGridEnv) (g : ToyGrid) (gridSize : QSize)
    (hs : ∀ k, (env.CreateWidget k).isSome = true) (hm : g.matched) :
    (g.SetGridSize env gridSize).matched := by
  by_cases h : g.m_GridSize = ⟨max 1 gridSize.width, max 1 gridSize.height⟩
  · rw [(SetGridSize_eq env g gridSize).1 h]
    exact hm
  · obtain ⟨a, b, _⟩ := (SetGridSize_eq env g gridSize).2 h
    unfold ToyGrid.matched
    rw [a, b]
    exact (resizeList_list env _ _).2.2.2 hs

/-- The widgets `SetGridSize` keeps are the first widgets of the old list. -/
theorem SetGridSize_keeps (env : ToyGridEnv) (g : ToyGrid) (gridSize : QSize) (k : Nat)
    (hk : k ≤ min g.m_List.length
      (castSize (mulInt (max 1 gridSize.width) (max 1 gridSize.height)))) :
    ((g.SetGridSize env gridSize).m_List.take k).map ToyWidget.unplaced =
      (g.m_List.take k).map ToyWidget.unplaced := by
  by_cases h : g.m_GridSize = ⟨max 1 gridSize.width, max 1 gridSize.height⟩
  · rw [(SetGridSize_eq env g gridSize).1 h]
  · obtain ⟨_, _, c⟩ := (SetGridSize_eq env g gridSize).2 h
    obtain ⟨⟨added, e⟩, _⟩ := resizeList_list env
      (castSize (mulInt (max 1 gridSize.width) (max 1 gridSize.height)))
      { g with m_GridSize := ⟨max 1 gridSize.width, max 1 gridSize.height⟩ }
    have e₂ : (ToyGrid.resizeList env
        (castSize (mulInt (max 1 gridSize.width) (max 1 gridSize.height)))
        { g with m_GridSize := ⟨max 1 gridSize.width, max 1 gridSize.height⟩ }).m_List =
        g.m_List.take (castSize (mulInt (max 1 gridSize.width) (max 1 gridSize.height))) ++
          added := e
    have hlen : k ≤ (g.m_List.take
        (castSize (mulInt (max 1 gridSize.width) (max 1 gridSize.height)))).length := by
      rw [List.length_take, Nat.min_comm]
      exact hk
    rw [List.map_take, List.map_take, c, e₂, ← List.map_take, ← List.map_take,
      List.take_append_of_le_length hlen, List.take_take,
      Nat.min_eq_left (hk.trans (Nat.min_le_right _ _))]

/-- C28 fails for a size whose product does not fit an `int`: with `CreateWidget`
always succeeding, the request `(65536, 65536)` on a 2 by 2 grid of four widgets gives
the grid size `(65536, 65536)` and an empty widget list, not 2^32 widgets: the product
wraps to 0. -/
theorem SetGridSize_product_wraps :
    (∀ k, (gridEnv.CreateWidget k).isSome = true) ∧
    (((ToyGrid.new "" 0 false ⟨0, 0, 0, 0⟩).SetGridSize gridEnv ⟨2, 2⟩).m_List.length = 4) ∧
    ((((ToyGrid.new "" 0 false ⟨0, 0, 0, 0⟩).SetGridSize gridEnv ⟨2, 2⟩).SetGridSize
        gridEnv ⟨65536, 65536⟩).m_GridSize = ⟨65536, 65536⟩) ∧
    ((((ToyGrid.new "" 0 false ⟨0, 0, 0, 0⟩).SetGridSize gridEnv ⟨2, 2⟩).SetGridSize
        gridEnv ⟨65536, 65536⟩).m_List.length = 0) ∧
    (max 1 65536 * max 1 65536 : Int) = 4294967296 := by
  refine ⟨fun _ => rfl, by decide, by decide, by decide, by decide⟩

/-- C28, for sizes whose product fits an `int`: take a grid whose widget list matches
its grid size (as after the constructor, and as `SetGridSize` keeps it whenever
`CreateWidget` succeeds) and let `CreateWidget` succeed. For every requested size
`(w, h)` with `max(1, w) * max(1, h) < 2^31`, after `SetGridSize` the grid size is
`(max(1, w), max(1, h))`, the widget list holds exactly `max(1, w) * max(1, h)`
widgets, and the widgets kept are the first widgets of the old list (their geometry
apart, which the layout sets anew). In particular `Clear()`, which requests `(0, 0)`,
leaves a 1 by 1 grid holding one widget. Without the bound on the product the grid
size is still `(max(1, w), max(1, h))` and the list still matches the grid size. -/
theorem SetGridSize_widget_count (env : ToyGridEnv) (g : ToyGrid) (gridSize : QSize)
    (hs : ∀ k, (env.CreateWidget k).isSome = true)
    (hfit : max 1 gridSize.width * max 1 gridSize.height < 2 ^ 31)
    (hm : g.matched) :
    (g.SetGridSize env gridSize).m_GridSize =
      ⟨max 1 gridSize.width, max 1 gridSize.height⟩ ∧
    (g.SetGridSize env gridSize).m_List.length =
      (max 1 gridSize.width * max 1 gridSize.height).toNat ∧
    ((g.SetGridSize env gridSize).m_List.take
        (min g.m_List.length (max 1 gridSize.width * max 1 gridSize.height).toNat)).map
        ToyWidget.unplaced =
      (g.m_List.take
        (min g.m_List.length (max 1 gridSize.width * max 1 gridSize.height).toNat)).map
        ToyWidget.unplaced ∧
    (g.Clear env).m_GridSize = ⟨1, 1⟩ ∧ (g.Clear env).m_List.length = 1 ∧
    (∀ size, (g.SetGridSize env size).m_GridSize = ⟨max 1 size.width, max 1 size.height⟩ ∧
      (g.SetGridSize env size).matched) ∧
    (∀ text color hasParent margins, (ToyGrid.new text color hasParent margins).matched) := by
  have hsize : ∀ size : QSize,
      (g.SetGridSize env size).m_GridSize = ⟨max 1 size.width, max 1 size.height⟩ := by
    intro size
    by_cases h : g.m_GridSize = ⟨max 1 size.width, max 1 size.height⟩
    · rw [(SetGridSize_eq env g size).1 h]
      exact h
    · exact ((SetGridSize_eq env g size).2 h).1
  have hcount : ∀ size : QSize, max 1 size.width * max 1 size.height < 2 ^ 31 →
      (g.SetGridSize env size).m_List.length =
        (max 1 size.width * max 1 size.height).toNat := by
    intro size hf
    have h₁ := SetGridSize_matched env g size hs hm
    unfold ToyGrid.matched at h₁
    rw [h₁, hsize size]
    exact castSize_mulInt _ _ (le_max_left _ _) (le_max_left _ _) hf
  refine ⟨hsize gridSize, hcount gridSize hfit, ?_, ?_, ?_, ?_, ?_⟩
  · apply SetGridSize_keeps
    rw [castSize_mulInt _ _ (le_max_left _ _) (le_max_left _ _) hfit]
  · exact hsize ⟨0, 0⟩
  · exact hcount ⟨0, 0⟩ (by decide)
  · exact fun size => ⟨hsize size, SetGridSize_matched env g size hs hm⟩
  · intro text color hasParent margins
    show ([] : List ToyWidget).length = castSize (mulInt 0 0)
    decide

/-- From the constructor, the requests `(2, 3)` and then `(0, 0)`: six widgets, then
one, the first of the six. -/
theorem SetGridSize_widget_count_witness :
    (∀ k, (gridEnv.CreateWidget k).isSome = true) ∧
    ((ToyGrid.new "" 0 false ⟨0, 0, 0, 0⟩).SetGridSize gridEnv ⟨2, 3⟩).m_GridSize = ⟨2, 3⟩ ∧
    ((ToyGrid.new "" 0 false ⟨0, 0, 0, 0⟩).SetGridSize gridEnv ⟨2, 3⟩).m_List.length = 6 ∧
    (((ToyGrid.new "" 0 false ⟨0, 0, 0, 0⟩).SetGridSize gridEnv ⟨2, 3⟩).Clear
      gridEnv).m_GridSize = ⟨1, 1⟩ ∧
    (((ToyGrid.new "" 0 false ⟨0, 0, 0, 0⟩).SetGridSize gridEnv ⟨2, 3⟩).Clear
      gridEnv).m_List.length = 1 ∧
    ((ToyGrid.new "" 0 false ⟨0, 0, 0, 0⟩).Clear gridEnv).m_List.length = 1 :=
  have h₀ := SetGridSize_widget_count gridEnv (ToyGrid.new "" 0 false ⟨0, 0, 0, 0⟩) ⟨2, 3⟩
    (fun _ => rfl) (by decide) (by unfold ToyGrid.matched; decide)
  have h₁ := SetGridSize_widget_count gridEnv
    ((ToyGrid.new "" 0 false ⟨0, 0, 0, 0⟩).SetGridSize gridEnv ⟨2, 3⟩) ⟨0, 0⟩
    (fun _ => rfl) (by decide) (h₀.2.2.2.2.2.1 ⟨2, 3⟩).2
  ⟨fun _ => rfl, h₀.1, h₀.2.1, h₁.2.2.2.1, h₁.2.2.2.2.1, h₀.2.2.2.2.1⟩

end GridSizeClaims

section GridLoad

/-- With exactly eight items the part of `Load` behind `items.size() > 7` reads
`items[8]`, which is not there. -/
theorem loadItems_eight (env : ToyGridEnv) (q : QtText) (g : ToyGrid) (path : String)
    (lines : List String) (index : Int) (items : List String) (h : items.length = 8) :
    ToyGrid.loadItems env q g path lines index items = none := by
  have h₈ : items[8]? = none := List.getElem?_eq_none (by omega)
  have h₇ : ∃ i₇, items[7]? = some i₇ := ⟨items[7], List.getElem?_eq_getElem (by omega)⟩
  obtain ⟨i₇, h₇⟩ := h₇
  unfold ToyGrid.loadItems
  simp only [h₇, h₈, Option.bind_eq_bind, Option.some_bind, Option.none_bind]

/-- With nine items or more every item the part of `Load` behind `items.size() > 7`
reads is there. -/
theorem loadItems_nine (env : ToyGridEnv) (q : QtText) (g : ToyGrid) (path : String)
    (lines : List String) (index : Int) (items : List String) (h : 9 ≤ items.length) :
    (ToyGrid.loadItems env q g path lines index items).isSome = true := by
  have hget : ∀ k, k < items.length → ∃ t, items[k]? = some t :=
    fun k hk => ⟨_, List.getElem?_eq_getElem hk⟩
  obtain ⟨i₁, h₁⟩ := hget 1 (by omega)
  obtain ⟨i₂, h₂⟩ := hget 2 (by omega)
  obtain ⟨i₃, h₃⟩ := hget 3 (by omega)
  obtain ⟨i₄, h₄⟩ := hget 4 (by omega)
  obtain ⟨i₆, h₆⟩ := hget 6 (by omega)
  obtain ⟨i₇, h₇⟩ := hget 7 (by omega)
  obtain ⟨i₈, h₈⟩ := hget 8 (by omega)
  have hk : ∀ k, (items.length > k ∧ ∃ t, items[k]? = some t) ∨ ¬ items.length > k := by
    intro k
    by_cases c : items.length > k
    · exact Or.inl ⟨c, hget k c⟩
    · exact Or.inr c
  unfold ToyGrid.loadItems
  simp only [h₁, h₂, h₃, h₄, h₆, h₇, h₈, Option.bind_eq_bind, Option.some_bind]
  rcases hk 9 with ⟨c₉, t₉, e₉⟩ | c₉ <;> rcases hk 10 with ⟨c₁₀, t₁₀, e₁₀⟩ | c₁₀ <;>
    rcases hk 11 with ⟨c₁₁, t₁₁, e₁₁⟩ | c₁₁ <;> rcases hk 12 with ⟨c₁₂, t₁₂, e₁₂⟩ | c₁₂ <;>
    simp only [*, if_true, if_false, Option.map_some', Option.some_bind] <;>
    split_ifs <;> rfl

end GridLoad

section GridLoadClaims

/-- C27 fails: `ToyGrid::Load` reads `items[8]` behind the guard `items.size() > 7`.
On a line that is there, `Load` reads an item the line does not have exactly when the
line has eight items; with fewer it reads none, with nine or more every item it reads
is there (the later reads have guards of their own). A line of eight items such as
`0, 10, 10, 200, 100, 0, 1, 2` is enough. Without a line at `index` nothing is read. -/
theorem Load_reads_past_items :
    (∀ (env : ToyGridEnv) (q : QtText) (g : ToyGrid) (path : String) (lines : List String)
        (index : Int), 0 ≤ index → index < (lines.length : Int) →
      (ToyGrid.Load env q g path lines index = none ↔
        (q.GetItemsFromQuotedString (lines.getD index.toNat "")).length = 8)) ∧
    (∀ (env : ToyGridEnv) (q : QtText) (g : ToyGrid) (path : String) (lines : List String)
        (index : Int), ¬ (0 ≤ index ∧ index < (lines.length : Int)) →
      ToyGrid.Load env q g path lines index = some (g, index, true)) ∧
    (eightItems.GetItemsFromQuotedString "0, 10, 10, 200, 100, 0, 1, 2").length = 8 ∧
    ToyGrid.Load gridEnv eightItems (ToyGrid.new "" 0 false ⟨0, 0, 0, 0⟩) ""
      ["0, 10, 10, 200, 100, 0, 1, 2"] 0 = none := by
  have hgen : ∀ (env : ToyGridEnv) (q : QtText) (g : ToyGrid) (path : String)
      (lines : List String) (index : Int), 0 ≤ index → index < (lines.length : Int) →
      (ToyGrid.Load env q g path lines index = none ↔
        (q.GetItemsFromQuotedString (lines.getD index.toNat "")).length = 8) := by
    intro env q g path lines index h₀ h₁
    unfold ToyGrid.Load
    rw [if_pos ⟨h₀, h₁⟩]
    dsimp only
    by_cases h₇ : (q.GetItemsFromQuotedString (lines.getD index.toNat "")).length > 7
    · rw [if_pos h₇]
      by_cases h₈ : (q.GetItemsFromQuotedString (lines.getD index.toNat "")).length = 8
      · rw [loadItems_eight env q _ path lines _ _ h₈]
        exact ⟨fun _ => h₈, fun _ => rfl⟩
      · have hs := loadItems_nine env q { g with m_Loading := true } path lines (index + 1)
          (q.GetItemsFromQuotedString (lines.getD index.toNat "")) (by omega)
        cases hl : ToyGrid.loadItems env q { g with m_Loading := true } path lines (index + 1)
            (q.GetItemsFromQuotedString (lines.getD index.toNat "")) with
        | none => rw [hl] at hs; cases hs
        | some r =>
          obtain ⟨g₁, index₁⟩ := r
          exact ⟨fun h => (by cases h), fun h => absurd h h₈⟩
    · rw [if_neg h₇]
      have : (q.GetItemsFromQuotedString (lines.getD index.toNat "")).length ≠ 8 := by omega
      exact ⟨fun h => (by cases h), fun h => absurd h this⟩
  refine ⟨hgen, ?_, rfl, ?_⟩
  · intro env q g path lines index h
    unfold ToyGrid.Load
    rw [if_neg h]
  · exact (hgen gridEnv eightItems _ "" ["0, 10, 10, 200, 100, 0, 1, 2"] 0 (by decide)
      (by decide)).mpr rfl

end GridLoadClaims

section Opacity

/-- The first loop of `SetOpacity` finds the first action whose opacity is nearest. -/
theorem closestLoop_first (c : Int) (all : List OpacityAction) (rest pre : List OpacityAction)
    (closest : Option Nat) (minDelta : Int) (hall : all = pre ++ rest)
    (hne : all ≠ [])
    (hinv : pre = [] ∨ ∃ k, closest = some k ∧ k < pre.length ∧
      minDelta = opacityDelta all c k ∧
      (∀ j, j < pre.length → minDelta ≤ opacityDelta all c j) ∧
      (∀ j, j < k → minDelta < opacityDelta all c j)) :
    ∃ k, OpacityMenu.closestLoop c rest pre.length closest minDelta = some k ∧
      k < all.length ∧
      (∀ j, j < all.length → opacityDelta all c k ≤ opacityDelta all c j) ∧
      (∀ j, j < k → opacityDelta all c k < opacityDelta all c j) := by
  induction rest generalizing pre closest minDelta with
  | nil =>
    rw [List.append_nil] at hall
    subst hall
    rcases hinv with h | ⟨k, h₁, h₂, h₃, h₄, h₅⟩
    · exact absurd h hne
    · refine ⟨k, by simp [OpacityMenu.closestLoop, h₁], h₂, ?_, ?_⟩
      · intro j hj; rw [← h₃]; exact h₄ j hj
      · intro j hj; rw [← h₃]; exact h₅ j hj
  | cons action rest ih =>
    have hd : opacityDelta all c pre.length = abs (action.m_Opacity - c) := by
      unfold opacityDelta
      rw [hall, List.getD_eq_getElem?_getD, List.getElem?_append_right (le_refl _)]
      simp
    have hlen : all.length = pre.length + (rest.length + 1) := by
      rw [hall]; simp
    have hall₂ : all = (pre ++ [action]) ++ rest := by
      rw [hall]; simp
    have hlen₂ : (pre ++ [action]).length = pre.length + 1 := by simp
    unfold OpacityMenu.closestLoop
    dsimp only
    rw [← hd]
    by_cases hup : pre.length = 0 ∨ opacityDelta all c pre.length < minDelta
    · rw [if_pos hup]
      have hbelow : ∀ j, j < pre.length →
          opacityDelta all c pre.length < opacityDelta all c j := by
        intro j hj
        rcases hinv with h | ⟨k, h₁, h₂, h₃, h₄, h₅⟩
        · rw [h] at hj; cases hj
        · rcases hup with h | h
          · omega
          · exact lt_of_lt_of_le h (h₄ j hj)
      by_cases hz : opacityDelta all c pre.length = 0
      · rw [if_pos hz]
        refine ⟨pre.length, rfl, by omega, ?_, hbelow⟩
        intro j _
        rw [hz]
        exact abs_nonneg _
      · rw [if_neg hz]
        have := ih (pre ++ [action]) (some pre.length) (opacityDelta all c pre.length) hall₂
          (Or.inr ⟨pre.length, rfl, by omega, rfl, ?_, hbelow⟩)
        · rw [hlen₂] at this
          exact this
        · intro j hj
          rw [hlen₂] at hj
          by_cases hjl : j < pre.length
          · exact le_of_lt (hbelow j hjl)
          · have : j = pre.length := by omega
            rw [this]
    · rw [if_neg hup]
      have hup₂ : pre.length ≠ 0 ∧ minDelta ≤ opacityDelta all c pre.length := by
        constructor
        · exact fun h => hup (Or.inl h)
        · exact not_lt.mp (fun h => hup (Or.inr h))
      rcases hinv with h | ⟨k, h₁, h₂, h₃, h₄, h₅⟩
      · rw [h] at hup₂; exact absurd rfl hup₂.1
      · have := ih (pre ++ [action]) closest minDelta hall₂
          (Or.inr ⟨k, h₁, by omega, h₃, ?_, h₅⟩)
        · rw [hlen₂] at this
          exact this
        · intro j hj
          rw [hlen₂] at hj
          by_cases hjl : j < pre.length
          · exact h₄ j hjl
          · have : j = pre.length := by omega
            rw [this]
            exact hup₂.2

theorem setChecked_get (closest : Option Nat) (l : List OpacityAction) (i j : Nat) :
    (OpacityMenu.setChecked closest l i)[j]? =
      (l[j]?).map (fun action => { action with checked := (some (i + j) == closest) }) := by
  induction l generalizing i j with
  | nil => simp [OpacityMenu.setChecked]
  | cons action rest ih =>
    unfold OpacityMenu.setChecked
    cases j with
    | zero => simp
    | succ j =>
      simp only [List.getElem?_cons_succ]
      rw [ih (i + 1) j]
      have : i + 1 + j = i + (j + 1) := by omega
      rw [this]

theorem setChecked_length (closest : Option Nat) (l : List OpacityAction) (i : Nat) :
    (OpacityMenu.setChecked closest l i).length = l.length := by
  induction l generalizing i with
  | nil => rfl
  | cons action rest ih => simp [OpacityMenu.setChecked, ih]

end Opacity

section OpacityClaims

theorem setChecked_opacity (closest : Option Nat) (l : List OpacityAction) (i : Nat) :
    (OpacityMenu.setChecked closest l i).map (fun action => action.m_Opacity) =
      l.map (fun action => action.m_Opacity) := by
  induction l generalizing i with
  | nil => rfl
  | cons action rest ih => simp [OpacityMenu.setChecked, ih]

/-- C30: on a menu with the actions of the constructor (opacities 10, 20, ..., 100),
for every integer `x`, after `SetOpacity(x)` exactly one action is checked, the one at
position `k`, with opacity `10 * (k + 1)`; it is nearest to `x` brought into
`[10, 100]`: no action is nearer, and an action as near stands behind it, so on a tie
between two neighbours the lower one is checked. The opacities of the actions stay as
they are. -/
theorem SetOpacity_nearest (menu : OpacityMenu) (x : Int)
    (hmenu : menu.m_OpacityActions.map (fun action => action.m_Opacity) =
      [10, 20, 30, 40, 50, 60, 70, 80, 90, 100]) :
    ∃ k, k < 10 ∧
      (∀ j, j < 10 →
        ((menu.SetOpacity x).m_OpacityActions.getD j default).checked = decide (j = k)) ∧
      (menu.SetOpacity x).m_OpacityActions.map (fun action => action.m_Opacity) =
        [10, 20, 30, 40, 50, 60, 70, 80, 90, 100] ∧
      (∀ j : Nat, j < 10 →
        abs (10 * ((k : Int) + 1) - clampOpacity x) ≤
          abs (10 * ((j : Int) + 1) - clampOpacity x)) ∧
      (∀ j : Nat, j < 10 →
        abs (10 * ((j : Int) + 1) - clampOpacity x) =
          abs (10 * ((k : Int) + 1) - clampOpacity x) → k ≤ j) ∧
      10 ≤ clampOpacity x ∧ clampOpacity x ≤ 100 := by
  have hlen : menu.m_OpacityActions.length = 10 := by
    have := congrArg List.length hmenu
    simpa using this
  have hne : menu.m_OpacityActions ≠ [] := by
    intro h; rw [h] at hlen; cases hlen
  have hop : ∀ j : Nat, j < 10 →
      (menu.m_OpacityActions.getD j default).m_Opacity = 10 * ((j : Int) + 1) := by
    intro j hj
    have h₁ : (menu.m_OpacityActions.map (fun action => action.m_Opacity))[j]? =
        some (menu.m_OpacityActions.getD j default).m_Opacity := by
      rw [List.getElem?_map, List.getD_eq_getElem?_getD,
        List.getElem?_eq_getElem (by omega)]
      rfl
    rw [hmenu] at h₁
    interval_cases j <;>
      (have h₂ : _ = _ := (Option.some.inj h₁).symm
       rw [h₂]
       rfl)
  obtain ⟨k, e, hk, hmin, hfirst⟩ := closestLoop_first (clampOpacity x)
    menu.m_OpacityActions menu.m_OpacityActions [] none 0 rfl hne (Or.inl rfl)
  rw [hlen] at hk hmin
  have hres : menu.SetOpacity x = ⟨OpacityMenu.setChecked (some k) menu.m_OpacityActions 0⟩ := by
    unfold OpacityMenu.SetOpacity
    dsimp only
    have e₂ : OpacityMenu.closestLoop (clampOpacity x) menu.m_OpacityActions 0 none 0 =
        some k := e
    unfold clampOpacity at e₂
    rw [e₂]
  refine ⟨k, hk, ?_, ?_, ?_, ?_, ?_, ?_⟩
  · intro j hj
    rw [hres, List.getD_eq_getElem?_getD, setChecked_get,
      List.getElem?_eq_getElem (by omega)]
    by_cases hjk : j = k <;> simp [hjk]
  · rw [hres]
    show (OpacityMenu.setChecked (some k) menu.m_OpacityActions 0).map _ = _
    rw [setChecked_opacity, hmenu]
  · intro j hj
    have := hmin j hj
    unfold opacityDelta at this
    rw [hop k hk, hop j hj] at this
    exact this
  · intro j hj heq
    by_contra hlt
    have := hfirst j (by omega)
    unfold opacityDelta at this
    rw [hop k hk, hop j hj, heq] at this
    exact lt_irrefl _ this
  · unfold clampOpacity MIN_OPACITY
    split_ifs <;> omega
  · unfold clampOpacity MIN_OPACITY
    split_ifs <;> omega

/-- The menu of the constructor: `SetOpacity(15)` checks the action 10 (a tie with 20),
`SetOpacity(1000)` the action 100, `SetOpacity(-3)` the action 10, `SetOpacity(76)`
the action 80. -/
theorem SetOpacity_nearest_witness :
    OpacityMenu.new.m_OpacityActions.map (fun action => action.m_Opacity) =
      [10, 20, 30, 40, 50, 60, 70, 80, 90, 100] ∧
    (OpacityMenu.new.SetOpacity 15).m_OpacityActions.map (fun action => action.checked) =
      [true, false, false, false, false, false, false, false, false, false] ∧
    (OpacityMenu.new.SetOpacity 1000).m_OpacityActions.map (fun action => action.checked) =
      [false, false, false, false, false, false, false, false, false, true] ∧
    (OpacityMenu.new.SetOpacity (-3)).m_OpacityActions.map (fun action => action.checked) =
      [true, false, false, false, false, false, false, false, false, false] ∧
    (OpacityMenu.new.SetOpacity 76).m_OpacityActions.map (fun action => action.checked) =
      [false, false, false, false, false, false, false, true, false, false] ∧
    ∃ k, k < 10 ∧
      (∀ j, j < 10 →
        ((OpacityMenu.new.SetOpacity 15).m_OpacityActions.getD j default).checked =
          decide (j = k)) ∧
      (OpacityMenu.new.SetOpacity 15).m_OpacityActions.map (fun action => action.m_Opacity) =
        [10, 20, 30, 40, 50, 60, 70, 80, 90, 100] ∧
      (∀ j : Nat, j < 10 →
        abs (10 * ((k : Int) + 1) - clampOpacity 15) ≤
          abs (10 * ((j : Int) + 1) - clampOpacity 15)) ∧
      (∀ j : Nat, j < 10 →
        abs (10 * ((j : Int) + 1) - clampOpacity 15) =
          abs (10 * ((k : Int) + 1) - clampOpacity 15) → k ≤ j) ∧
      10 ≤ clampOpacity 15 ∧ clampOpacity 15 ≤ 100 :=
  ⟨by decide, by decide, by decide, by decide, by decide,
    SetOpacity_nearest OpacityMenu.new 15 (by decide)⟩

end OpacityClaims

section UdpOutBatch

theorem udpOut_foldl_log_private (l : List String) (s : EosUdpOutThread) :
    (l.foldl EosUdpOutThread.OSCParserClient_Log s).m_PrivateLog =
      s.m_PrivateLog ++ l.map (fun m => (⟨.LOG_MSG_TYPE_SEND, s.m_Prefix ++ m⟩ : sLogMsg)) ∧
    (l.foldl EosUdpOutThread.OSCParserClient_Log s).m_Prefix = s.m_Prefix ∧
    (l.foldl EosUdpOutThread.OSCParserClient_Log s).pc = s.pc ∧
    (l.foldl EosUdpOutThread.OSCParserClient_Log s).m_NetEventQ = s.m_NetEventQ := by
  induction l generalizing s with
  | nil => simp
  | cons m l ih =>
    simp [List.foldl_cons, ih, EosUdpOutThread.OSCParserClient_Log, EosLog.Add]

/-- One pass of the batch loop of the UDP output worker: the loop test and the body for
the packet at the cursor. -/
theorem udpOut_batch_pass (s : EosUdpOutThread) (i₁ i₂ : UdpOutInput)
    (hpc : s.pc = .forTest) (hi : s.i < s.q.length) :
    (EosUdpOutThread.runStep i₂ (EosUdpOutThread.runStep i₁ s)).pc = .forTest ∧
    (EosUdpOutThread.runStep i₂ (EosUdpOutThread.runStep i₁ s)).i = s.i + 1 ∧
    (EosUdpOutThread.runStep i₂ (EosUdpOutThread.runStep i₁ s)).q = s.q ∧
    (EosUdpOutThread.runStep i₂ (EosUdpOutThread.runStep i₁ s)).m_Prefix = s.m_Prefix ∧
    (EosUdpOutThread.runStep i₂ (EosUdpOutThread.runStep i₁ s)).m_Run = s.m_Run ∧
    (EosUdpOutThread.runStep i₂ (EosUdpOutThread.runStep i₁ s)).m_Q = s.m_Q ∧
    (EosUdpOutThread.runStep i₂ (EosUdpOutThread.runStep i₁ s)).m_NetEventQ =
      s.m_NetEventQ ∧
    (EosUdpOutThread.runStep i₂ (EosUdpOutThread.runStep i₁ s)).history =
      s.history ++ [.write (s.q.getD s.i default).data (castInt (s.q.getD s.i default).size)
        i₂.ok, .free (s.q.getD s.i default).data] ∧
    (EosUdpOutThread.runStep i₂ (EosUdpOutThread.runStep i₁ s)).m_PrivateLog =
      s.m_PrivateLog ++ i₂.log ++
        (if i₂.ok then
          i₂.printed.map (fun m => (⟨.LOG_MSG_TYPE_SEND, s.m_Prefix ++ m⟩ : sLogMsg))
         else []) := by
  have h₁ : EosUdpOutThread.runStep i₁ s = { s with pc := .sendOne } := by
    unfold EosUdpOutThread.runStep
    simp only [hpc]
    rw [if_pos hi]
  rw [h₁]
  unfold EosUdpOutThread.runStep
  dsimp only
  cases hok : i₂.ok <;>
    simp [udpOut_foldl_log, udpOut_foldl_log_private, EosLog.AddLog]

/-- The batch loop of the UDP output worker runs to the end of the batch, whatever
`SendPacket` returns and whatever the run flag is: every packet from the cursor on is
written and released, in order. -/
theorem udpOut_batch (n : Nat) (s : EosUdpOutThread) (inps : List UdpOutInput)
    (hpc : s.pc = .forTest) (hn : s.i + n = s.q.length) (hlen : inps.length = 2 * n + 1) :
    (EosUdpOutThread.exec (inps.map .worker) s).pc = .afterFor ∧
    (EosUdpOutThread.exec (inps.map .worker) s).q = s.q ∧
    (EosUdpOutThread.exec (inps.map .worker) s).m_Run = s.m_Run ∧
    (EosUdpOutThread.exec (inps.map .worker) s).m_Q = s.m_Q ∧
    (EosUdpOutThread.exec (inps.map .worker) s).m_NetEventQ = s.m_NetEventQ ∧
    (EosUdpOutThread.exec (inps.map .worker) s).history =
      s.history ++ udpOutSent (s.q.drop s.i) (packetInputs inps) ∧
    (EosUdpOutThread.exec (inps.map .worker) s).m_PrivateLog =
      s.m_PrivateLog ++ udpOutBatchLog s.m_Prefix (s.q.drop s.i) (packetInputs inps) := by
  induction n generalizing s inps with
  | zero =>
    obtain ⟨inp, rfl⟩ : ∃ inp, inps = [inp] := by
      match inps, hlen with
      | [inp], _ => exact ⟨inp, rfl⟩
    have h₁ : EosUdpOutThread.runStep inp s = { s with pc := .afterFor } := by
      unfold EosUdpOutThread.runStep
      simp only [hpc]
      rw [if_neg (by omega)]
    have hd : s.q.drop s.i = [] := List.drop_eq_nil_of_le (by omega)
    simp only [List.map_cons, List.map_nil, EosUdpOutThread.exec, List.foldl_cons,
      List.foldl_nil, EosUdpOutThread.act, h₁, hd, packetInputs, udpOutSent, udpOutBatchLog,
      List.append_nil]
    simp
  | succ n ih =>
    obtain ⟨i₁, i₂, rest, rfl, hrest⟩ :
        ∃ i₁ i₂ rest, inps = i₁ :: i₂ :: rest ∧ rest.length = 2 * n + 1 := by
      match inps, hlen with
      | i₁ :: i₂ :: rest, h => exact ⟨i₁, i₂, rest, rfl, by simp at h; omega⟩
    have hi : s.i < s.q.length := by omega
    obtain ⟨a, b, c, d, e, f, g, h, k⟩ := udpOut_batch_pass s i₁ i₂ hpc hi
    obtain ⟨a₂, b₂, c₂, d₂, e₂, f₂, g₂⟩ :=
      ih (EosUdpOutThread.runStep i₂ (EosUdpOutThread.runStep i₁ s)) rest a
        (by rw [b, c]; omega) hrest
    have hexec : EosUdpOutThread.exec ((i₁ :: i₂ :: rest).map .worker) s =
        EosUdpOutThread.exec (rest.map .worker)
          (EosUdpOutThread.runStep i₂ (EosUdpOutThread.runStep i₁ s)) := rfl
    have hdrop : s.q.drop s.i = s.q.getD s.i default :: s.q.drop (s.i + 1) := by
      rw [List.drop_eq_getElem_cons hi, List.getD_eq_getElem?_getD,
        List.getElem?_eq_getElem hi]
      rfl
    rw [hexec]
    refine ⟨a₂, by rw [b₂, c], by rw [c₂, e], by rw [d₂, f], by rw [e₂, g], ?_, ?_⟩
    · rw [f₂, h, b, c, hdrop]
      simp [packetInputs, udpOutSent]
    · rw [g₂, k, d, b, c, hdrop]
      simp [packetInputs, udpOutBatchLog]

end UdpOutBatch

section UdpOutLoop

theorem packetInputs_length {α : Type} (n : Nat) (inps : List α)
    (h : inps.length = 2 * n + 1) : (packetInputs inps).length = n := by
  induction n generalizing inps with
  | zero =>
    match inps, h with
    | [_], _ => rfl
  | succ n ih =>
    match inps, h with
    | _ :: _ :: rest, h =>
      have hr : rest.length = 2 * n + 1 := by simp at h; omega
      simp [packetInputs, ih rest hr]

/-- Every packet of a batch is written once and released once, in order, when there is
an answer of `SendPacket` for each of them. -/
theorem udpOutSent_events (ps : List sPacket) (ins : List UdpOutInput)
    (h : ins.length = ps.length) :
    (udpOutSent ps ins).length = 2 * ps.length ∧
    (udpOutSent ps ins).filterMap
        (fun e => match e with
          | .write d _ _ => some d
          | _ => none) = ps.map (fun p => p.data) ∧
    (udpOutSent ps ins).filterMap
        (fun e => match e with
          | .free d => some d
          | _ => none) = ps.map (fun p => p.data) := by
  induction ps generalizing ins with
  | nil => cases ins <;> simp [udpOutSent]
  | cons p ps ih =>
    match ins, h with
    | inp :: ins, h =>
      have hr : ins.length = ps.length := by simpa using h
      obtain ⟨a, b, c⟩ := ih ins hr
      refine ⟨?_, ?_, ?_⟩
      · simp [udpOutSent, a]; omega
      · simp [udpOutSent, b]
      · simp [udpOutSent, c]

/-- C10, as the code has it: the connected loop of the UDP output worker repeats until
the run flag is cleared. In a run in which the owner does not ask for a stop no
`NET_EVENT_DISCONNECTED` is pushed, whatever `SendPacket` returns; a step that calls
`SendPacket` goes on with the batch and pushes no event, whether the call fails or not;
a batch taken from the queue is worked to its end: every packet of it is written once
and released once, in the order of the queue, whatever `SendPacket` returns for the
packets before it, and only the log lines of the packets whose `SendPacket` failed are
left out; the loop test leaves the loop exactly when the run flag is cleared; and once
the loop is left, `NET_EVENT_DISCONNECTED` is pushed and the worker goes on to the
reconnect delay. -/
theorem udpOut_loop_until_stop (s : EosUdpOutThread) (acts : List UdpOutAction)
    (hacts : ∀ a ∈ acts, a ≠ UdpOutAction.owner .stopRequest) :
    NetEvent.NET_EVENT_DISCONNECTED ∉
      netEventsOf (EosUdpOutThread.exec acts
        (EosUdpOutThread.start { s with m_Run := true })).history ∧
    (∀ (t : EosUdpOutThread) (inp : UdpOutInput), t.pc = .sendOne →
      (EosUdpOutThread.runStep inp t).pc = .forTest ∧
      netEventsOf (EosUdpOutThread.runStep inp t).history = netEventsOf t.history) ∧
    (∀ (t : EosUdpOutThread) (inp : UdpOutInput), t.pc = .innerTest →
      ((EosUdpOutThread.runStep inp t).pc = .pushDisconnected ↔ t.m_Run = false) ∧
      ((EosUdpOutThread.runStep inp t).pc = .swap ↔ t.m_Run = true)) ∧
    (∀ (t : EosUdpOutThread) (i₁ i₂ i₃ i₄ : UdpOutInput), t.pc = .pushDisconnected →
      (EosUdpOutThread.runStep i₄ (EosUdpOutThread.runStep i₃
        (EosUdpOutThread.runStep i₂ (EosUdpOutThread.runStep i₁ t)))).pc = .delayTest ∧
      netEventsOf (EosUdpOutThread.runStep i₄ (EosUdpOutThread.runStep i₃
        (EosUdpOutThread.runStep i₂ (EosUdpOutThread.runStep i₁ t)))).history =
        netEventsOf t.history ++ [.NET_EVENT_DISCONNECTED]) ∧
    (∀ (t : EosUdpOutThread) (inp : UdpOutInput) (inps : List UdpOutInput),
      t.pc = .swap → inps.length = 2 * t.m_Q.length + 1 →
      (EosUdpOutThread.exec ((inp :: inps).map .worker) t).pc = .afterFor ∧
      (EosUdpOutThread.exec ((inp :: inps).map .worker) t).m_NetEventQ = t.m_NetEventQ ∧
      (EosUdpOutThread.exec ((inp :: inps).map .worker) t).history =
        t.history ++ udpOutSent t.m_Q (packetInputs inps) ∧
      (EosUdpOutThread.exec ((inp :: inps).map .worker) t).m_PrivateLog =
        t.m_PrivateLog ++ udpOutBatchLog t.m_Prefix t.m_Q (packetInputs inps) ∧
      (packetInputs inps).length = t.m_Q.length ∧
      (udpOutSent t.m_Q (packetInputs inps)).filterMap
          (fun e => match e with
            | .write d _ _ => some d
            | _ => none) = t.m_Q.map (fun p => p.data) ∧
      (udpOutSent t.m_Q (packetInputs inps)).filterMap
          (fun e => match e with
            | .free d => some d
            | _ => none) = t.m_Q.map (fun p => p.data)) := by
  refine ⟨?_, ?_, ?_, ?_, ?_⟩
  · exact (udpOut_exec_running acts _ hacts
      ⟨rfl, by simp [EosUdpOutThread.start], by simp [EosUdpOutThread.start, netEventsOf]⟩).2.2
  · intro t inp ht
    unfold EosUdpOutThread.runStep
    simp only [ht]
    split <;> simp [netEventsOf_append, netEventsOf, udpOut_foldl_log]
  · intro t inp ht
    unfold EosUdpOutThread.runStep
    simp only [ht]
    cases hr : t.m_Run <;> simp
  · intro t i₁ i₂ i₃ i₄ ht
    obtain ⟨p₁, e₁⟩ := udpOut_step_pushDisconnected i₁ t ht
    obtain ⟨p₂, e₂⟩ := udpOut_step_deleteUdp i₂ _ p₁
    obtain ⟨p₃, e₃⟩ := udpOut_step_reconnectTest i₃ _ p₂
    obtain ⟨p₄, e₄⟩ := udpOut_step_timerStart i₄ _ p₃
    refine ⟨p₄, ?_⟩
    rw [e₄, e₃, e₂, e₁, netEventsOf_append]
    simp [netEventsOf]
  · intro t inp inps ht hlen
    have h₁ : EosUdpOutThread.runStep inp t =
        { t with m_Q := t.q, q := t.m_Q, i := 0, pc := .forTest } := by
      unfold EosUdpOutThread.runStep
      simp only [ht]
    have hexec : EosUdpOutThread.exec ((inp :: inps).map .worker) t =
        EosUdpOutThread.exec (inps.map .worker) (EosUdpOutThread.runStep inp t) := rfl
    obtain ⟨a, _, _, _, e, f, g⟩ :=
      udpOut_batch t.m_Q.length (EosUdpOutThread.runStep inp t) inps
        (by rw [h₁]) (by rw [h₁]; simp) hlen
    have hl := packetInputs_length t.m_Q.length inps hlen
    obtain ⟨_, hw, hf⟩ := udpOutSent_events t.m_Q (packetInputs inps) hl
    rw [hexec]
    refine ⟨a, ?_, ?_, ?_, hl, hw, hf⟩
    · rw [e, h₁]
    · rw [f, h₁]; simp
    · rw [g, h₁]; simp

/-- In the run `udpOutRunSendFails` the owner never asks for a stop, `SendPacket` fails
once, and no `NET_EVENT_DISCONNECTED` is pushed. -/
theorem udpOut_loop_until_stop_witness :
    (∀ a ∈ udpOutRunSendFails, a ≠ UdpOutAction.owner .stopRequest) ∧
    NetEvent.NET_EVENT_DISCONNECTED ∉
      netEventsOf (EosUdpOutThread.exec udpOutRunSendFails
        (EosUdpOutThread.start { udpOutStarted with m_Run := true })).history :=
  have h : ∀ a ∈ udpOutRunSendFails, a ≠ UdpOutAction.owner .stopRequest := by
    intro a ha
    simp only [udpOutRunSendFails, List.mem_cons, List.mem_singleton] at ha
    rcases ha with h | h | h | h | h | h | h | h | h | h | h | h | h | h | h | h <;>
      first
      | (subst h; intro hc; cases hc)
      | cases h
  ⟨h, (udpOut_loop_until_stop udpOutStarted udpOutRunSendFails h).1⟩

end UdpOutLoop

section SendPathExact

variable {F : OSCStream}

end SendPathExact

section SendPathBatch

variable {F : OSCStream}

end SendPathBatch

section ReconnectLine

variable {F : OSCStream}

/-- C11 fails for an address text that holds a place marker: with the address `%1` and
the port 8000 the first `arg` puts `%1` where `%1` was, the port goes to this place
marker and the seconds go to `%2`, so that the line the worker adds after the failed
`Initialize` is "udp output 8000:5 reconnecting in %3...". No line of the log of the
worker contains "reconnecting in 5". -/
theorem reconnect_line_place_marker :
    udpOutMarkerAtInit.pc = .init ∧ udpOutMarkerAtInit.m_Run = true ∧
    udpOutMarkerAtInit.m_Ip = "%1" ∧
    (EosUdpOutThread.runStep .good (EosUdpOutThread.runStep .good
      (EosUdpOutThread.runStep .good
        (EosUdpOutThread.runStep .failed udpOutMarkerAtInit)))).pc = .delayTest ∧
    (EosUdpOutThread.runStep .good (EosUdpOutThread.runStep .good
      (EosUdpOutThread.runStep .good
        (EosUdpOutThread.runStep .failed udpOutMarkerAtInit)))).logged =
      [⟨.LOG_MSG_TYPE_INFO, "udp output 8000:%2 thread started"⟩,
       ⟨.LOG_MSG_TYPE_INFO, "sendto failed"⟩,
       ⟨.LOG_MSG_TYPE_INFO, "udp output 8000:5 reconnecting in %3..."⟩] ∧
    (∀ l ∈ (EosUdpOutThread.runStep .good (EosUdpOutThread.runStep .good
      (EosUdpOutThread.runStep .good
        (EosUdpOutThread.runStep .failed udpOutMarkerAtInit)))).logged,
      ¬ containsText l.text "reconnecting in 5") := by
  have hlog : (EosUdpOutThread.runStep .good (EosUdpOutThread.runStep .good
      (EosUdpOutThread.runStep .good
        (EosUdpOutThread.runStep .failed udpOutMarkerAtInit)))).logged =
      [⟨.LOG_MSG_TYPE_INFO, "udp output 8000:%2 thread started"⟩,
       ⟨.LOG_MSG_TYPE_INFO, "sendto failed"⟩,
       ⟨.LOG_MSG_TYPE_INFO, "udp output 8000:5 reconnecting in %3..."⟩] := by decide
  refine ⟨by decide, by decide, by decide, by decide, hlog, ?_⟩
  rw [hlog]
  intro l hl hc
  have hi := containsText_infix _ _ hc
  simp only [List.mem_cons, List.mem_singleton, List.not_mem_nil, or_false] at hl
  rcases hl with rfl | rfl | rfl <;> revert hi <;> decide

/-- C11, as the code has it: in each of the three workers, a connection attempt whose
`Initialize` fails leads in four steps to the wait of the reconnect delay. On the way
the worker has no effect but on the log: it pushes no net event (and no packet), and it
writes, behind the lines of `Initialize` itself, exactly one line when the run flag is
set, the info line that `QString::arg` makes of "... %1:%2 reconnecting in %3..." with
the address, the port and `ReconnectDelay / 1000`, and no line when the run flag is
cleared. When the address text holds neither `%` nor NUL this line is
"<transport> <address>:<port> reconnecting in 5...", which contains
"reconnecting in 5". The worker then stays in the delay loop as long as the run flag is
set and the timer of `ReconnectDelay` = 5000 ms has not expired. -/
theorem init_failure_reconnects (u : EosUdpOutThread) (v : EosUdpInThread)
    (t : EosTcpClientThread F) (iu₀ iu₁ iu₂ iu₃ : UdpOutInput)
    (iv₀ iv₁ iv₂ iv₃ : UdpInInput) (it₀ it₁ it₂ it₃ : TcpInput)
    (hu : u.pc = .init) (hv : v.pc = .init) (ht : t.pc = .init)
    (fu : iu₀.ok = false) (fv : iv₀.ok = false) (ft : it₀.ok = false) :
    (let u₄ := EosUdpOutThread.runStep iu₃ (EosUdpOutThread.runStep iu₂
        (EosUdpOutThread.runStep iu₁ (EosUdpOutThread.runStep iu₀ u)))
     u₄.pc = .delayTest ∧ u₄.history = u.history ∧ u₄.m_NetEventQ = u.m_NetEventQ ∧
     u₄.logged = u.logged ++ iu₀.log ++
       (if u.m_Run then [⟨.LOG_MSG_TYPE_INFO, u.reconnectText⟩] else [])) ∧
    (let v₄ := EosUdpInThread.runStep iv₃ (EosUdpInThread.runStep iv₂
        (EosUdpInThread.runStep iv₁ (EosUdpInThread.runStep iv₀ v)))
     v₄.pc = .delayTest ∧ v₄.history = v.history ∧ v₄.m_Q = v.m_Q ∧
     v₄.logged = v.logged ++ iv₀.log ++
       (if v.m_Run then [⟨.LOG_MSG_TYPE_INFO, v.reconnectText⟩] else [])) ∧
    (let t₄ := EosTcpClientThread.runStep it₃ (EosTcpClientThread.runStep it₂
        (EosTcpClientThread.runStep it₁ (EosTcpClientThread.runStep it₀ t)))
     t₄.pc = .delayTest ∧ t₄.history = t.history ∧ t₄.m_NetEventQ = t.m_NetEventQ ∧
     t₄.logged = t.logged ++ it₀.log ++
       (if t.m_Run then [⟨.LOG_MSG_TYPE_INFO, t.reconnectText⟩] else [])) ∧
    (plainText u.m_Ip →
      (⟨.LOG_MSG_TYPE_INFO, u.reconnectText⟩ : sLogMsg) =
        reconnectLine "udp output" u.m_Ip u.m_Port) ∧
    (plainText v.m_Ip →
      (⟨.LOG_MSG_TYPE_INFO, v.reconnectText⟩ : sLogMsg) =
        reconnectLine "udp input" v.m_Ip v.m_Port) ∧
    (plainText t.m_Ip →
      (⟨.LOG_MSG_TYPE_INFO, t.reconnectText⟩ : sLogMsg) =
        reconnectLine "tcp client" t.m_Ip t.m_Port) ∧
    (∀ transport ip port,
      (reconnectLine transport ip port).type = .LOG_MSG_TYPE_INFO ∧
      (reconnectLine transport ip port).text =
        transport ++ " " ++ ip ++ ":" ++ toString port ++ " reconnecting in 5..." ∧
      containsText (reconnectLine transport ip port).text "reconnecting in 5") ∧
    ReconnectDelay = 5000 ∧
    (∀ (x : EosUdpOutThread) (inp : UdpOutInput), x.pc = .delayTest →
      (EosUdpOutThread.runStep inp x).pc =
        (if x.m_Run = true ∧ inp.expired = false then .delayTest else .outerTest)) ∧
    (∀ (x : EosUdpInThread) (inp : UdpInInput), x.pc = .delayTest →
      (EosUdpInThread.runStep inp x).pc =
        (if x.m_Run = true ∧ inp.expired = false then .delayTest else .outerTest)) ∧
    (∀ (x : EosTcpClientThread F) (inp : TcpInput), x.pc = .delayTest →
      (EosTcpClientThread.runStep inp x).pc =
        (if x.m_Run = true ∧ inp.expired = false then .delayTest else .outerTest)) :=
  ⟨udpOut_init_failure u iu₀ iu₁ iu₂ iu₃ hu fu, udpIn_init_failure v iv₀ iv₁ iv₂ iv₃ hv fv,
    tcp_init_failure t it₀ it₁ it₂ it₃ ht ft,
    udpOut_reconnect_text u, udpIn_reconnect_text v, tcp_reconnect_text t,
    fun transport ip port => ⟨rfl, rfl, reconnectLine_contains transport ip port⟩, rfl,
    fun x inp h => udpOut_delay_step inp x h, fun x inp h => udpIn_delay_step inp x h,
    fun x inp h => tcp_delay_step inp x h⟩

/-- Three workers with the run flag set and the plain address texts 127.0.0.1 and
0.0.0.0 whose `Initialize` fails: the UDP output worker reaches the delay loop with one
more line in its log than `Initialize` wrote, the line
"udp output 127.0.0.1:8000 reconnecting in 5...". -/
theorem init_failure_reconnects_witness :
    (udpOutAtInit.pc = .init ∧ udpInAtInit.pc = .init ∧ tcpAtInit.pc = .init) ∧
    plainText udpOutAtInit.m_Ip ∧
    (EosUdpOutThread.runStep .good (EosUdpOutThread.runStep .good
      (EosUdpOutThread.runStep .good (EosUdpOutThread.runStep .failed udpOutAtInit)))).logged =
      udpOutAtInit.logged ++ UdpOutInput.failed.log ++
        [⟨.LOG_MSG_TYPE_INFO, udpOutAtInit.reconnectText⟩] ∧
    (⟨.LOG_MSG_TYPE_INFO, udpOutAtInit.reconnectText⟩ : sLogMsg) =
      reconnectLine "udp output" "127.0.0.1" 8000 :=
  ⟨⟨rfl, rfl, rfl⟩, by decide,
    (init_failure_reconnects udpOutAtInit udpInAtInit tcpAtInit .failed .good .good .good
      .failed .good .good .good .failed .connected .connected .connected
      rfl rfl rfl rfl rfl rfl).1.2.2.2,
    (init_failure_reconnects udpOutAtInit udpInAtInit tcpAtInit .failed .good .good .good
      .failed .good .good .good .failed .connected .connected .connected
      rfl rfl rfl rfl rfl rfl).2.2.2.1 (by decide)⟩

end ReconnectLine

end OSCWidgets
